import Mathlib

/-!
# AccountStack: request-time data access and response shaping

A shallow embedding of the Go services `api-transactions`, `api-accounts` and
`api-insights` (models, repository, services, and the status a handler
answers) together with the properties of the natural-language specification
that concern them.

Conventions of the embedding

* A Go `map[string]*T` whose key is always the `ID` field of the stored value
  (`r.accounts[acc.ID] = acc`) is the list of its values, in the order in which
  a `range` loop visits them.  Go leaves that order unspecified, so statements
  quantify over every list; what is proved of a result (its members, its
  order by date, its being a permutation) does not depend on the order.  Keys
  of a map are unique: `Nodup` of the `ID`s, which loading establishes.
* `time.Time` is the instant it denotes (an integer count of nanoseconds);
  `Before` and `After` compare instants.
* `float64` is `Float64` below: the comparisons of IEEE 754, NaN unordered.
* A nil-able pointer is an `Option`.
* `(T, error)` results are `Except String T`, the string being the error text.
* `sort.Slice` belongs to the Go library; the service takes it as a parameter
  and the statements assume what its documentation promises.  The run of the
  library's own algorithm is embedded too (`pdqsortFunc`), for the statement
  about the order of ties.
* Functions are modelled on values; where a claim is about what a call writes
  (the insights service), the same functions are also modelled on pointers
  into an explicit heap, and the two models are shown to agree.
* Logging is not modelled.
-/

namespace AccountStack

/-! ## Go primitives -/

/-- Values of Go's `float64` as far as comparison sees them: NaN, the two
infinities and the finite values (both zeros are the finite value `0`). -/
inductive Float64 where
  | nan : Float64
  | negInf : Float64
  | finite (q : ℚ) : Float64
  | posInf : Float64
deriving DecidableEq

namespace Float64

/-- Go `x < y` on `float64`: false as soon as an operand is NaN. -/
def lt : Float64 → Float64 → Bool
  | nan, _ => false
  | _, nan => false
  | negInf, negInf => false
  | negInf, _ => true
  | _, negInf => false
  | finite a, finite b => decide (a < b)
  | finite _, posInf => true
  | posInf, _ => false

/-- Go `x > y` on `float64`. -/
def gt (x y : Float64) : Bool := lt y x

/-- Go `x <= y` on `float64`: false as soon as an operand is NaN. -/
def le : Float64 → Float64 → Bool
  | nan, _ => false
  | _, nan => false
  | negInf, _ => true
  | _, posInf => true
  | finite a, finite b => decide (a ≤ b)
  | finite _, negInf => false
  | posInf, _ => false

/-- Go `x >= y` on `float64`. -/
def ge (x y : Float64) : Bool := le y x

/-- Whether the value is NaN (`math.IsNaN`). -/
def isNaN : Float64 → Bool
  | nan => true
  | _ => false

end Float64

/-- An instant of `time.Time`. -/
abbrev Time := Int

/-- Go `t.Before(u)`. -/
def Time.Before (t u : Time) : Bool := decide (t < u)

/-- Go `t.After(u)`. -/
def Time.After (t u : Time) : Bool := decide (t > u)

/-- Go `p != nil && c(*p)` for a nil-able pointer `p`. -/
def ptrAnd {α : Type} (p : Option α) (c : α → Bool) : Bool :=
  match p with
  | none => false
  | some v => c v

/-- Go `m[k] = v` on a map keyed by `key v`: the entry with that key is
replaced where it stands, a new key is added. -/
def mapSet {V : Type} (key : V → String) : List V → V → List V
  | [], v => [v]
  | x :: xs, v => if key x = key v then v :: xs else x :: mapSet key xs v

/-- Go `v, exists := m[k]`. -/
def mapGet {V : Type} (key : V → String) (m : List V) (k : String) : Option V :=
  m.find? (fun v => decide (key v = k))

/-- Go `strconv.ParseBool`: six spellings of each value are accepted, every
other string is a syntax error. -/
def ParseBool (str : String) : Except String Bool :=
  if str = "1" ∨ str = "t" ∨ str = "T" ∨ str = "true" ∨ str = "TRUE" ∨ str = "True" then
    .ok true
  else if str = "0" ∨ str = "f" ∨ str = "F" ∨ str = "false" ∨ str = "FALSE" ∨ str = "False" then
    .ok false
  else
    .error "invalid syntax"

/-- A library sort in the shape of `sort.Slice(x, less)`, `less` taken on the
elements instead of on their indices. -/
abbrev SortSlice (α : Type) := (α → α → Bool) → List α → List α

/-- What the Go documentation promises of `sort.Slice`: the slice is permuted,
and it ends up ordered by `less` when `less` is a strict weak ordering
(asymmetric and negatively transitive).  Nothing is promised about the
relative order of elements that `less` does not separate. -/
def SortSliceContract {α : Type} (srt : SortSlice α) : Prop :=
  (∀ less l, (srt less l).Perm l) ∧
  (∀ less l, (∀ a b, less a b = true → less b a = false) →
    (∀ a b c, less a c = true → less a b = true ∨ less b c = true) →
    (srt less l).Pairwise (fun a b => less b a = false))

/-- Insertion of `x` into an ordered list, after every element it is not
`less` than. -/
def orderedInsert {α : Type} (less : α → α → Bool) (x : α) : List α → List α
  | [] => [x]
  | y :: ys => if less x y then x :: y :: ys else y :: orderedInsert less x ys

/-- Insertion sort, the stable sort Go uses on short slices. -/
def insertionSort {α : Type} : SortSlice α :=
  fun less l => l.foldl (fun acc x => orderedInsert less x acc) []

/-! ### The run of `sort.Slice`

Since Go 1.19 `sort.Slice(x, less)` runs `pdqsort_func` on the slice, with
`data.Less` and `data.Swap` working on indices.  The slice is a list here,
every function takes it and gives it back with the swaps made, and loops are
recursions on a count of steps that their index range bounds. -/

/-- Go `data.Less(i, j)` of `sort.Slice`, the closure `less` taken on the
elements of the slice `data`. -/
def lessAt {α : Type} (less : α → α → Bool) (data : List α) (i j : Nat) : Bool :=
  match data[i]?, data[j]? with
  | some x, some y => less x y
  | _, _ => false

/-- Go `data.Swap(i, j)`. -/
def swapAt {α : Type} (data : List α) (i j : Nat) : List α :=
  match data[i]?, data[j]? with
  | some x, some y => (data.set i y).set j x
  | _, _ => data

/-- The inner loop of Go `insertionSort_func`, entered with the index `j`:
`for ; j > a && data.Less(j, j-1); j-- { data.Swap(j, j-1) }`. -/
def insertionSortInner {α : Type} (less : α → α → Bool) (a : Nat) : Nat → List α → List α
  | 0, data => data
  | j + 1, data =>
    if j + 1 > a && lessAt less data (j + 1) j then
      insertionSortInner less a j (swapAt data (j + 1) j)
    else data

/-- Go `insertionSort_func(data, a, b)`: insertion sort of `data[a:b]`. -/
def insertionSortFunc {α : Type} (less : α → α → Bool) (data : List α) (a b : Nat) : List α :=
  (List.range' (a + 1) (b - (a + 1))).foldl (fun data i => insertionSortInner less a i data) data

/-- Go `sortedHint`. -/
inductive SortedHint where
  | unknownHint : SortedHint
  | increasingHint : SortedHint
  | decreasingHint : SortedHint
deriving DecidableEq

/-- Go `order2_func`: the two indices in the order of their elements, and the
count of swaps. -/
def order2Func {α : Type} (less : α → α → Bool) (data : List α) (a b swaps : Nat) :
    Nat × Nat × Nat :=
  if lessAt less data b a then (b, a, swaps + 1) else (a, b, swaps)

/-- Go `median_func`: the index of the median of three elements, and the count
of swaps. -/
def medianFunc {α : Type} (less : α → α → Bool) (data : List α) (a b c swaps : Nat) :
    Nat × Nat :=
  let r1 := order2Func less data a b swaps
  let r2 := order2Func less data r1.2.1 c r1.2.2
  let r3 := order2Func less data r1.1 r2.1 r2.2.2
  (r3.2.1, r3.2.2)

/-- Go `choosePivot_func` on a range of fewer than fifty elements (a longer
one takes the ninther of nine elements): a static pivot below eight elements,
the median of three from there on. -/
def choosePivotFunc {α : Type} (less : α → α → Bool) (data : List α) (a b : Nat) :
    Nat × SortedHint :=
  let l := b - a
  let i := a + l / 4 * 1
  let j := a + l / 4 * 2
  let k := a + l / 4 * 3
  let r := if l ≥ 8 then medianFunc less data i j k 0 else (j, 0)
  if r.2 = 0 then (r.1, SortedHint.increasingHint)
  else if r.2 = 4 * 3 then (r.1, SortedHint.decreasingHint)
  else (r.1, SortedHint.unknownHint)

/-- The loop of Go `reverseRange_func`. -/
def reverseRangeLoop {α : Type} : Nat → List α → Nat → Nat → List α
  | 0, data, _, _ => data
  | fuel + 1, data, i, j =>
    if i < j then reverseRangeLoop fuel (swapAt data i j) (i + 1) (j - 1) else data

/-- Go `reverseRange_func(data, a, b)`. -/
def reverseRangeFunc {α : Type} (data : List α) (a b : Nat) : List α :=
  reverseRangeLoop data.length data a (b - 1)

/-- A scan loop `for i <= j && p(i) { i++ }`; `fuel` bounds its steps. -/
def scanUp (p : Nat → Bool) (j : Nat) : Nat → Nat → Nat
  | 0, i => i
  | fuel + 1, i => if i ≤ j && p i then scanUp p j fuel (i + 1) else i

/-- A scan loop `for i <= j && p(j) { j-- }`; `fuel` bounds its steps. -/
def scanDown (p : Nat → Bool) (i : Nat) : Nat → Nat → Nat
  | 0, j => j
  | fuel + 1, j => if i ≤ j && p j then scanDown p i fuel (j - 1) else j

/-- Go `partialInsertionSort_func(data, a, b)` on a range of fewer than fifty
elements, which it leaves as it is: whether the range is sorted. -/
def partialInsertionSortFunc {α : Type} (less : α → α → Bool) (data : List α) (a b : Nat) :
    Bool :=
  let i := scanUp (fun i => !lessAt less data i (i - 1)) (b - 1) data.length (a + 1)
  decide (i = b)

/-- The closing `for` loop of Go `partition_func`: the slice and `j` when it
breaks. -/
def partitionLoop {α : Type} (less : α → α → Bool) (a : Nat) :
    Nat → List α → Nat → Nat → List α × Nat
  | 0, data, _, j => (data, j)
  | fuel + 1, data, i, j =>
    let i := scanUp (fun i => lessAt less data i a) j data.length i
    let j := scanDown (fun j => !lessAt less data j a) i data.length j
    if i > j then (data, j)
    else partitionLoop less a fuel (swapAt data i j) (i + 1) (j - 1)

/-- Go `partition_func(data, a, b, pivot)`: the slice, `newpivot` and
`alreadyPartitioned`. -/
def partitionFunc {α : Type} (less : α → α → Bool) (data : List α) (a b pivot : Nat) :
    List α × Nat × Bool :=
  let data := swapAt data a pivot
  let i := scanUp (fun i => lessAt less data i a) (b - 1) data.length (a + 1)
  let j := scanDown (fun j => !lessAt less data j a) i data.length (b - 1)
  if i > j then
    (swapAt data j a, j, true)
  else
    let data := swapAt data i j
    let r := partitionLoop less a data.length data (i + 1) (j - 1)
    (swapAt r.1 r.2 a, r.2, false)

/-- The `for` loop of Go `partitionEqual_func`: the slice and `i` when it
breaks. -/
def partitionEqualLoop {α : Type} (less : α → α → Bool) (a : Nat) :
    Nat → List α → Nat → Nat → List α × Nat
  | 0, data, i, _ => (data, i)
  | fuel + 1, data, i, j =>
    let i := scanUp (fun i => !lessAt less data a i) j data.length i
    let j := scanDown (fun j => lessAt less data a j) i data.length j
    if i > j then (data, i)
    else partitionEqualLoop less a fuel (swapAt data i j) (i + 1) (j - 1)

/-- Go `partitionEqual_func(data, a, b, pivot)`: the slice and `newpivot`. -/
def partitionEqualFunc {α : Type} (less : α → α → Bool) (data : List α) (a b pivot : Nat) :
    List α × Nat :=
  let data := swapAt data a pivot
  partitionEqualLoop less a data.length data (a + 1) (b - 1)

/-- Go `pdqsort_func(data, a, b, limit)`, the sort behind `sort.Slice` since
Go 1.19; `fuel` bounds the turns of its loop and the depth of its recursion,
`wasBalanced` and `wasPartitioned` are the two variables of the loop.  The
run is `none` where the library leaves the part embedded here: on a range of
fifty elements or more, where it would break patterns after an unbalanced
partition, and where it would fall back to heapsort. -/
def pdqsortFunc {α : Type} (less : α → α → Bool) :
    Nat → List α → Nat → Nat → Nat → Bool → Bool → Option (List α)
  | 0, _, _, _, _, _, _ => none
  | fuel + 1, data, a, b, limit, wasBalanced, wasPartitioned =>
    let length := b - a
    if length ≤ 12 then
      some (insertionSortFunc less data a b)
    else if length ≥ 50 then
      none
    else if limit = 0 then
      none
    else if !wasBalanced then
      none
    else
      let c := choosePivotFunc less data a b
      let reversed := decide (c.2 = SortedHint.decreasingHint)
      let data := if reversed then reverseRangeFunc data a b else data
      let pivot := if reversed then (b - 1) - (c.1 - a) else c.1
      let hint := if reversed then SortedHint.increasingHint else c.2
      if wasBalanced && wasPartitioned && decide (hint = SortedHint.increasingHint)
          && partialInsertionSortFunc less data a b then
        some data
      else if a > 0 && !lessAt less data (a - 1) pivot then
        let e := partitionEqualFunc less data a b pivot
        pdqsortFunc less fuel e.1 e.2 b limit wasBalanced wasPartitioned
      else
        let p := partitionFunc less data a b pivot
        let mid := p.2.1
        let leftLen := mid - a
        let rightLen := b - mid
        let balanceThreshold := length / 8
        if leftLen < rightLen then
          match pdqsortFunc less fuel p.1 a mid limit true true with
          | none => none
          | some data =>
            pdqsortFunc less fuel data (mid + 1) b limit (decide (leftLen ≥ balanceThreshold))
              p.2.2
        else
          match pdqsortFunc less fuel p.1 (mid + 1) b limit true true with
          | none => none
          | some data =>
            pdqsortFunc less fuel data a mid limit (decide (rightLen ≥ balanceThreshold))
              p.2.2

/-- Go `bits.Len(uint(n))`: the number of binary digits of `n`. -/
def bitsLen (n : Nat) : Nat := if n = 0 then 0 else (Nat.toDigits 2 n).length

/-- Go `sort.Slice(x, less)` since Go 1.19, as far as `pdqsortFunc` embeds it;
the slice comes back as it is where the run leaves that part. -/
def sortSlicePdq {α : Type} : SortSlice α :=
  fun less x =>
    match pdqsortFunc less (x.length + 1) x 0 x.length (bitsLen x.length) true true with
    | some data => data
    | none => x

/-! ## api-transactions -/

namespace ApiTransactions

/-- Go `models.Transaction`. -/
structure Transaction where
  ID : String
  AccountID : String
  Date : Time
  Description : String
  Amount : Float64
  Category : String
  Merchant : String
  Status : String
  Type_ : String
deriving DecidableEq

/-- Go `models.TransactionFilters`. -/
structure TransactionFilters where
  AccountID : String
  StartDate : Option Time
  EndDate : Option Time
  Category : String
  MinAmount : Option Float64
  MaxAmount : Option Float64
deriving DecidableEq

/-- Go `(*Transaction).Matches`. -/
def Transaction.Matches (t : Transaction) (filters : TransactionFilters) : Bool :=
  if filters.AccountID != "" && t.AccountID != filters.AccountID then false
  else if ptrAnd filters.StartDate (fun s => Time.Before t.Date s) then false
  else if ptrAnd filters.EndDate (fun e => Time.After t.Date e) then false
  else if filters.Category != "" && t.Category != filters.Category then false
  else if ptrAnd filters.MinAmount (fun m => Float64.lt t.Amount m) then false
  else if ptrAnd filters.MaxAmount (fun m => Float64.gt t.Amount m) then false
  else true

/-- Go `repository.Account` of api-transactions. -/
structure Account where
  ID : String
  UserID : String
deriving DecidableEq

/-- Go `repository.Repository` of api-transactions: the two maps. -/
structure Repository where
  transactions : List Transaction
  accounts : List Account

/-- Keys of both maps are unique. -/
def Repository.WF (r : Repository) : Prop :=
  (r.transactions.map (fun t => t.ID)).Nodup ∧ (r.accounts.map (fun a => a.ID)).Nodup

/-- Go `(*Repository).loadAccounts`, after the file is decoded. -/
def Repository.loadAccounts (r : Repository) (accounts : List Account) : Repository :=
  { r with accounts := accounts.foldl (mapSet (fun a => a.ID)) r.accounts }

/-- Go `(*Repository).loadTransactions`, after the file is decoded. -/
def Repository.loadTransactions (r : Repository) (transactions : List Transaction) :
    Repository :=
  { r with transactions := transactions.foldl (mapSet (fun t => t.ID)) r.transactions }

/-- Go `NewRepository`, on the decoded contents of the two files. -/
def NewRepository (accounts : List Account) (transactions : List Transaction) : Repository :=
  (Repository.loadAccounts ⟨[], []⟩ accounts).loadTransactions transactions

/-- Go `(*Repository).GetTransactionByID`. -/
def Repository.GetTransactionByID (r : Repository) (txnID : String) :
    Except String Transaction :=
  match mapGet (fun t => t.ID) r.transactions txnID with
  | none => .error "transaction not found"
  | some txn => .ok txn

/-- Go `(*Repository).GetAccountIDsByUserID`. -/
def Repository.GetAccountIDsByUserID (r : Repository) (userID : String) : List String :=
  r.accounts.foldl
    (fun accountIDs acc => if acc.UserID = userID then accountIDs ++ [acc.ID] else accountIDs) []

/-- Go `(*Repository).GetTransactionsByFilter`. -/
def Repository.GetTransactionsByFilter (r : Repository) (filters : TransactionFilters) :
    List Transaction :=
  r.transactions.foldl
    (fun filtered txn => if txn.Matches filters then filtered ++ [txn] else filtered) []

/-- Go `features.Flags` of api-transactions. -/
structure Flags where
  advancedFilters : Bool
deriving DecidableEq

/-- Go `(*Flags).IsAdvancedFiltersEnabled`; the receiver may be nil. -/
def Flags.IsAdvancedFiltersEnabled (f : Option Flags) : Bool :=
  match f with
  | none => false
  | some fl => fl.advancedFilters

/-- Go `(*Flags).SetAdvancedFilters`, as the flag store after the call; a nil
receiver is left as it is. -/
def Flags.SetAdvancedFilters (f : Option Flags) (enabled : Bool) : Option Flags :=
  match f with
  | none => none
  | some fl => some { fl with advancedFilters := enabled }

/-- Go `Initialize` of api-transactions, `getenv` being `os.Getenv` (the empty
string for a variable that is not set).  The store it returns is never nil and
its error always nil. -/
def Initialize (getenv : String → String) : Flags :=
  let flags : Flags := { advancedFilters := false }
  let advancedFiltersStr := getenv "FEATURE_ADVANCED_FILTERS"
  if advancedFiltersStr ≠ "" then
    match ParseBool advancedFiltersStr with
    | .ok advancedFilters => { flags with advancedFilters := advancedFilters }
    | .error _ => flags
  else flags

/-- The filter `GetTransactions` builds for one account in its loop body. -/
def effectiveFilters (advancedFiltersEnabled : Bool) (accountID : String)
    (filters : TransactionFilters) : TransactionFilters :=
  if advancedFiltersEnabled then
    { AccountID := accountID
      StartDate := filters.StartDate
      EndDate := filters.EndDate
      Category := filters.Category
      MinAmount := filters.MinAmount
      MaxAmount := filters.MaxAmount }
  else
    { AccountID := accountID
      StartDate := none
      EndDate := none
      Category := ""
      MinAmount := none
      MaxAmount := none }

/-- The slice `allTransactions` of `GetTransactions` when its loop is over:
the per-account results, appended in the order of the account ids. -/
def collectTransactions (r : Repository) (advancedFiltersEnabled : Bool)
    (userAccountIDs : List String) (filters : TransactionFilters) : List Transaction :=
  userAccountIDs.foldl
    (fun allTransactions accountID =>
      allTransactions ++
        r.GetTransactionsByFilter (effectiveFilters advancedFiltersEnabled accountID filters))
    []

/-- The `less` closure handed to `sort.Slice` by `GetTransactions`. -/
def dateLess (a b : Transaction) : Bool := Time.After a.Date b.Date

/-- Go `(*TransactionService).GetTransactions`; `srt` is `sort.Slice`. -/
def GetTransactions (srt : SortSlice Transaction) (r : Repository) (flags : Option Flags)
    (userID : String) (filters : TransactionFilters) : Except String (List Transaction) :=
  let userAccountIDs := r.GetAccountIDsByUserID userID
  if userAccountIDs.length = 0 then
    .ok []
  else
    let advancedFiltersEnabled := Flags.IsAdvancedFiltersEnabled flags
    let allTransactions := collectTransactions r advancedFiltersEnabled userAccountIDs filters
    .ok (srt dateLess allTransactions)

end ApiTransactions

/-! ## api-accounts -/

namespace ApiAccounts

/-- Go `models.User`. -/
structure User where
  ID : String
  Email : String
  Name : String
  FirstName : String
  LastName : String
  Country : String
  CreatedAt : Time
  LastLogin : Time
deriving DecidableEq

/-- Go `models.Account`. -/
structure Account where
  ID : String
  UserID : String
  AccountNumber : String
  AccountType : String
  AccountName : String
  Balance : Float64
  Currency : String
  CreditLimit : Option Float64
  Status : String
  OpenedDate : Time
  LastActivity : Time
deriving DecidableEq

/-- The values a field of Go type `any` holds in `AccountResponse`: nothing
(the nil interface, left out of the JSON by `omitempty`), a `float64` or a
`string`. -/
inductive AnyAmount where
  | null : AnyAmount
  | number (v : Float64) : AnyAmount
  | text (s : String) : AnyAmount
deriving DecidableEq

/-- Go `models.AccountResponse`. -/
structure AccountResponse where
  ID : String
  UserID : String
  AccountNumber : String
  AccountType : String
  AccountName : String
  Balance : AnyAmount
  Currency : String
  CreditLimit : AnyAmount
  Status : String
  OpenedDate : Time
  LastActivity : Time
deriving DecidableEq

/-- Go `(*Account).ToResponse`. -/
def Account.ToResponse (a : Account) (maskAmounts : Bool) (currency : String) :
    AccountResponse :=
  let resp : AccountResponse :=
    { ID := a.ID
      UserID := a.UserID
      AccountNumber := a.AccountNumber
      AccountType := a.AccountType
      AccountName := a.AccountName
      Balance := AnyAmount.null
      Currency := currency
      CreditLimit := AnyAmount.null
      Status := a.Status
      OpenedDate := a.OpenedDate
      LastActivity := a.LastActivity }
  if maskAmounts then
    let resp := { resp with Balance := AnyAmount.text "***.**" }
    match a.CreditLimit with
    | some _ => { resp with CreditLimit := AnyAmount.text "***.**" }
    | none => resp
  else
    let resp := { resp with Balance := AnyAmount.number a.Balance }
    match a.CreditLimit with
    | some limit => { resp with CreditLimit := AnyAmount.number limit }
    | none => resp

/-- The composite literal with which `ToResponse` starts (account.go:37-47):
the response under construction before the amounts are set. -/
def Account.newResponse (a : Account) (currency : String) : AccountResponse :=
  { ID := a.ID
    UserID := a.UserID
    AccountNumber := a.AccountNumber
    AccountType := a.AccountType
    AccountName := a.AccountName
    Balance := AnyAmount.null
    Currency := currency
    CreditLimit := AnyAmount.null
    Status := a.Status
    OpenedDate := a.OpenedDate
    LastActivity := a.LastActivity }

/-- The statements of the masking branch of `ToResponse` (account.go:50-53),
`resp.Balance = "***.**"` and, when `a.CreditLimit != nil`,
`resp.CreditLimit = "***.**"`, as the change they make to the response
`resp`. -/
def Account.maskBranch (a : Account) (resp : AccountResponse) : AccountResponse :=
  let resp := { resp with Balance := AnyAmount.text "***.**" }
  match a.CreditLimit with
  | some _ => { resp with CreditLimit := AnyAmount.text "***.**" }
  | none => resp

/-- The statements of the other branch of `ToResponse` (account.go:55-58),
`resp.Balance = a.Balance` and, when `a.CreditLimit != nil`,
`resp.CreditLimit = *a.CreditLimit`, as the change they make to the response
`resp`. -/
def Account.plainBranch (a : Account) (resp : AccountResponse) : AccountResponse :=
  let resp := { resp with Balance := AnyAmount.number a.Balance }
  match a.CreditLimit with
  | some limit => { resp with CreditLimit := AnyAmount.number limit }
  | none => resp

/-- Go `repository.Repository` of api-accounts: the two maps. -/
structure Repository where
  users : List User
  accounts : List Account

/-- Keys of both maps are unique. -/
def Repository.WF (r : Repository) : Prop :=
  (r.users.map (fun u => u.ID)).Nodup ∧ (r.accounts.map (fun a => a.ID)).Nodup

/-- Go `(*Repository).loadUsers`, after the file is decoded. -/
def Repository.loadUsers (r : Repository) (users : List User) : Repository :=
  { r with users := users.foldl (mapSet (fun u => u.ID)) r.users }

/-- Go `(*Repository).loadAccounts`, after the file is decoded. -/
def Repository.loadAccounts (r : Repository) (accounts : List Account) : Repository :=
  { r with accounts := accounts.foldl (mapSet (fun a => a.ID)) r.accounts }

/-- Go `NewRepository`, on the decoded contents of the two files. -/
def NewRepository (users : List User) (accounts : List Account) : Repository :=
  (Repository.loadUsers ⟨[], []⟩ users).loadAccounts accounts

/-- Go `(*Repository).GetUserByID`. -/
def Repository.GetUserByID (r : Repository) (userID : String) : Except String User :=
  match mapGet (fun u => u.ID) r.users userID with
  | none => .error "user not found"
  | some user => .ok user

/-- Go `(*Repository).GetAccountByID`. -/
def Repository.GetAccountByID (r : Repository) (accountID : String) :
    Except String Account :=
  match mapGet (fun a => a.ID) r.accounts accountID with
  | none => .error "account not found"
  | some account => .ok account

/-- Go `(*Repository).GetAccountsByUserID`. -/
def Repository.GetAccountsByUserID (r : Repository) (userID : String) :
    Except String (List Account) :=
  .ok (r.accounts.foldl
    (fun userAccounts account =>
      if account.UserID = userID then userAccounts ++ [account] else userAccounts) [])

/-- The two methods of `features.Flags` that the account service calls.  The
package is not among the sources, so what they return is a parameter: the
mask flag and the currency derived from a country code. -/
structure Flags where
  ShouldMaskAmounts : Bool
  GetCurrencyForUser : String → String

/-- Go `(*AccountService).GetAccountByID`. -/
def GetAccountByID (r : Repository) (flags : Flags) (accountID userID : String) :
    Except String AccountResponse :=
  match r.GetAccountByID accountID with
  | .error err => .error err
  | .ok account =>
    if account.UserID ≠ userID then
      .error "unauthorized"
    else
      match r.GetUserByID userID with
      | .error err => .error err
      | .ok user =>
        let maskAmounts := flags.ShouldMaskAmounts
        let currency := flags.GetCurrencyForUser user.Country
        .ok (account.ToResponse maskAmounts currency)

/-- Go `(*AccountService).GetAccountsByUserID`. -/
def GetAccountsByUserID (r : Repository) (flags : Flags) (userID : String) :
    Except String (List AccountResponse) :=
  match r.GetAccountsByUserID userID with
  | .error err => .error err
  | .ok accounts =>
    match r.GetUserByID userID with
    | .error err => .error err
    | .ok user =>
      let maskAmounts := flags.ShouldMaskAmounts
      let currency := flags.GetCurrencyForUser user.Country
      .ok (accounts.map (fun account => account.ToResponse maskAmounts currency))

/-- The HTTP status that `(*AccountHandler).GetAccountByID` writes. -/
def handlerGetAccountByIDStatus (r : Repository) (flags : Flags) (userID accountID : String) :
    Nat :=
  if accountID = "" then 400
  else
    match GetAccountByID r flags accountID userID with
    | .error err => if err = "unauthorized" then 403 else 404
    | .ok _ => 200

/-- Go `middleware.GetUserID`.  `ctxUserID` is the outcome of the type
assertion `r.Context().Value(userIDKey).(string)`: `none` when the context
holds no string under the key. -/
def GetUserID (ctxUserID : Option String) : String :=
  match ctxUserID with
  | none => "user-001"
  | some userID => userID

/-- What `(*AccountHandler).GetAccounts` answers: the HTTP status and, with
status 200, the accounts it encodes. -/
def handlerGetAccounts (r : Repository) (flags : Flags) (ctxUserID : Option String) :
    Nat × Option (List AccountResponse) :=
  let userID := GetUserID ctxUserID
  match GetAccountsByUserID r flags userID with
  | .error _ => (500, none)
  | .ok accounts => (200, some accounts)

end ApiAccounts

/-! ## api-insights -/

namespace ApiInsights

/-- Go `models.Insight`. -/
structure Insight where
  ID : String
  UserID : String
  Type_ : String
  Category : String
  Title : String
  Description : String
  Severity : String
  CreatedAt : Time
  Actionable : Bool
  Recommendation : Option String
deriving DecidableEq

/-- Go `models.Alert`. -/
structure Alert where
  ID : String
  UserID : String
  Type_ : String
  Title : String
  Message : String
  Priority : String
  CreatedAt : Time
  Read : Bool
  ActionURL : Option String
deriving DecidableEq

/-- Go `repository.Repository` of api-insights: the two maps. -/
structure Repository where
  insights : List Insight
  alerts : List Alert

/-- Keys of both maps are unique. -/
def Repository.WF (r : Repository) : Prop :=
  (r.insights.map (fun i => i.ID)).Nodup ∧ (r.alerts.map (fun a => a.ID)).Nodup

/-- Go `(*Repository).loadInsights`, after the file is decoded. -/
def Repository.loadInsights (r : Repository) (insights : List Insight) : Repository :=
  { r with insights := insights.foldl (mapSet (fun i => i.ID)) r.insights }

/-- Go `mapSeverityToPriority`. -/
def mapSeverityToPriority (severity : String) : String :=
  if severity = "high" then "critical"
  else if severity = "medium" then "high"
  else "medium"

/-- Go `fmt.Sprintf("%03d", n)` for a counter that is not negative: the
decimal digits of `n`, with zeros put in front up to a width of three. -/
def sprintf03d (n : Nat) : String :=
  let digits := Nat.toDigits 10 n
  String.mk (List.replicate (3 - digits.length) '0' ++ digits)

/-- Go `fmt.Sprintf("alert-%03d", alertCounter)`. -/
def alertID (alertCounter : Nat) : String := "alert-" ++ sprintf03d alertCounter

/-- The `&models.Alert{...}` literal of `generateAlerts`. -/
def newAlert (alertCounter : Nat) (insight : Insight) : Alert :=
  { ID := alertID alertCounter
    UserID := insight.UserID
    Type_ := insight.Type_
    Title := insight.Title
    Message := insight.Description
    Priority := mapSeverityToPriority insight.Severity
    CreatedAt := insight.CreatedAt
    Read := false
    ActionURL := none }

/-- Go `(*Repository).generateAlerts`; the state of its loop is the alerts map
and `alertCounter`. -/
def Repository.generateAlerts (r : Repository) : Repository :=
  let final := r.insights.foldl
    (fun (st : List Alert × Nat) insight =>
      if insight.Actionable && (insight.Severity == "medium" || insight.Severity == "high") then
        (mapSet (fun a => a.ID) st.1 (newAlert st.2 insight), st.2 + 1)
      else st)
    (r.alerts, 1)
  { r with alerts := final.1 }

/-- Go `NewRepository`, on the decoded contents of the insights file. -/
def NewRepository (insights : List Insight) : Repository :=
  (Repository.loadInsights ⟨[], []⟩ insights).generateAlerts

/-- Go `(*Repository).GetInsightByID`. -/
def Repository.GetInsightByID (r : Repository) (insightID : String) : Except String Insight :=
  match mapGet (fun i => i.ID) r.insights insightID with
  | none => .error "insight not found"
  | some insight => .ok insight

/-- Go `(*Repository).GetInsightsByUserID`. -/
def Repository.GetInsightsByUserID (r : Repository) (userID : String) :
    Except String (List Insight) :=
  .ok (r.insights.foldl
    (fun userInsights insight =>
      if insight.UserID = userID then userInsights ++ [insight] else userInsights) [])

/-- Go `(*Repository).GetAlertsByUserID`. -/
def Repository.GetAlertsByUserID (r : Repository) (userID : String) :
    Except String (List Alert) :=
  .ok (r.alerts.foldl
    (fun userAlerts alert =>
      if alert.UserID = userID then userAlerts ++ [alert] else userAlerts) [])

/-- Go `features.Flags` of api-insights. -/
structure Flags where
  insightsV2 : Bool
  alertsEnabled : Bool
deriving DecidableEq

/-- Go `(*Flags).IsInsightsV2Enabled`; the receiver may be nil. -/
def Flags.IsInsightsV2Enabled (f : Option Flags) : Bool :=
  match f with
  | none => false
  | some fl => fl.insightsV2

/-- Go `(*Flags).IsAlertsEnabled`; the receiver may be nil. -/
def Flags.IsAlertsEnabled (f : Option Flags) : Bool :=
  match f with
  | none => true
  | some fl => fl.alertsEnabled

/-- Go `(*Flags).SetInsightsV2`, as the flag store after the call; a nil
receiver is left as it is. -/
def Flags.SetInsightsV2 (f : Option Flags) (enabled : Bool) : Option Flags :=
  match f with
  | none => none
  | some fl => some { fl with insightsV2 := enabled }

/-- Go `(*Flags).SetAlertsEnabled`, as the flag store after the call; a nil
receiver is left as it is. -/
def Flags.SetAlertsEnabled (f : Option Flags) (enabled : Bool) : Option Flags :=
  match f with
  | none => none
  | some fl => some { fl with alertsEnabled := enabled }

/-- Go `Initialize` of api-insights, `getenv` being `os.Getenv` (the empty
string for a variable that is not set).  The store it returns is never nil and
its error always nil. -/
def Initialize (getenv : String → String) : Flags :=
  let flags : Flags := { insightsV2 := false, alertsEnabled := false }
  let insightsV2Str := getenv "FEATURE_INSIGHTS_V2"
  let flags : Flags :=
    if insightsV2Str ≠ "" then
      match ParseBool insightsV2Str with
      | .ok insightsV2 => { flags with insightsV2 := insightsV2 }
      | .error _ => flags
    else flags
  let flags : Flags := { flags with alertsEnabled := true }
  let alertsEnabledStr := getenv "FEATURE_ALERTS_ENABLED"
  if alertsEnabledStr ≠ "" then
    match ParseBool alertsEnabledStr with
    | .ok alertsEnabled => { flags with alertsEnabled := alertsEnabled }
    | .error _ => flags
  else flags

/-- Go `(*InsightsService).applyV2ToSingleInsight`, on the value of the
insight: the copy with the suffix on its title. -/
def applyV2ToSingleInsight (insight : Insight) : Insight :=
  let modified := insight
  { modified with Title := insight.Title ++ " (V2)" }

/-- Go `(*InsightsService).applyV2Algorithm`, on the values of the insights. -/
def applyV2Algorithm (insights : List Insight) : List Insight :=
  insights.map (fun insight =>
    let modified := insight
    { modified with Title := insight.Title ++ " (V2)" })

/-- Go `(*InsightsService).GetInsightsByUserID`. -/
def GetInsightsByUserID (r : Repository) (flags : Option Flags) (userID : String) :
    Except String (List Insight) :=
  match r.GetInsightsByUserID userID with
  | .error err => .error err
  | .ok insights =>
    if Flags.IsInsightsV2Enabled flags then .ok (applyV2Algorithm insights)
    else .ok insights

/-- Go `(*InsightsService).GetInsightByID`. -/
def GetInsightByID (r : Repository) (flags : Option Flags) (insightID : String) :
    Except String Insight :=
  match r.GetInsightByID insightID with
  | .error err => .error err
  | .ok insight =>
    if Flags.IsInsightsV2Enabled flags then .ok (applyV2ToSingleInsight insight)
    else .ok insight

/-- Go `(*AlertsService).GetAlertsByUserID`. -/
def GetAlertsByUserID (r : Repository) (flags : Option Flags) (userID : String) :
    Except String (List Alert) :=
  if !Flags.IsAlertsEnabled flags then
    .error "alerts feature is currently disabled"
  else
    match r.GetAlertsByUserID userID with
    | .error err => .error err
    | .ok alerts => .ok alerts

/-- What `(*InsightsHandler).GetInsightByID` answers: the HTTP status and, with
status 200, the insight it encodes. -/
def handlerGetInsightByID (r : Repository) (flags : Option Flags) (userID insightID : String) :
    Nat × Option Insight :=
  match GetInsightByID r flags insightID with
  | .error _ => (404, none)
  | .ok insight =>
    if insight.UserID ≠ userID then (403, none)
    else (200, some insight)

/-- What `(*AlertsHandler).GetAlerts` answers: the HTTP status and, with status
200, the alerts it encodes. -/
def handlerGetAlerts (r : Repository) (flags : Option Flags) (userID : String) :
    Nat × Option (List Alert) :=
  if !Flags.IsAlertsEnabled flags then (503, none)
  else
    match GetAlertsByUserID r flags userID with
    | .error _ => (500, none)
    | .ok alerts => (200, some alerts)

/-! ### The insights service on pointers

The repository stores `*models.Insight` and the service hands pointers out,
so whether a read changes a stored insight is a question about the heap.
Here the heap is the list of the `Insight` values allocated so far and a
pointer is an index into it; a result `none` is a nil or dangling
dereference. -/

/-- The `Insight` values on the Go heap. -/
abbrev Heap := List Insight

/-- The insights map as Go holds it: the entries, key and `*models.Insight`, in
the order of a `range` loop. -/
abbrev InsightMap := List (String × Nat)

/-- Go `insight, exists := r.insights[insightID]`. -/
def ptrMapGet (m : InsightMap) (insightID : String) : Option Nat :=
  (m.find? (fun e => decide (e.1 = insightID))).map (fun e => e.2)

/-- The stored insights: each key of the map with the value behind its
pointer. -/
def storedInsights (m : InsightMap) (heap : Heap) : List (String × Option Insight) :=
  m.map (fun e => (e.1, heap[e.2]?))

/-- The loop of `(*Repository).GetInsightsByUserID` on pointers: it reads the
`UserID` behind each stored pointer and collects the pointers of the user. -/
def ptrGetInsightsByUserID (heap : Heap) (userID : String) :
    InsightMap → List Nat → Option (List Nat)
  | [], userInsights => some userInsights
  | (_, insight) :: rest, userInsights =>
    match heap[insight]? with
    | none => none
    | some v =>
      ptrGetInsightsByUserID heap userID rest
        (if v.UserID = userID then userInsights ++ [insight] else userInsights)

/-- Go `(*InsightsService).applyV2ToSingleInsight` on pointers:
`modified := *insight` allocates a copy, `modified.Title = insight.Title +
" (V2)"` writes the title of the copy, and `&modified` is returned. -/
def ptrApplyV2ToSingleInsight (heap : Heap) (insight : Nat) : Option (Heap × Nat) :=
  match heap[insight]? with
  | none => none
  | some v =>
    let modified := heap.length
    let heap1 := heap ++ [v]
    match heap1[insight]? with
    | none => none
    | some w => some (heap1.set modified { v with Title := w.Title ++ " (V2)" }, modified)

/-- Go `(*InsightsService).applyV2Algorithm` on pointers; the body of its loop
is that of `applyV2ToSingleInsight`. -/
def ptrApplyV2Algorithm (heap : Heap) : List Nat → List Nat → Option (Heap × List Nat)
  | [], modifiedInsights => some (heap, modifiedInsights)
  | insight :: rest, modifiedInsights =>
    match ptrApplyV2ToSingleInsight heap insight with
    | none => none
    | some (heap1, modified) => ptrApplyV2Algorithm heap1 rest (modifiedInsights ++ [modified])

/-- Go `(*InsightsService).GetInsightsByUserID` on pointers: the heap after the
call and the pointers returned. -/
def ptrServiceGetInsightsByUserID (m : InsightMap) (heap : Heap) (flags : Option Flags)
    (userID : String) : Option (Heap × List Nat) :=
  match ptrGetInsightsByUserID heap userID m [] with
  | none => none
  | some insights =>
    if Flags.IsInsightsV2Enabled flags then ptrApplyV2Algorithm heap insights []
    else some (heap, insights)

/-- Go `(*InsightsService).GetInsightByID` on pointers: the heap after the call
and the pointer returned, or the not-found error. -/
def ptrServiceGetInsightByID (m : InsightMap) (heap : Heap) (flags : Option Flags)
    (insightID : String) : Option (Heap × Except String Nat) :=
  match ptrMapGet m insightID with
  | none => some (heap, .error "insight not found")
  | some insight =>
    if Flags.IsInsightsV2Enabled flags then
      match ptrApplyV2ToSingleInsight heap insight with
      | none => none
      | some (heap1, modified) => some (heap1, .ok modified)
    else some (heap, .ok insight)

/-- A read of the insights service, with the flag store it meets. -/
inductive Call where
  | getInsightsByUserID (flags : Option Flags) (userID : String) : Call
  | getInsightByID (flags : Option Flags) (insightID : String) : Call

/-- The heap after one read. -/
def runCall (m : InsightMap) (heap : Heap) : Call → Option Heap
  | Call.getInsightsByUserID flags userID =>
    (ptrServiceGetInsightsByUserID m heap flags userID).map (fun res => res.1)
  | Call.getInsightByID flags insightID =>
    (ptrServiceGetInsightByID m heap flags insightID).map (fun res => res.1)

/-- The heap after a sequence of reads. -/
def runCalls (m : InsightMap) (heap : Heap) : List Call → Option Heap
  | [] => some heap
  | call :: rest =>
    match runCall m heap call with
    | none => none
    | some heap1 => runCalls m heap1 rest

end ApiInsights

/-! ## Statements of the specification and sample data -/

namespace ApiTransactions

/-- The user `userID` owns a stored account with id `accountID`. -/
def ownsAccount (r : Repository) (userID accountID : String) : Prop :=
  ∃ a ∈ r.accounts, a.ID = accountID ∧ a.UserID = userID

/-- The filter spec `filters` with the account id pinned to `accountID`. -/
def pinned (filters : TransactionFilters) (accountID : String) : TransactionFilters :=
  { filters with AccountID := accountID }

/-- The spec's exact union (section 8): `l` holds exactly the stored
transactions of an account owned by `userID` that match `filters` pinned to
their account. -/
def IsExactUnion (r : Repository) (userID : String) (filters : TransactionFilters)
    (l : List Transaction) : Prop :=
  ∀ t, t ∈ l ↔
    t ∈ r.transactions ∧ ownsAccount r userID t.AccountID ∧
      t.Matches (pinned filters t.AccountID) = true

/-- The spec's reading of a match (section 4.2): every present constraint
holds, the four range bounds inclusive. -/
def matchesSpec (t : Transaction) (f : TransactionFilters) : Prop :=
  (f.AccountID = "" ∨ t.AccountID = f.AccountID) ∧
  (∀ s, f.StartDate = some s → t.Date ≥ s) ∧
  (∀ e, f.EndDate = some e → t.Date ≤ e) ∧
  (f.Category = "" ∨ t.Category = f.Category) ∧
  (∀ m, f.MinAmount = some m → Float64.ge t.Amount m = true) ∧
  (∀ m, f.MaxAmount = some m → Float64.le t.Amount m = true)

/-- No NaN among the amount of `t` and the amount bounds of `f`. -/
def amountsOrdered (t : Transaction) (f : TransactionFilters) : Prop :=
  t.Amount.isNaN = false ∧
  (∀ m, f.MinAmount = some m → m.isNaN = false) ∧
  (∀ m, f.MaxAmount = some m → m.isNaN = false)

/-- A stable sort by date: for every date, the transactions of that date stand
in `sorted` in the order they have in `unsorted`. -/
def StableByDate (unsorted sorted : List Transaction) : Prop :=
  ∀ d : Time, sorted.filter (fun t => decide (t.Date = d))
    = unsorted.filter (fun t => decide (t.Date = d))

/-- A filter spec with no constraint set. -/
def noFilters : TransactionFilters :=
  { AccountID := "", StartDate := none, EndDate := none, Category := "",
    MinAmount := none, MaxAmount := none }

/-- A filter spec whose only constraint is the category. -/
def categoryFilters (category : String) : TransactionFilters :=
  { AccountID := "", StartDate := none, EndDate := none, Category := category,
    MinAmount := none, MaxAmount := none }

/-- A filter spec whose only constraint is the lower amount bound. -/
def minAmountFilters (minAmount : Float64) : TransactionFilters :=
  { AccountID := "", StartDate := none, EndDate := none, Category := "",
    MinAmount := some minAmount, MaxAmount := none }

/-- A completed debit, for the examples. -/
def sampleTxn (id accountID : String) (date : Time) (amount : ℚ) (category : String) :
    Transaction :=
  { ID := id, AccountID := accountID, Date := date, Description := "Test Transaction",
    Amount := Float64.finite amount, Category := category, Merchant := "Test Store",
    Status := "completed", Type_ := "debit" }

/-- The transaction of `TestTransactionMatches`; its date counts days of
December 2024. -/
def testTxn : Transaction := sampleTxn "txn-001" "acc-001" 10 (-50) "shopping"

/-- A snapshot in which user-001 has an account whose id is the empty string. -/
def leakRepo : Repository :=
  NewRepository [⟨"", "user-001"⟩, ⟨"acc-004", "user-002"⟩]
    [sampleTxn "txn-900" "acc-004" 10 (-50) "shopping"]

/-- A snapshot with one account and the three dates of the sort scenario. -/
def scenarioRepo : Repository :=
  NewRepository [⟨"acc-001", "user-001"⟩]
    [sampleTxn "txn-001" "acc-001" 10 (-50) "shopping",
     sampleTxn "txn-002" "acc-001" 8 (-20) "shopping",
     sampleTxn "txn-003" "acc-001" 9 (-30) "food_dining"]

/-- A snapshot with thirteen transactions on one account: twelve of one date
and a last one of a later date. -/
def thirteenRepo : Repository :=
  NewRepository [⟨"acc-001", "user-001"⟩]
    [sampleTxn "txn-001" "acc-001" 5 (-10) "shopping",
     sampleTxn "txn-002" "acc-001" 5 (-20) "shopping",
     sampleTxn "txn-003" "acc-001" 5 (-30) "shopping",
     sampleTxn "txn-004" "acc-001" 5 (-40) "shopping",
     sampleTxn "txn-005" "acc-001" 5 (-50) "shopping",
     sampleTxn "txn-006" "acc-001" 5 (-60) "shopping",
     sampleTxn "txn-007" "acc-001" 5 (-70) "shopping",
     sampleTxn "txn-008" "acc-001" 5 (-80) "shopping",
     sampleTxn "txn-009" "acc-001" 5 (-90) "shopping",
     sampleTxn "txn-010" "acc-001" 5 (-100) "shopping",
     sampleTxn "txn-011" "acc-001" 5 (-110) "shopping",
     sampleTxn "txn-012" "acc-001" 5 (-120) "shopping",
     sampleTxn "txn-013" "acc-001" 9 (-130) "shopping"]

/-- A filter spec whose only constraint is the account id. -/
def accountFilters (accountID : String) : TransactionFilters :=
  { AccountID := accountID, StartDate := none, EndDate := none, Category := "",
    MinAmount := none, MaxAmount := none }

/-- The stored transactions of accounts owned by `userID` that match the
effective filter of their own account. -/
def matchingOwned (r : Repository) (advancedFiltersEnabled : Bool) (userID : String)
    (filters : TransactionFilters) : List Transaction :=
  r.transactions.filter (fun t =>
    decide (t.AccountID ∈ r.GetAccountIDsByUserID userID) &&
      t.Matches (effectiveFilters advancedFiltersEnabled t.AccountID filters))

/-- A snapshot in which user-001 owns two accounts, each with one
transaction. -/
def twoAccountRepo : Repository :=
  NewRepository [⟨"acc-001", "user-001"⟩, ⟨"acc-002", "user-001"⟩]
    [sampleTxn "txn-001" "acc-001" 10 (-50) "shopping",
     sampleTxn "txn-002" "acc-002" 9 (-20) "shopping"]

/-- A snapshot in which user-001 owns acc-001 and an account whose id is the
empty string; its one transaction is on acc-001. -/
def overlapRepo : Repository :=
  NewRepository [⟨"", "user-001"⟩, ⟨"acc-001", "user-001"⟩]
    [sampleTxn "txn-001" "acc-001" 10 (-50) "shopping"]

end ApiTransactions

namespace ApiAccounts

/-- A user record, for the examples. -/
def sampleUser (id country : String) : User :=
  { ID := id, Email := id ++ "@example.com", Name := "Test User", FirstName := "Test",
    LastName := "User", Country := country, CreatedAt := 0, LastLogin := 0 }

/-- An active checking account, for the examples. -/
def sampleAccount (id userID : String) (balance : ℚ) (creditLimit : Option Float64) :
    Account :=
  { ID := id, UserID := userID, AccountNumber := "1234567890", AccountType := "checking",
    AccountName := "Main Checking", Balance := Float64.finite balance, Currency := "USD",
    CreditLimit := creditLimit, Status := "active", OpenedDate := 0, LastActivity := 0 }

/-- Flag values for the examples: amounts masked, pounds for UK callers and
dollars for the others. -/
def demoFlags : Flags :=
  { ShouldMaskAmounts := true
    GetCurrencyForUser := fun country => if country = "UK" then "GBP" else "USD" }

/-- A snapshot with two users; acc-004 belongs to user-002, as in the
integration test. -/
def demoRepo : Repository :=
  NewRepository [sampleUser "user-001" "US", sampleUser "user-002" "UK"]
    [sampleAccount "acc-001" "user-001" 1500 (some (Float64.finite 5000)),
     sampleAccount "acc-004" "user-002" 25000 none]

/-- A snapshot whose accounts file names an owner that the users file lacks. -/
def orphanRepo : Repository :=
  NewRepository [sampleUser "user-002" "UK"]
    [sampleAccount "acc-001" "user-001" 1500 none]

end ApiAccounts

namespace ApiInsights

/-- The insights that `generateAlerts` turns into alerts: actionable, of
severity medium or high. -/
def qualifies (insight : Insight) : Bool :=
  insight.Actionable && (insight.Severity == "medium" || insight.Severity == "high")

/-- The alerts derived from a run of qualifying insights, the first of them
with the counter `alertCounter`, each next one with the counter one higher. -/
def deriveAlerts (alertCounter : Nat) : List Insight → List Alert
  | [] => []
  | insight :: rest => newAlert alertCounter insight :: deriveAlerts (alertCounter + 1) rest

/-- The severity-to-priority mapping as it shows in a run: there are as many
alerts as qualifying insights, and the alert at the place of a high insight
has priority critical, the one at the place of a medium insight priority
high. -/
def PriorityMapped (insights : List Insight) (alerts : List Alert) : Prop :=
  alerts.length = (insights.filter qualifies).length ∧
  ∀ (k : Nat) (h1 : k < alerts.length) (h2 : k < (insights.filter qualifies).length),
    (((insights.filter qualifies).get ⟨k, h2⟩).Severity = "high" →
      (alerts.get ⟨k, h1⟩).Priority = "critical") ∧
    (((insights.filter qualifies).get ⟨k, h2⟩).Severity = "medium" →
      (alerts.get ⟨k, h1⟩).Priority = "high")

/-- The insights that a map of pointers stores, in the order of the map. -/
def viewInsights (m : InsightMap) (heap : Heap) : List Insight :=
  m.filterMap (fun e => heap[e.2]?)

/-- Every entry of the map points to an insight whose `ID` is its key, as
after `loadInsights`. -/
def KeysMatch (m : InsightMap) (heap : Heap) : Prop :=
  ∀ e ∈ m, ∃ v, heap[e.2]? = some v ∧ v.ID = e.1

/-- The map and the heap after loading `demoInsights`. -/
def demoMap : InsightMap := [("ins-001", 0), ("ins-002", 1), ("ins-003", 2), ("ins-004", 3)]

/-- Three reads: the list of user-001 and the insight ins-001 with the V2 flag
on, then the list of user-002 with a nil flag store. -/
def demoCalls : List Call :=
  [Call.getInsightsByUserID (some ⟨true, true⟩) "user-001",
   Call.getInsightByID (some ⟨true, true⟩) "ins-001",
   Call.getInsightsByUserID none "user-002"]

/-- The number that a run of decimal digits denotes. -/
def decimalValue (digits : List Char) : Nat :=
  digits.foldl (fun acc c => acc * 10 + (c.toNat - 48)) 0

/-- An insight of the spending type, for the examples. -/
def sampleInsight (id userID severity : String) (actionable : Bool) (title : String) :
    Insight :=
  { ID := id, UserID := userID, Type_ := "spending", Category := "budget", Title := title,
    Description := "You spent more than usual", Severity := severity, CreatedAt := 0,
    Actionable := actionable, Recommendation := none }

/-- A decoded insights file: for user-001 a high, a low and a high insight
that is not actionable, for user-002 a medium one. -/
def demoInsights : List Insight :=
  [sampleInsight "ins-001" "user-001" "high" true "High Spending Alert",
   sampleInsight "ins-002" "user-001" "low" true "Savings Tip",
   sampleInsight "ins-003" "user-002" "medium" true "Budget Warning",
   sampleInsight "ins-004" "user-001" "high" false "Market Update"]

/-- The repository loaded from `demoInsights`. -/
def demoRepo : Repository := NewRepository demoInsights

end ApiInsights

/-- The environment leaves the flag of the variable `name` at its default:
the variable is not set (or empty), or `strconv.ParseBool` rejects its
value. -/
def noOverride (getenv : String → String) (name : String) : Prop :=
  getenv name = "" ∨ ∀ b, ParseBool (getenv name) ≠ .ok b

/-- An environment in which only FEATURE_ALERTS_ENABLED is set, to a value
that is no boolean. -/
def demoEnv : String → String :=
  fun name => if name = "FEATURE_ALERTS_ENABLED" then "maybe" else ""

/-- An environment in which only FEATURE_INSIGHTS_V2 is set, to true. -/
def v2Env : String → String :=
  fun name => if name = "FEATURE_INSIGHTS_V2" then "true" else ""

/-! ## Lemmas on the primitives -/

section Primitives

variable {α β : Type}

/-- The Go idiom `for _, x := range l { if p(x) { acc = append(acc, g(x)) } }`
is a filter followed by a map. -/
theorem foldl_append_if_map (p : α → Prop) [DecidablePred p] (g : α → β) (l : List α)
    (init : List β) :
    l.foldl (fun acc x => if p x then acc ++ [g x] else acc) init
      = init ++ (l.filter (fun x => decide (p x))).map g := by
  induction l generalizing init with
  | nil => simp
  | cons x xs ih =>
    simp only [List.foldl_cons, ih, List.filter_cons]
    by_cases hx : p x <;> simp [hx]

/-- The Go idiom `for _, x := range l { acc = append(acc, g(x)...) }`. -/
theorem foldl_append_flatMap (g : α → List β) (l : List α) (init : List β) :
    l.foldl (fun acc x => acc ++ g x) init = init ++ l.flatMap g := by
  induction l generalizing init with
  | nil => simp
  | cons x xs ih => simp [List.foldl_cons, ih, List.flatMap_cons, List.append_assoc]

theorem mapGet_some {key : α → String} {m : List α} {k : String} {v : α}
    (h : mapGet key m k = some v) : v ∈ m ∧ key v = k := by
  unfold mapGet at h
  exact ⟨List.mem_of_find?_eq_some h, by simpa using List.find?_some h⟩

theorem mapGet_none {key : α → String} {m : List α} {k : String} :
    mapGet key m k = none ↔ ∀ v ∈ m, key v ≠ k := by
  unfold mapGet
  simp [List.find?_eq_none]

/-- In a map (unique keys) the value found under the key of a stored value is
that value. -/
theorem mapGet_of_mem {key : α → String} {m : List α} (hm : (m.map key).Nodup) {v : α}
    (hv : v ∈ m) : mapGet key m (key v) = some v := by
  induction m with
  | nil => cases hv
  | cons x xs ih =>
    rw [List.map_cons, List.nodup_cons] at hm
    unfold mapGet
    rw [List.find?_cons]
    by_cases hx : key x = key v
    · simp only [hx, decide_True]
      rcases List.mem_cons.1 hv with rfl | hmem
      · rfl
      · exact absurd (hx ▸ List.mem_map_of_mem key hmem) hm.1
    · simp only [hx, decide_False]
      rcases List.mem_cons.1 hv with rfl | hmem
      · exact absurd rfl hx
      · exact ih hm.2 hmem

theorem mapSet_keys (key : α → String) (m : List α) (v : α) :
    (mapSet key m v).map key
      = if key v ∈ m.map key then m.map key else m.map key ++ [key v] := by
  induction m with
  | nil => simp [mapSet]
  | cons x xs ih =>
    unfold mapSet
    by_cases hx : key x = key v
    · simp [hx]
    · have hx2 : ¬ key v = key x := fun h => hx h.symm
      simp only [hx, if_false, List.map_cons, ih, List.mem_cons, hx2, false_or]
      split <;> simp

theorem mapSet_nodup (key : α → String) (m : List α) (v : α) (hm : (m.map key).Nodup) :
    ((mapSet key m v).map key).Nodup := by
  rw [mapSet_keys]
  split
  · exact hm
  · rename_i hv
    rw [List.nodup_append]
    refine ⟨hm, List.nodup_singleton _, ?_⟩
    intro a ha hb
    rw [List.mem_singleton] at hb
    exact hv (hb ▸ ha)

/-- Loading a decoded array into a map keeps the keys unique. -/
theorem foldl_mapSet_nodup (key : α → String) (vs m : List α) (hm : (m.map key).Nodup) :
    ((vs.foldl (mapSet key) m).map key).Nodup := by
  induction vs generalizing m with
  | nil => exact hm
  | cons v vs ih => exact ih _ (mapSet_nodup key m v hm)

/-- Between values that are not NaN, `x < y` fails exactly when `x >= y`. -/
theorem Float64.lt_eq_false_iff (x y : Float64) (hx : x.isNaN = false) (hy : y.isNaN = false) :
    Float64.lt x y = false ↔ Float64.ge x y = true := by
  cases x <;> cases y <;> simp [Float64.lt, Float64.ge, Float64.le, Float64.isNaN] at *

/-- Between values that are not NaN, `x > y` fails exactly when `x <= y`. -/
theorem Float64.gt_eq_false_iff (x y : Float64) (hx : x.isNaN = false) (hy : y.isNaN = false) :
    Float64.gt x y = false ↔ Float64.le x y = true := by
  cases x <;> cases y <;>
    simp [Float64.gt, Float64.lt, Float64.ge, Float64.le, Float64.isNaN] at *

theorem orderedInsert_perm (less : α → α → Bool) (x : α) (l : List α) :
    (orderedInsert less x l).Perm (x :: l) := by
  induction l with
  | nil => exact List.Perm.refl _
  | cons y ys ih =>
    unfold orderedInsert
    split
    · exact List.Perm.refl _
    · exact ((List.Perm.cons y ih).trans (List.Perm.swap x y ys))

theorem orderedInsert_pairwise (less : α → α → Bool)
    (hasym : ∀ a b, less a b = true → less b a = false)
    (hneg : ∀ a b c, less a c = true → less a b = true ∨ less b c = true)
    (x : α) (l : List α) (hl : l.Pairwise (fun a b => less b a = false)) :
    (orderedInsert less x l).Pairwise (fun a b => less b a = false) := by
  induction l with
  | nil => simp [orderedInsert]
  | cons y ys ih =>
    rw [List.pairwise_cons] at hl
    unfold orderedInsert
    by_cases hxy : less x y = true
    · rw [if_pos hxy]
      refine List.pairwise_cons.2 ⟨?_, List.pairwise_cons.2 hl⟩
      intro z hz
      rcases List.mem_cons.1 hz with rfl | hz
      · exact hasym _ _ hxy
      · cases hzx : less z x with
        | false => rfl
        | true =>
          rcases hneg z y x hzx with h1 | h2
          · rw [hl.1 z hz] at h1; cases h1
          · rw [hasym _ _ hxy] at h2; cases h2
    · rw [if_neg hxy]
      refine List.pairwise_cons.2 ⟨?_, ih hl.2⟩
      intro w hw
      rcases List.mem_cons.1 ((orderedInsert_perm less x ys).mem_iff.1 hw) with rfl | hw
      · simpa using hxy
      · exact hl.1 w hw

theorem foldl_orderedInsert_perm (less : α → α → Bool) (l acc : List α) :
    (l.foldl (fun acc x => orderedInsert less x acc) acc).Perm (acc ++ l) := by
  induction l generalizing acc with
  | nil => simp
  | cons x xs ih =>
    refine (ih _).trans ?_
    refine ((orderedInsert_perm less x acc).append_right xs).trans ?_
    simpa using (@List.perm_middle _ x acc xs).symm

theorem foldl_orderedInsert_pairwise (less : α → α → Bool)
    (hasym : ∀ a b, less a b = true → less b a = false)
    (hneg : ∀ a b c, less a c = true → less a b = true ∨ less b c = true)
    (l acc : List α) (hacc : acc.Pairwise (fun a b => less b a = false)) :
    (l.foldl (fun acc x => orderedInsert less x acc) acc).Pairwise
      (fun a b => less b a = false) := by
  induction l generalizing acc with
  | nil => exact hacc
  | cons x xs ih => exact ih _ (orderedInsert_pairwise less hasym hneg x acc hacc)

/-- Insertion sort meets the contract of `sort.Slice`. -/
theorem insertionSort_contract : SortSliceContract (insertionSort : SortSlice α) := by
  refine ⟨fun less l => ?_, fun less l hasym hneg => ?_⟩
  · simpa [insertionSort] using foldl_orderedInsert_perm less l []
  · exact foldl_orderedInsert_pairwise less hasym hneg l [] List.Pairwise.nil

/-- Setting a key that the front part of a map does not hold leaves that part
alone. -/
theorem mapSet_append_of_not_mem (key : α → String) (front back : List α) (v : α)
    (h : key v ∉ front.map key) :
    mapSet key (front ++ back) v = front ++ mapSet key back v := by
  induction front with
  | nil => rfl
  | cons x xs ih =>
    rw [List.map_cons, List.mem_cons, not_or] at h
    have hx : ¬ key x = key v := fun e => h.1 e.symm
    rw [List.cons_append, mapSet, if_neg hx, ih h.2, List.cons_append]

/-- Setting the key of the first entry replaces that entry. -/
theorem mapSet_cons_of_eq (key : α → String) (x v : α) (rest : List α)
    (h : key x = key v) : mapSet key (x :: rest) v = v :: rest := by
  rw [mapSet, if_pos h]

/-- A loop that acts on the elements passing a test is the loop over the
filtered list. -/
theorem foldl_if_eq_foldl_filter {σ : Type} (p : α → Bool) (g : σ → α → σ) (l : List α)
    (init : σ) :
    l.foldl (fun st x => if p x then g st x else st) init = (l.filter p).foldl g init := by
  induction l generalizing init with
  | nil => rfl
  | cons x xs ih =>
    rw [List.foldl_cons, ih, List.filter_cons]
    cases hp : p x <;> simp

theorem mem_mapSet (key : α → String) (m : List α) (v x : α) (h : x ∈ mapSet key m v) :
    x ∈ m ∨ x = v := by
  induction m with
  | nil => simpa [mapSet] using h
  | cons y ys ih =>
    unfold mapSet at h
    by_cases hy : key y = key v
    · rw [if_pos hy] at h
      rcases List.mem_cons.1 h with rfl | h
      · exact Or.inr rfl
      · exact Or.inl (List.mem_cons_of_mem _ h)
    · rw [if_neg hy] at h
      rcases List.mem_cons.1 h with rfl | h
      · exact Or.inl (List.mem_cons_self _ _)
      · rcases ih h with h | h
        · exact Or.inl (List.mem_cons_of_mem _ h)
        · exact Or.inr h

/-- Every value of a map loaded from a decoded array is an element of the
array (or was in the map before). -/
theorem mem_foldl_mapSet (key : α → String) (vs m : List α) (x : α)
    (h : x ∈ vs.foldl (mapSet key) m) : x ∈ m ∨ x ∈ vs := by
  induction vs generalizing m with
  | nil => exact Or.inl h
  | cons v vs ih =>
    rcases ih _ h with h | h
    · rcases mem_mapSet key m v x h with h | h
      · exact Or.inl h
      · exact Or.inr (h ▸ List.mem_cons_self _ _)
    · exact Or.inr (List.mem_cons_of_mem _ h)

/-- The keys of a map loaded from a decoded array are the keys it had and the
keys of the array. -/
theorem mem_keys_foldl_mapSet (key : α → String) (vs m : List α) (k : String) :
    k ∈ (vs.foldl (mapSet key) m).map key ↔ k ∈ m.map key ∨ k ∈ vs.map key := by
  induction vs generalizing m with
  | nil => simp
  | cons v vs ih =>
    rw [List.foldl_cons, ih, mapSet_keys, List.map_cons, List.mem_cons]
    by_cases hv : key v ∈ m.map key
    · rw [if_pos hv]
      constructor
      · rintro (h | h)
        · exact Or.inl h
        · exact Or.inr (Or.inr h)
      · rintro (h | h | h)
        · exact Or.inl h
        · exact Or.inl (h ▸ hv)
        · exact Or.inr h
    · rw [if_neg hv, List.mem_append, List.mem_singleton]
      tauto

/-- Lookup in a map loaded from a decoded array: nothing is found exactly when
no element of the array has the key, and what is found is an element of the
array with that key. -/
theorem mapGet_loaded (key : α → String) (vs : List α) (k : String) :
    (mapGet key (vs.foldl (mapSet key) []) k = none ↔ ∀ v ∈ vs, key v ≠ k) ∧
    (∀ v, mapGet key (vs.foldl (mapSet key) []) k = some v → v ∈ vs ∧ key v = k) := by
  constructor
  · rw [mapGet_none]
    have hk := mem_keys_foldl_mapSet key vs [] k
    simp only [List.map_nil, List.not_mem_nil, false_or, List.mem_map] at hk
    constructor
    · intro h v hv hkv
      obtain ⟨w, hw, hwk⟩ := hk.2 ⟨v, hv, hkv⟩
      exact h w hw hwk
    · intro h v hv hkv
      obtain ⟨w, hw, hwk⟩ := hk.1 ⟨v, hv, hkv⟩
      exact h w hw hwk
  · intro v hv
    obtain ⟨hmem, hkey⟩ := mapGet_some hv
    rcases mem_foldl_mapSet key vs [] v hmem with h | h
    · cases h
    · exact ⟨h, hkey⟩

/-- The shape shared by the `Get...ByID` methods, on a map loaded from a decoded
array: when the result `res` is the error `e` for a key that is not found and
the value found otherwise, the error comes back exactly when no element of
the array has the id, any value that comes back is an element of the array
with that id, and one of the two comes back. -/
theorem lookup_loaded (key : α → String) (vs : List α) (k e : String)
    (res : Except String α)
    (hnone : mapGet key (vs.foldl (mapSet key) []) k = none → res = .error e)
    (hsome : ∀ v, mapGet key (vs.foldl (mapSet key) []) k = some v → res = .ok v) :
    (res = .error e ↔ ∀ v ∈ vs, key v ≠ k) ∧
    (∀ v, res = .ok v → v ∈ vs ∧ key v = k) ∧
    (res = .error e ∨ ∃ v, res = .ok v) := by
  have hl := mapGet_loaded key vs k
  cases hg : mapGet key (vs.foldl (mapSet key) []) k with
  | none =>
    have hres := hnone hg
    refine ⟨⟨fun _ => hl.1.1 hg, fun _ => hres⟩, fun v hv => ?_, Or.inl hres⟩
    rw [hres] at hv
    cases hv
  | some w =>
    have hres := hsome w hg
    refine ⟨⟨fun h => ?_, fun h => ?_⟩, fun v hv => ?_, Or.inr ⟨w, hres⟩⟩
    · rw [hres] at h
      cases h
    · have := hl.1.2 h
      rw [hg] at this
      cases this
    · rw [hres] at hv
      have hvw : w = v := by injection hv
      subst hvw
      exact hl.2 w hg

/-- Equal lists have equal elements at each index. -/
theorem get_congr_list {l l2 : List α} (h : l = l2) (k : Nat) (h1 : k < l.length)
    (h2 : k < l2.length) : l.get ⟨k, h1⟩ = l2.get ⟨k, h2⟩ := by
  subst h
  rfl

end Primitives

/-! ## api-transactions: the query engine -/

namespace ApiTransactions

theorem GetAccountIDsByUserID_eq (r : Repository) (userID : String) :
    r.GetAccountIDsByUserID userID
      = (r.accounts.filter (fun a => decide (a.UserID = userID))).map (fun a => a.ID) := by
  unfold Repository.GetAccountIDsByUserID
  rw [foldl_append_if_map (fun a : Account => a.UserID = userID) (fun a => a.ID)]
  simp

theorem GetTransactionsByFilter_eq (r : Repository) (filters : TransactionFilters) :
    r.GetTransactionsByFilter filters = r.transactions.filter (fun t => t.Matches filters) := by
  unfold Repository.GetTransactionsByFilter
  rw [foldl_append_if_map (fun t : Transaction => t.Matches filters = true) (fun t => t)]
  simp

theorem collectTransactions_eq (r : Repository) (adv : Bool) (ids : List String)
    (filters : TransactionFilters) :
    collectTransactions r adv ids filters
      = ids.flatMap (fun id =>
          r.transactions.filter (fun t => t.Matches (effectiveFilters adv id filters))) := by
  unfold collectTransactions
  rw [foldl_append_flatMap
    (fun id => r.GetTransactionsByFilter (effectiveFilters adv id filters))]
  simp [GetTransactionsByFilter_eq]

theorem mem_GetAccountIDsByUserID (r : Repository) (userID id : String) :
    id ∈ r.GetAccountIDsByUserID userID ↔ ownsAccount r userID id := by
  rw [GetAccountIDsByUserID_eq]
  simp only [List.mem_map, List.mem_filter, decide_eq_true_eq, ownsAccount]
  constructor
  · rintro ⟨a, ⟨ha, hu⟩, hid⟩
    exact ⟨a, ha, hid, hu⟩
  · rintro ⟨a, ha, hid, hu⟩
    exact ⟨a, ⟨ha, hu⟩, hid⟩

theorem mem_collectTransactions (r : Repository) (adv : Bool) (ids : List String)
    (filters : TransactionFilters) (t : Transaction) :
    t ∈ collectTransactions r adv ids filters ↔
      ∃ id ∈ ids, t ∈ r.transactions ∧ t.Matches (effectiveFilters adv id filters) = true := by
  rw [collectTransactions_eq]
  simp [List.mem_flatMap, List.mem_filter]

theorem effectiveFilters_AccountID (adv : Bool) (id : String) (f : TransactionFilters) :
    (effectiveFilters adv id f).AccountID = id := by
  cases adv <;> rfl

theorem effectiveFilters_on (id : String) (f : TransactionFilters) :
    effectiveFilters true id f = pinned f id := rfl

theorem effectiveFilters_off (id : String) (f : TransactionFilters) :
    effectiveFilters false id f = pinned noFilters id := rfl

/-- A match against a filter with a non-empty account id is a transaction of
that account. -/
theorem Matches_AccountID {t : Transaction} {f : TransactionFilters}
    (hid : f.AccountID ≠ "") (h : t.Matches f = true) : t.AccountID = f.AccountID := by
  unfold Transaction.Matches at h
  by_contra hne
  simp [hid, hne] at h

theorem dateLess_asymm (a b : Transaction) (h : dateLess a b = true) : dateLess b a = false := by
  simp only [dateLess, Time.After, decide_eq_true_eq, decide_eq_false_iff_not] at *
  exact not_lt.2 (le_of_lt h)

theorem dateLess_negTrans (a b c : Transaction) (h : dateLess a c = true) :
    dateLess a b = true ∨ dateLess b c = true := by
  simp only [dateLess, Time.After, decide_eq_true_eq] at *
  rcases lt_or_le b.Date a.Date with h1 | h1
  · exact Or.inl h1
  · exact Or.inr (lt_of_lt_of_le h h1)

/-- A repository built by `NewRepository` has unique keys in both maps. -/
theorem NewRepository_WF (accounts : List Account) (transactions : List Transaction) :
    (NewRepository accounts transactions).WF :=
  ⟨foldl_mapSet_nodup (fun t : Transaction => t.ID) transactions [] List.nodup_nil,
    foldl_mapSet_nodup (fun a : Account => a.ID) accounts [] List.nodup_nil⟩

/-- What `GetTransactions` returns, for any library sort that keeps the
contract of `sort.Slice`: never an error, a permutation of the appended
per-account results, ordered by `dateLess`. -/
theorem GetTransactions_ok (srt : SortSlice Transaction) (hsrt : SortSliceContract srt)
    (r : Repository) (flags : Option Flags) (userID : String) (filters : TransactionFilters) :
    ∃ l, GetTransactions srt r flags userID filters = .ok l ∧
      l.Perm (collectTransactions r (Flags.IsAdvancedFiltersEnabled flags)
        (r.GetAccountIDsByUserID userID) filters) ∧
      l.Pairwise (fun a b => dateLess b a = false) := by
  unfold GetTransactions
  by_cases h0 : (r.GetAccountIDsByUserID userID).length = 0
  · have hnil : r.GetAccountIDsByUserID userID = [] := List.length_eq_zero.1 h0
    refine ⟨[], by simp [h0], ?_, List.Pairwise.nil⟩
    rw [hnil]
    simp [collectTransactions]
  · refine ⟨_, by simp only [h0, if_false], hsrt.1 _ _, hsrt.2 _ _ dateLess_asymm dateLess_negTrans⟩

/-- With no owned account of empty id, the appended per-account results are
the stored transactions of owned accounts that match the effective filter of
their own account. -/
theorem mem_collectTransactions_owned (r : Repository) (adv : Bool) (userID : String)
    (filters : TransactionFilters)
    (hids : ∀ a ∈ r.accounts, a.UserID = userID → a.ID ≠ "") (t : Transaction) :
    t ∈ collectTransactions r adv (r.GetAccountIDsByUserID userID) filters ↔
      t ∈ r.transactions ∧ ownsAccount r userID t.AccountID ∧
        t.Matches (effectiveFilters adv t.AccountID filters) = true := by
  rw [mem_collectTransactions]
  constructor
  · rintro ⟨id, hid, ht, hm⟩
    have hown := (mem_GetAccountIDsByUserID r userID id).1 hid
    obtain ⟨a, ha, haid, hau⟩ := hown
    have hne : (effectiveFilters adv id filters).AccountID ≠ "" := by
      rw [effectiveFilters_AccountID, ← haid]
      exact hids a ha hau
    have hacc : t.AccountID = id := by
      rw [Matches_AccountID hne hm, effectiveFilters_AccountID]
    subst hacc
    exact ⟨ht, ⟨a, ha, haid, hau⟩, hm⟩
  · rintro ⟨ht, hown, hm⟩
    exact ⟨t.AccountID, (mem_GetAccountIDsByUserID r userID _).2 hown, ht, hm⟩

theorem scenarioRepo_accounts : scenarioRepo.accounts = [⟨"acc-001", "user-001"⟩] := by
  decide

/-- User isolation, where it holds: when none of the caller's accounts has the
empty id, every returned transaction is a stored transaction of an account
the caller owns. -/
theorem GetTransactions_isolated (srt : SortSlice Transaction)
    (hsrt : SortSliceContract srt) (r : Repository) (flags : Option Flags) (userID : String)
    (filters : TransactionFilters)
    (hids : ∀ a ∈ r.accounts, a.UserID = userID → a.ID ≠ "") :
    ∃ l, GetTransactions srt r flags userID filters = .ok l ∧
      ∀ t ∈ l, t ∈ r.transactions ∧ ownsAccount r userID t.AccountID := by
  obtain ⟨l, hl, hperm, -⟩ := GetTransactions_ok srt hsrt r flags userID filters
  refine ⟨l, hl, fun t ht => ?_⟩
  have h := (mem_collectTransactions_owned r _ userID filters hids t).1 (hperm.mem_iff.1 ht)
  exact ⟨h.1, h.2.1⟩

/-- The isolation of user-001 on the snapshot of the sort scenario. -/
theorem GetTransactions_isolated_witness :
    SortSliceContract (insertionSort : SortSlice Transaction) ∧
    (∀ a ∈ scenarioRepo.accounts, a.UserID = "user-001" → a.ID ≠ "") ∧
    ∃ l, GetTransactions insertionSort scenarioRepo none "user-001" noFilters = .ok l ∧
      ∀ t ∈ l, t ∈ scenarioRepo.transactions ∧ ownsAccount scenarioRepo "user-001" t.AccountID :=
  ⟨insertionSort_contract, by simp [scenarioRepo_accounts],
    GetTransactions_isolated insertionSort insertionSort_contract scenarioRepo none
      "user-001" noFilters (by simp [scenarioRepo_accounts])⟩

theorem leakRepo_accounts :
    leakRepo.accounts = [⟨"", "user-001"⟩, ⟨"acc-004", "user-002"⟩] := by
  decide

theorem leakRepo_transactions :
    leakRepo.transactions = [sampleTxn "txn-900" "acc-004" 10 (-50) "shopping"] := rfl

/-- C1 (user isolation), evaluated where the code breaks it: on the snapshot
`leakRepo`, in which user-001 owns an account whose id is the empty string,
`GetTransactions` for user-001 returns a transaction of acc-004, an account of
user-002 that user-001 does not own.  The filter pinned to the account `""`
carries an empty account id, which `Matches` reads as no account constraint.
This holds for every state of the flag and every library sort. -/
theorem GetTransactions_leaks_through_empty_account_id (srt : SortSlice Transaction)
    (hsrt : SortSliceContract srt) (flags : Option Flags) :
    ∃ l, GetTransactions srt leakRepo flags "user-001" noFilters = .ok l ∧
      ∃ t ∈ l, t.AccountID = "acc-004" ∧ ¬ ownsAccount leakRepo "user-001" t.AccountID := by
  obtain ⟨l, hl, hperm, -⟩ := GetTransactions_ok srt hsrt leakRepo flags "user-001" noFilters
  refine ⟨l, hl, sampleTxn "txn-900" "acc-004" 10 (-50) "shopping", hperm.mem_iff.2 ?_, rfl, ?_⟩
  · rw [mem_collectTransactions]
    refine ⟨"", (mem_GetAccountIDsByUserID _ _ _).2 ?_, ?_, ?_⟩
    · exact ⟨⟨"", "user-001"⟩, by simp [leakRepo_accounts], rfl, rfl⟩
    · simp [leakRepo_transactions]
    · cases Flags.IsAdvancedFiltersEnabled flags <;> rfl
  · rintro ⟨a, ha, haid, hau⟩
    rw [leakRepo_accounts] at ha
    simp only [List.mem_cons, List.mem_singleton, List.not_mem_nil, or_false] at ha
    rcases ha with rfl | rfl
    · simp [sampleTxn] at haid
    · simp at hau

/-- The leak of C1 at insertion sort and a nil flag store. -/
theorem GetTransactions_leaks_through_empty_account_id_witness :
    SortSliceContract (insertionSort : SortSlice Transaction) ∧
    ∃ l, GetTransactions insertionSort leakRepo none "user-001" noFilters = .ok l ∧
      ∃ t ∈ l, t.AccountID = "acc-004" ∧ ¬ ownsAccount leakRepo "user-001" t.AccountID :=
  ⟨insertionSort_contract,
    GetTransactions_leaks_through_empty_account_id insertionSort insertionSort_contract none⟩

/-- C2 as amended (exact union): when none of the caller's accounts has the
empty id, the transactions `GetTransactions` returns are exactly the stored
transactions whose account the caller owns and which match the effective
filter pinned to their own account.  With the advanced-filters flag on the
effective filter is the filter spec itself, so the result is the exact union
of the spec; with the flag off it is the exact union for the filter spec that
has no constraint. -/
theorem GetTransactions_exact_union (srt : SortSlice Transaction)
    (hsrt : SortSliceContract srt) (r : Repository) (flags : Option Flags) (userID : String)
    (filters : TransactionFilters)
    (hids : ∀ a ∈ r.accounts, a.UserID = userID → a.ID ≠ "") :
    ∃ l, GetTransactions srt r flags userID filters = .ok l ∧
      (∀ t, t ∈ l ↔
        t ∈ r.transactions ∧ ownsAccount r userID t.AccountID ∧
          t.Matches (effectiveFilters (Flags.IsAdvancedFiltersEnabled flags) t.AccountID
            filters) = true) ∧
      (Flags.IsAdvancedFiltersEnabled flags = true → IsExactUnion r userID filters l) ∧
      (Flags.IsAdvancedFiltersEnabled flags = false → IsExactUnion r userID noFilters l) := by
  obtain ⟨l, hl, hperm, -⟩ := GetTransactions_ok srt hsrt r flags userID filters
  have hmem : ∀ t, t ∈ l ↔
      t ∈ r.transactions ∧ ownsAccount r userID t.AccountID ∧
        t.Matches (effectiveFilters (Flags.IsAdvancedFiltersEnabled flags) t.AccountID
          filters) = true := fun t =>
    hperm.mem_iff.trans (mem_collectTransactions_owned r _ userID filters hids t)
  refine ⟨l, hl, hmem, fun hon t => ?_, fun hoff t => ?_⟩
  · have := hmem t
    rwa [hon, effectiveFilters_on] at this
  · have := hmem t
    rwa [hoff, effectiveFilters_off] at this

/-- C2 as amended, at the snapshot of the sort scenario with the flag on and a
category constraint. -/
theorem GetTransactions_exact_union_witness :
    SortSliceContract (insertionSort : SortSlice Transaction) ∧
    (∀ a ∈ scenarioRepo.accounts, a.UserID = "user-001" → a.ID ≠ "") ∧
    ∃ l, GetTransactions insertionSort scenarioRepo (some ⟨true⟩) "user-001"
        (categoryFilters "shopping") = .ok l ∧
      (∀ t, t ∈ l ↔
        t ∈ scenarioRepo.transactions ∧ ownsAccount scenarioRepo "user-001" t.AccountID ∧
          t.Matches (effectiveFilters (Flags.IsAdvancedFiltersEnabled (some ⟨true⟩))
            t.AccountID (categoryFilters "shopping")) = true) ∧
      (Flags.IsAdvancedFiltersEnabled (some ⟨true⟩) = true →
        IsExactUnion scenarioRepo "user-001" (categoryFilters "shopping") l) ∧
      (Flags.IsAdvancedFiltersEnabled (some ⟨true⟩) = false →
        IsExactUnion scenarioRepo "user-001" noFilters l) :=
  ⟨insertionSort_contract, by simp [scenarioRepo_accounts],
    GetTransactions_exact_union insertionSort insertionSort_contract scenarioRepo
      (some ⟨true⟩) "user-001" (categoryFilters "shopping")
      (by simp [scenarioRepo_accounts])⟩

/-- C2 as stated fails: with the advanced-filters flag off and a filter spec
asking for the category food_dining, the result for user-001 holds the
shopping transaction txn-001, which does not match the filter spec pinned to
its account; the result is no exact union. -/
theorem exact_union_fails_with_flag_off :
    ∃ l, GetTransactions insertionSort scenarioRepo (some ⟨false⟩) "user-001"
        (categoryFilters "food_dining") = .ok l ∧
      testTxn ∈ l ∧
      testTxn.Matches (pinned (categoryFilters "food_dining") testTxn.AccountID)
        = false ∧
      ¬ IsExactUnion scenarioRepo "user-001" (categoryFilters "food_dining") l := by
  refine ⟨[testTxn, sampleTxn "txn-003" "acc-001" 9 (-30) "food_dining",
    sampleTxn "txn-002" "acc-001" 8 (-20) "shopping"], rfl, by simp, by decide, ?_⟩
  intro h
  have h1 := (h testTxn).1 (by simp)
  exact absurd h1.2.2 (by decide)

/-- The method `Matches` as the conjunction of its six guards. -/
theorem Matches_eq_true_iff (t : Transaction) (f : TransactionFilters) :
    t.Matches f = true ↔
      (f.AccountID = "" ∨ t.AccountID = f.AccountID) ∧
      (∀ s, f.StartDate = some s → Time.Before t.Date s = false) ∧
      (∀ e, f.EndDate = some e → Time.After t.Date e = false) ∧
      (f.Category = "" ∨ t.Category = f.Category) ∧
      (∀ m, f.MinAmount = some m → Float64.lt t.Amount m = false) ∧
      (∀ m, f.MaxAmount = some m → Float64.gt t.Amount m = false) := by
  obtain ⟨aid, sd, ed, cat, mn, mx⟩ := f
  unfold Transaction.Matches
  cases sd <;> cases ed <;> cases mn <;> cases mx <;>
    by_cases h1 : aid = "" <;> by_cases h2 : t.AccountID = aid <;>
    by_cases h3 : cat = "" <;> by_cases h4 : t.Category = cat <;>
    simp [ptrAnd, h1, h2, h3, h4]

/-- C3 as amended: for a transaction and a filter spec whose amount and
amount bounds are not NaN, `Matches` is true if and only if every present
constraint holds (account id, inclusive date range, category, inclusive
amount range); and a filter spec with no constraint set matches every
transaction. -/
theorem Matches_iff_matchesSpec (t : Transaction) (f : TransactionFilters)
    (h : amountsOrdered t f) :
    (t.Matches f = true ↔ matchesSpec t f) ∧ ∀ u : Transaction, u.Matches noFilters = true := by
  obtain ⟨ht, hmn, hmx⟩ := h
  refine ⟨?_, fun u => rfl⟩
  rw [Matches_eq_true_iff]
  unfold matchesSpec
  refine and_congr Iff.rfl (and_congr ?_ (and_congr ?_ (and_congr Iff.rfl (and_congr ?_ ?_))))
  · refine forall_congr' fun s => imp_congr_right fun _ => ?_
    simp [Time.Before]
  · refine forall_congr' fun e => imp_congr_right fun _ => ?_
    simp [Time.After]
  · exact forall_congr' fun m => imp_congr_right fun hm =>
      Float64.lt_eq_false_iff t.Amount m ht (hmn m hm)
  · exact forall_congr' fun m => imp_congr_right fun hm =>
      Float64.gt_eq_false_iff t.Amount m ht (hmx m hm)

/-- C3 as amended, at the transaction of the unit test and the lower bound
-40. -/
theorem Matches_iff_matchesSpec_witness :
    amountsOrdered testTxn (minAmountFilters (Float64.finite (-40))) ∧
    ((testTxn.Matches (minAmountFilters (Float64.finite (-40))) = true ↔
        matchesSpec testTxn (minAmountFilters (Float64.finite (-40)))) ∧
      ∀ u : Transaction, u.Matches noFilters = true) :=
  have h : amountsOrdered testTxn (minAmountFilters (Float64.finite (-40))) := by
    refine ⟨rfl, ?_, ?_⟩ <;> simp [minAmountFilters, Float64.isNaN]
  ⟨h, Matches_iff_matchesSpec testTxn (minAmountFilters (Float64.finite (-40))) h⟩

/-- C3 as stated fails: against a filter spec whose lower amount bound is NaN
(the handler's `strconv.ParseFloat` accepts the text `NaN`), `Matches` is
true of the transaction of amount -50, because `-50 < NaN` is false, whereas
the constraint `t.Amount >= MinAmount` does not hold. -/
theorem Matches_ignores_nan_bound :
    testTxn.Matches (minAmountFilters Float64.nan) = true ∧
      ¬ matchesSpec testTxn (minAmountFilters Float64.nan) :=
  ⟨rfl, fun h => absurd (h.2.2.2.2.1 Float64.nan rfl) (by decide)⟩

/-- The cases of `TestTransactionMatches` on amounts. -/
theorem Matches_test_amounts :
    testTxn.Matches
        ⟨"acc-001", none, none, "", some (Float64.finite (-100)), some (Float64.finite (-10))⟩
      = true ∧
    testTxn.Matches ⟨"acc-001", none, none, "", some (Float64.finite (-40)), none⟩
      = false := by
  constructor <;> decide

theorem scenarioRepo_transactions :
    scenarioRepo.transactions =
      [sampleTxn "txn-001" "acc-001" 10 (-50) "shopping",
       sampleTxn "txn-002" "acc-001" 8 (-20) "shopping",
       sampleTxn "txn-003" "acc-001" 9 (-30) "food_dining"] := rfl

/-- The sort scenario of the spec, for every library sort. -/
theorem GetTransactions_sort_scenario (srt : SortSlice Transaction)
    (hsrt : SortSliceContract srt) (flags : Option Flags) :
    ∃ l, GetTransactions srt scenarioRepo flags "user-001" noFilters = .ok l ∧
      l.map (fun t => t.Date) = [10, 9, 8] := by
  obtain ⟨l, hl, hperm, hsorted⟩ :=
    GetTransactions_ok srt hsrt scenarioRepo flags "user-001" noFilters
  refine ⟨l, hl, ?_⟩
  have hcol : collectTransactions scenarioRepo (Flags.IsAdvancedFiltersEnabled flags)
      (scenarioRepo.GetAccountIDsByUserID "user-001") noFilters
      = scenarioRepo.transactions := by
    cases Flags.IsAdvancedFiltersEnabled flags <;> rfl
  rw [hcol, scenarioRepo_transactions] at hperm
  have hp : (l.map (fun t => t.Date)).Perm [10, 9, 8] :=
    (hperm.map (fun t => t.Date)).trans (by simp [sampleTxn]; exact List.Perm.swap _ _ _)
  have hs : (l.map (fun t => t.Date)).Sorted (fun a b => a ≥ b) := by
    rw [List.Sorted, List.pairwise_map]
    refine hsorted.imp ?_
    intro a b hab
    simpa [dateLess, Time.After] using hab
  exact List.eq_of_perm_of_sorted hp hs (by simp [List.Sorted])

/-- C4: for every repository state, user and filter spec, the list
`GetTransactions` returns is ordered by date descending.  No element's date
is before the date of an element that stands later in the list, in particular
not of the next one; and the transactions dated 12-10, 12-08, 12-09 of one
account come back dated 12-10, 12-09, 12-08.  The library sort is any
`sort.Slice` that keeps its documented contract. -/
theorem GetTransactions_date_descending (srt : SortSlice Transaction)
    (hsrt : SortSliceContract srt) (r : Repository) (flags : Option Flags) (userID : String)
    (filters : TransactionFilters) :
    (∃ l, GetTransactions srt r flags userID filters = .ok l ∧
      l.Pairwise (fun a b => Time.Before a.Date b.Date = false) ∧
      ∀ (i : Nat) (h : i + 1 < l.length),
        Time.Before (l.get ⟨i, Nat.lt_of_succ_lt h⟩).Date (l.get ⟨i + 1, h⟩).Date = false) ∧
    (∃ l, GetTransactions srt scenarioRepo flags "user-001" noFilters = .ok l ∧
      l.map (fun t => t.Date) = [10, 9, 8]) := by
  refine ⟨?_, GetTransactions_sort_scenario srt hsrt flags⟩
  obtain ⟨l, hl, -, hsorted⟩ := GetTransactions_ok srt hsrt r flags userID filters
  have hpair : l.Pairwise (fun a b => Time.Before a.Date b.Date = false) := hsorted
  refine ⟨l, hl, hpair, fun i h => ?_⟩
  exact List.pairwise_iff_get.1 hpair ⟨i, Nat.lt_of_succ_lt h⟩ ⟨i + 1, h⟩ (Nat.lt_succ_self i)

/-- C4 at insertion sort on the snapshot of the sort scenario, where the
result is the three transactions in the order 12-10, 12-09, 12-08. -/
theorem GetTransactions_date_descending_witness :
    SortSliceContract (insertionSort : SortSlice Transaction) ∧
    GetTransactions insertionSort scenarioRepo none "user-001" noFilters =
      .ok [sampleTxn "txn-001" "acc-001" 10 (-50) "shopping",
           sampleTxn "txn-003" "acc-001" 9 (-30) "food_dining",
           sampleTxn "txn-002" "acc-001" 8 (-20) "shopping"] ∧
    ∃ l, GetTransactions insertionSort scenarioRepo none "user-001" noFilters = .ok l ∧
      l.Pairwise (fun a b => Time.Before a.Date b.Date = false) ∧
      ∀ (i : Nat) (h : i + 1 < l.length),
        Time.Before (l.get ⟨i, Nat.lt_of_succ_lt h⟩).Date (l.get ⟨i + 1, h⟩).Date = false :=
  ⟨insertionSort_contract, rfl,
    (GetTransactions_date_descending insertionSort insertionSort_contract scenarioRepo none
      "user-001" noFilters).1⟩

/-- C5 as amended: the sort of `GetTransactions` keeps every transaction of the
appended per-account results (the result is a permutation of them) and puts
two transactions of different dates in the order of their dates, the later
date first.  Nothing is said of the order of two transactions of one date. -/
theorem GetTransactions_sort_permutes (srt : SortSlice Transaction)
    (hsrt : SortSliceContract srt) (r : Repository) (flags : Option Flags) (userID : String)
    (filters : TransactionFilters) :
    ∃ l, GetTransactions srt r flags userID filters = .ok l ∧
      l.Perm (collectTransactions r (Flags.IsAdvancedFiltersEnabled flags)
        (r.GetAccountIDsByUserID userID) filters) ∧
      ∀ a b, [a, b].Sublist l → a.Date ≠ b.Date → b.Date < a.Date := by
  obtain ⟨l, hl, hperm, hsorted⟩ := GetTransactions_ok srt hsrt r flags userID filters
  refine ⟨l, hl, hperm, fun a b hab hne => ?_⟩
  have h := List.pairwise_iff_forall_sublist.1 hsorted hab
  simp only [dateLess, Time.After, decide_eq_false_iff_not, not_lt] at h
  exact lt_of_le_of_ne h (Ne.symm hne)

/-- C5 as amended, at insertion sort on the snapshot of the sort scenario. -/
theorem GetTransactions_sort_permutes_witness :
    SortSliceContract (insertionSort : SortSlice Transaction) ∧
    ∃ l, GetTransactions insertionSort scenarioRepo none "user-001" noFilters = .ok l ∧
      l.Perm (collectTransactions scenarioRepo (Flags.IsAdvancedFiltersEnabled none)
        (scenarioRepo.GetAccountIDsByUserID "user-001") noFilters) ∧
      ∀ a b, [a, b].Sublist l → a.Date ≠ b.Date → b.Date < a.Date :=
  ⟨insertionSort_contract,
    GetTransactions_sort_permutes insertionSort insertionSort_contract scenarioRepo none
      "user-001" noFilters⟩

/-- C5 as stated fails under the run of `sort.Slice` itself.  The appended
per-account results of `thirteenRepo` are txn-001 to txn-013 in this order,
the first twelve of one date and txn-013 of a later date.  The run of
`pdqsort_func` on them stays in the embedded part and ends with txn-013
first, as it must, and then txn-007, txn-003, txn-004, txn-005, txn-006,
txn-001, txn-008 to txn-012 and txn-002: the partition moves the pivot
txn-007 to the front of the slice and txn-002 to its end.  So txn-007 comes
back ahead of txn-001, two transactions of one date that stood in the other
order before the sort. -/
theorem sort_Slice_reorders_ties :
    collectTransactions thirteenRepo (Flags.IsAdvancedFiltersEnabled none)
        (thirteenRepo.GetAccountIDsByUserID "user-001") noFilters
      = [sampleTxn "txn-001" "acc-001" 5 (-10) "shopping",
         sampleTxn "txn-002" "acc-001" 5 (-20) "shopping",
         sampleTxn "txn-003" "acc-001" 5 (-30) "shopping",
         sampleTxn "txn-004" "acc-001" 5 (-40) "shopping",
         sampleTxn "txn-005" "acc-001" 5 (-50) "shopping",
         sampleTxn "txn-006" "acc-001" 5 (-60) "shopping",
         sampleTxn "txn-007" "acc-001" 5 (-70) "shopping",
         sampleTxn "txn-008" "acc-001" 5 (-80) "shopping",
         sampleTxn "txn-009" "acc-001" 5 (-90) "shopping",
         sampleTxn "txn-010" "acc-001" 5 (-100) "shopping",
         sampleTxn "txn-011" "acc-001" 5 (-110) "shopping",
         sampleTxn "txn-012" "acc-001" 5 (-120) "shopping",
         sampleTxn "txn-013" "acc-001" 9 (-130) "shopping"] ∧
    pdqsortFunc dateLess 14
        (collectTransactions thirteenRepo (Flags.IsAdvancedFiltersEnabled none)
          (thirteenRepo.GetAccountIDsByUserID "user-001") noFilters) 0 13 (bitsLen 13) true true
      = some [sampleTxn "txn-013" "acc-001" 9 (-130) "shopping",
              sampleTxn "txn-007" "acc-001" 5 (-70) "shopping",
              sampleTxn "txn-003" "acc-001" 5 (-30) "shopping",
              sampleTxn "txn-004" "acc-001" 5 (-40) "shopping",
              sampleTxn "txn-005" "acc-001" 5 (-50) "shopping",
              sampleTxn "txn-006" "acc-001" 5 (-60) "shopping",
              sampleTxn "txn-001" "acc-001" 5 (-10) "shopping",
              sampleTxn "txn-008" "acc-001" 5 (-80) "shopping",
              sampleTxn "txn-009" "acc-001" 5 (-90) "shopping",
              sampleTxn "txn-010" "acc-001" 5 (-100) "shopping",
              sampleTxn "txn-011" "acc-001" 5 (-110) "shopping",
              sampleTxn "txn-012" "acc-001" 5 (-120) "shopping",
              sampleTxn "txn-002" "acc-001" 5 (-20) "shopping"] ∧
    GetTransactions sortSlicePdq thirteenRepo none "user-001" noFilters
      = .ok [sampleTxn "txn-013" "acc-001" 9 (-130) "shopping",
             sampleTxn "txn-007" "acc-001" 5 (-70) "shopping",
             sampleTxn "txn-003" "acc-001" 5 (-30) "shopping",
             sampleTxn "txn-004" "acc-001" 5 (-40) "shopping",
             sampleTxn "txn-005" "acc-001" 5 (-50) "shopping",
             sampleTxn "txn-006" "acc-001" 5 (-60) "shopping",
             sampleTxn "txn-001" "acc-001" 5 (-10) "shopping",
             sampleTxn "txn-008" "acc-001" 5 (-80) "shopping",
             sampleTxn "txn-009" "acc-001" 5 (-90) "shopping",
             sampleTxn "txn-010" "acc-001" 5 (-100) "shopping",
             sampleTxn "txn-011" "acc-001" 5 (-110) "shopping",
             sampleTxn "txn-012" "acc-001" 5 (-120) "shopping",
             sampleTxn "txn-002" "acc-001" 5 (-20) "shopping"] ∧
    (sampleTxn "txn-001" "acc-001" 5 (-10) "shopping").Date
      = (sampleTxn "txn-007" "acc-001" 5 (-70) "shopping").Date ∧
    ¬ StableByDate
        (collectTransactions thirteenRepo (Flags.IsAdvancedFiltersEnabled none)
          (thirteenRepo.GetAccountIDsByUserID "user-001") noFilters)
        [sampleTxn "txn-013" "acc-001" 9 (-130) "shopping",
         sampleTxn "txn-007" "acc-001" 5 (-70) "shopping",
         sampleTxn "txn-003" "acc-001" 5 (-30) "shopping",
         sampleTxn "txn-004" "acc-001" 5 (-40) "shopping",
         sampleTxn "txn-005" "acc-001" 5 (-50) "shopping",
         sampleTxn "txn-006" "acc-001" 5 (-60) "shopping",
         sampleTxn "txn-001" "acc-001" 5 (-10) "shopping",
         sampleTxn "txn-008" "acc-001" 5 (-80) "shopping",
         sampleTxn "txn-009" "acc-001" 5 (-90) "shopping",
         sampleTxn "txn-010" "acc-001" 5 (-100) "shopping",
         sampleTxn "txn-011" "acc-001" 5 (-110) "shopping",
         sampleTxn "txn-012" "acc-001" 5 (-120) "shopping",
         sampleTxn "txn-002" "acc-001" 5 (-20) "shopping"] :=
  ⟨rfl, by decide, rfl, rfl, fun h => absurd (h 5) (by decide)⟩

theorem GetAccountIDsByUserID_nil (r : Repository) (userID : String)
    (hnone : ∀ a ∈ r.accounts, a.UserID ≠ userID) : r.GetAccountIDsByUserID userID = [] := by
  rw [GetAccountIDsByUserID_eq, List.map_eq_nil_iff, List.filter_eq_nil_iff]
  intro a ha
  simpa using hnone a ha

/-- C21: for a user who owns no stored account, `GetTransactions` returns the
empty list and no error, whatever the filter spec, the state of the flag and
the library sort. -/
theorem GetTransactions_without_account (srt : SortSlice Transaction) (r : Repository)
    (flags : Option Flags) (userID : String) (filters : TransactionFilters)
    (hnone : ∀ a ∈ r.accounts, a.UserID ≠ userID) :
    GetTransactions srt r flags userID filters = .ok [] := by
  unfold GetTransactions
  rw [GetAccountIDsByUserID_nil r userID hnone]
  rfl

/-- C21 at the snapshot of the sort scenario, for a user without account and
a filter spec asking for a category. -/
theorem GetTransactions_without_account_witness :
    (∀ a ∈ scenarioRepo.accounts, a.UserID ≠ "user-999") ∧
    GetTransactions insertionSort scenarioRepo (some ⟨true⟩) "user-999"
      (categoryFilters "shopping") = .ok [] :=
  ⟨by simp [scenarioRepo_accounts],
    GetTransactions_without_account insertionSort scenarioRepo (some ⟨true⟩) "user-999"
      (categoryFilters "shopping") (by simp [scenarioRepo_accounts])⟩

/-- The account id of the filter spec is not read: the per-account filter is
the same for every value of it. -/
theorem effectiveFilters_pinned (adv : Bool) (id accountID : String) (f : TransactionFilters) :
    effectiveFilters adv id (pinned f accountID) = effectiveFilters adv id f := by
  cases adv <;> rfl

/-- The result of `GetTransactions` does not depend on the account id of the
filter spec. -/
theorem GetTransactions_pinned (srt : SortSlice Transaction) (r : Repository)
    (flags : Option Flags) (userID accountID : String) (filters : TransactionFilters) :
    GetTransactions srt r flags userID (pinned filters accountID)
      = GetTransactions srt r flags userID filters := by
  unfold GetTransactions collectTransactions
  simp only [effectiveFilters_pinned]

theorem twoAccountRepo_accounts :
    twoAccountRepo.accounts = [⟨"acc-001", "user-001"⟩, ⟨"acc-002", "user-001"⟩] := by
  decide

theorem twoAccountRepo_transactions :
    twoAccountRepo.transactions
      = [sampleTxn "txn-001" "acc-001" 10 (-50) "shopping",
         sampleTxn "txn-002" "acc-002" 9 (-20) "shopping"] := rfl

/-- C22, evaluated where the code breaks it: on the snapshot `twoAccountRepo`,
in which user-001 owns acc-001 and acc-002, `GetTransactions` for user-001
with a filter spec whose account id is acc-001 returns txn-002, a transaction
of acc-002.  The loop pins the per-account filter to each owned account in
turn and never reads the account id of the filter spec.  This holds for every
state of the flag and every library sort. -/
theorem GetTransactions_ignores_account_filter (srt : SortSlice Transaction)
    (hsrt : SortSliceContract srt) (flags : Option Flags) :
    ∃ l, GetTransactions srt twoAccountRepo flags "user-001" (accountFilters "acc-001") = .ok l ∧
      (accountFilters "acc-001").AccountID ≠ "" ∧
      ∃ t ∈ l, t.AccountID = "acc-002" ∧ t.AccountID ≠ (accountFilters "acc-001").AccountID := by
  obtain ⟨l, hl, hperm, -⟩ :=
    GetTransactions_ok srt hsrt twoAccountRepo flags "user-001" (accountFilters "acc-001")
  refine ⟨l, hl, by decide, sampleTxn "txn-002" "acc-002" 9 (-20) "shopping",
    hperm.mem_iff.2 ?_, rfl, by decide⟩
  rw [mem_collectTransactions]
  refine ⟨"acc-002", (mem_GetAccountIDsByUserID _ _ _).2 ?_, ?_, ?_⟩
  · exact ⟨⟨"acc-002", "user-001"⟩, by simp [twoAccountRepo_accounts], rfl, rfl⟩
  · simp [twoAccountRepo_transactions]
  · cases Flags.IsAdvancedFiltersEnabled flags <;> rfl

/-- The unread account filter of C22 at insertion sort and a nil flag store. -/
theorem GetTransactions_ignores_account_filter_witness :
    SortSliceContract (insertionSort : SortSlice Transaction) ∧
    ∃ l, GetTransactions insertionSort twoAccountRepo none "user-001"
        (accountFilters "acc-001") = .ok l ∧
      (accountFilters "acc-001").AccountID ≠ "" ∧
      ∃ t ∈ l, t.AccountID = "acc-002" ∧ t.AccountID ≠ (accountFilters "acc-001").AccountID :=
  ⟨insertionSort_contract,
    GetTransactions_ignores_account_filter insertionSort insertionSort_contract none⟩

/-- C23: the advanced filters are applied only when the advanced-filters flag
is enabled.  With the flag off (or a nil flag store), `GetTransactions` for a
filter spec returns what it returns for the filter spec with no constraint:
the date range, the category and the amount range have no effect.  With the
flag on, the per-account filter handed to `Matches` is the filter spec with
its five constraints and the account id of the owned account, so the returned
transactions are the stored ones that `Matches` accepts under that filter for
some owned account. -/
theorem GetTransactions_advanced_filters_gate (srt : SortSlice Transaction)
    (hsrt : SortSliceContract srt) (r : Repository) (flags : Option Flags) (userID : String)
    (filters : TransactionFilters) :
    (Flags.IsAdvancedFiltersEnabled flags = false →
      GetTransactions srt r flags userID filters
        = GetTransactions srt r flags userID noFilters) ∧
    (Flags.IsAdvancedFiltersEnabled flags = true →
      (∀ id, effectiveFilters (Flags.IsAdvancedFiltersEnabled flags) id filters
        = { AccountID := id, StartDate := filters.StartDate, EndDate := filters.EndDate,
            Category := filters.Category, MinAmount := filters.MinAmount,
            MaxAmount := filters.MaxAmount }) ∧
      ∃ l, GetTransactions srt r flags userID filters = .ok l ∧
        ∀ t, t ∈ l ↔
          t ∈ r.transactions ∧
            ∃ id ∈ r.GetAccountIDsByUserID userID,
              t.Matches { AccountID := id, StartDate := filters.StartDate,
                          EndDate := filters.EndDate, Category := filters.Category,
                          MinAmount := filters.MinAmount,
                          MaxAmount := filters.MaxAmount } = true) := by
  constructor
  · intro hoff
    unfold GetTransactions collectTransactions
    simp only [hoff, effectiveFilters_off]
  · intro hon
    refine ⟨fun id => by rw [hon]; rfl, ?_⟩
    obtain ⟨l, hl, hperm, -⟩ := GetTransactions_ok srt hsrt r flags userID filters
    refine ⟨l, hl, fun t => ?_⟩
    rw [hperm.mem_iff, mem_collectTransactions, hon]
    constructor
    · rintro ⟨id, hid, ht, hm⟩
      exact ⟨ht, id, hid, hm⟩
    · rintro ⟨ht, id, hid, hm⟩
      exact ⟨id, hid, ht, hm⟩

/-- C23 at the snapshot of the sort scenario: with the flag off a category
constraint changes nothing, with the flag on it selects the two shopping
transactions. -/
theorem GetTransactions_advanced_filters_gate_witness :
    SortSliceContract (insertionSort : SortSlice Transaction) ∧
    GetTransactions insertionSort scenarioRepo (some ⟨false⟩) "user-001"
        (categoryFilters "shopping")
      = GetTransactions insertionSort scenarioRepo (some ⟨false⟩) "user-001" noFilters ∧
    GetTransactions insertionSort scenarioRepo (some ⟨true⟩) "user-001"
        (categoryFilters "shopping")
      = .ok [sampleTxn "txn-001" "acc-001" 10 (-50) "shopping",
             sampleTxn "txn-002" "acc-001" 8 (-20) "shopping"] ∧
    ∃ l, GetTransactions insertionSort scenarioRepo (some ⟨true⟩) "user-001"
        (categoryFilters "shopping") = .ok l ∧
      ∀ t, t ∈ l ↔
        t ∈ scenarioRepo.transactions ∧
          ∃ id ∈ scenarioRepo.GetAccountIDsByUserID "user-001",
            t.Matches { AccountID := id, StartDate := (categoryFilters "shopping").StartDate,
                        EndDate := (categoryFilters "shopping").EndDate,
                        Category := (categoryFilters "shopping").Category,
                        MinAmount := (categoryFilters "shopping").MinAmount,
                        MaxAmount := (categoryFilters "shopping").MaxAmount } = true :=
  ⟨insertionSort_contract,
    (GetTransactions_advanced_filters_gate insertionSort insertionSort_contract scenarioRepo
      (some ⟨false⟩) "user-001" (categoryFilters "shopping")).1 rfl,
    rfl,
    ((GetTransactions_advanced_filters_gate insertionSort insertionSort_contract scenarioRepo
      (some ⟨true⟩) "user-001" (categoryFilters "shopping")).2 rfl).2⟩

theorem overlapRepo_accounts :
    overlapRepo.accounts = [⟨"", "user-001"⟩, ⟨"acc-001", "user-001"⟩] := by
  decide

theorem overlapRepo_transactions :
    overlapRepo.transactions = [sampleTxn "txn-001" "acc-001" 10 (-50) "shopping"] := rfl

/-- The ids of the accounts of one user are distinct, the keys of the
accounts map being so. -/
theorem GetAccountIDsByUserID_nodup (r : Repository) (hwf : r.WF) (userID : String) :
    (r.GetAccountIDsByUserID userID).Nodup := by
  rw [GetAccountIDsByUserID_eq]
  exact List.Nodup.sublist ((List.filter_sublist _).map (fun a : Account => a.ID)) hwf.2

/-- The appended per-account results hold no transaction twice when the keys
of both maps are distinct and no owned account has the empty id. -/
theorem collectTransactions_nodup (r : Repository) (hwf : r.WF) (adv : Bool) (userID : String)
    (filters : TransactionFilters)
    (hids : ∀ a ∈ r.accounts, a.UserID = userID → a.ID ≠ "") :
    (collectTransactions r adv (r.GetAccountIDsByUserID userID) filters).Nodup := by
  rw [collectTransactions_eq, List.nodup_flatMap]
  have htx : r.transactions.Nodup := List.Nodup.of_map _ hwf.1
  refine ⟨fun id _ => htx.filter _, ?_⟩
  have hne : ∀ id ∈ r.GetAccountIDsByUserID userID, id ≠ "" := by
    intro id hid
    obtain ⟨a, ha, haid, hau⟩ := (mem_GetAccountIDsByUserID r userID id).1 hid
    rw [← haid]
    exact hids a ha hau
  have hpair : (r.GetAccountIDsByUserID userID).Pairwise (fun a b => a ≠ b) :=
    GetAccountIDsByUserID_nodup r hwf userID
  refine List.Pairwise.imp_of_mem ?_ hpair
  intro a b ha hb hab
  simp only [Function.onFun, List.disjoint_left, List.mem_filter]
  rintro t ⟨-, hma⟩ ⟨-, hmb⟩
  have h1 : t.AccountID = a := by
    have := @Matches_AccountID t (effectiveFilters adv a filters)
      (by rw [effectiveFilters_AccountID]; exact hne a ha) hma
    rwa [effectiveFilters_AccountID] at this
  have h2 : t.AccountID = b := by
    have := @Matches_AccountID t (effectiveFilters adv b filters)
      (by rw [effectiveFilters_AccountID]; exact hne b hb) hmb
    rwa [effectiveFilters_AccountID] at this
  exact hab (h1.symm.trans h2)

/-- No duplicates, where it holds: when the keys of both maps are distinct and
none of the caller's accounts has the empty id, the list `GetTransactions`
returns holds no transaction twice, and it is as long as there are stored
transactions of owned accounts that match the effective filter. -/
theorem GetTransactions_nodup (srt : SortSlice Transaction) (hsrt : SortSliceContract srt)
    (r : Repository) (hwf : r.WF) (flags : Option Flags) (userID : String)
    (filters : TransactionFilters)
    (hids : ∀ a ∈ r.accounts, a.UserID = userID → a.ID ≠ "") :
    ∃ l, GetTransactions srt r flags userID filters = .ok l ∧ l.Nodup ∧
      l.length
        = (matchingOwned r (Flags.IsAdvancedFiltersEnabled flags) userID filters).dedup.length := by
  obtain ⟨l, hl, hperm, -⟩ := GetTransactions_ok srt hsrt r flags userID filters
  have hnd : l.Nodup :=
    hperm.nodup_iff.2 (collectTransactions_nodup r hwf _ userID filters hids)
  have htx : r.transactions.Nodup := List.Nodup.of_map _ hwf.1
  have hmo : (matchingOwned r (Flags.IsAdvancedFiltersEnabled flags) userID filters).Nodup :=
    htx.filter _
  refine ⟨l, hl, hnd, ?_⟩
  rw [hmo.dedup]
  refine List.Perm.length_eq ((List.perm_ext_iff_of_nodup hnd hmo).2 fun t => ?_)
  rw [hperm.mem_iff, mem_collectTransactions_owned r _ userID filters hids t]
  simp only [matchingOwned, List.mem_filter, Bool.and_eq_true, decide_eq_true_eq,
    mem_GetAccountIDsByUserID]

/-- No duplicates on the snapshot with two owned accounts. -/
theorem GetTransactions_nodup_witness :
    SortSliceContract (insertionSort : SortSlice Transaction) ∧ twoAccountRepo.WF ∧
    (∀ a ∈ twoAccountRepo.accounts, a.UserID = "user-001" → a.ID ≠ "") ∧
    ∃ l, GetTransactions insertionSort twoAccountRepo none "user-001" noFilters = .ok l ∧
      l.Nodup ∧
      l.length = (matchingOwned twoAccountRepo (Flags.IsAdvancedFiltersEnabled none)
        "user-001" noFilters).dedup.length :=
  ⟨insertionSort_contract, NewRepository_WF _ _, by simp [twoAccountRepo_accounts],
    GetTransactions_nodup insertionSort insertionSort_contract twoAccountRepo
      (NewRepository_WF _ _) none "user-001" noFilters (by simp [twoAccountRepo_accounts])⟩

/-- C30, evaluated where the code breaks it: on the snapshot `overlapRepo`, in
which user-001 owns acc-001 and an account whose id is the empty string, the
list `GetTransactions` returns for user-001 holds the one stored transaction
txn-001 twice: its length is 2, while one distinct stored transaction of an
owned account matches.  The keys of both maps are distinct; the per-account
results overlap because the filter pinned to the account `""` carries an
empty account id, which `Matches` reads as no account constraint.  This holds
for every state of the flag and every library sort. -/
theorem GetTransactions_repeats_through_empty_account_id (srt : SortSlice Transaction)
    (hsrt : SortSliceContract srt) (flags : Option Flags) :
    overlapRepo.WF ∧
    ∃ l, GetTransactions srt overlapRepo flags "user-001" noFilters = .ok l ∧
      l = [sampleTxn "txn-001" "acc-001" 10 (-50) "shopping",
           sampleTxn "txn-001" "acc-001" 10 (-50) "shopping"] ∧
      ¬ l.Nodup ∧ l.length = 2 ∧
      (matchingOwned overlapRepo (Flags.IsAdvancedFiltersEnabled flags) "user-001"
        noFilters).dedup.length = 1 := by
  refine ⟨NewRepository_WF _ _, ?_⟩
  obtain ⟨l, hl, hperm, -⟩ := GetTransactions_ok srt hsrt overlapRepo flags "user-001" noFilters
  have hcol : collectTransactions overlapRepo (Flags.IsAdvancedFiltersEnabled flags)
      (overlapRepo.GetAccountIDsByUserID "user-001") noFilters
      = [sampleTxn "txn-001" "acc-001" 10 (-50) "shopping",
         sampleTxn "txn-001" "acc-001" 10 (-50) "shopping"] := by
    cases Flags.IsAdvancedFiltersEnabled flags <;> rfl
  rw [hcol] at hperm
  have hl2 : l = [sampleTxn "txn-001" "acc-001" 10 (-50) "shopping",
      sampleTxn "txn-001" "acc-001" 10 (-50) "shopping"] := by
    have hlen : l.length = 2 := hperm.length_eq
    match l, hlen, hperm with
    | [a, b], _, hp =>
      have ha : a ∈ [sampleTxn "txn-001" "acc-001" 10 (-50) "shopping",
          sampleTxn "txn-001" "acc-001" 10 (-50) "shopping"] := hp.mem_iff.1 (by simp)
      have hb : b ∈ [sampleTxn "txn-001" "acc-001" 10 (-50) "shopping",
          sampleTxn "txn-001" "acc-001" 10 (-50) "shopping"] := hp.mem_iff.1 (by simp)
      simp only [List.mem_cons, List.mem_singleton, List.not_mem_nil, or_false, or_self] at ha hb
      rw [ha, hb]
  refine ⟨l, hl, hl2, ?_, ?_, ?_⟩
  · rw [hl2]; simp
  · rw [hl2]; rfl
  · cases Flags.IsAdvancedFiltersEnabled flags <;> decide

/-- The repeated transaction of C30 at insertion sort and a nil flag store. -/
theorem GetTransactions_repeats_through_empty_account_id_witness :
    SortSliceContract (insertionSort : SortSlice Transaction) ∧
    overlapRepo.WF ∧
    ∃ l, GetTransactions insertionSort overlapRepo none "user-001" noFilters = .ok l ∧
      l = [sampleTxn "txn-001" "acc-001" 10 (-50) "shopping",
           sampleTxn "txn-001" "acc-001" 10 (-50) "shopping"] ∧
      ¬ l.Nodup ∧ l.length = 2 ∧
      (matchingOwned overlapRepo (Flags.IsAdvancedFiltersEnabled none) "user-001"
        noFilters).dedup.length = 1 :=
  ⟨insertionSort_contract,
    GetTransactions_repeats_through_empty_account_id insertionSort insertionSort_contract none⟩

end ApiTransactions

/-! ## api-accounts: ownership and response shaping -/

namespace ApiAccounts

theorem GetAccountsByUserID_repo_eq (r : Repository) (userID : String) :
    r.GetAccountsByUserID userID
      = .ok (r.accounts.filter (fun a => decide (a.UserID = userID))) := by
  unfold Repository.GetAccountsByUserID
  rw [foldl_append_if_map (fun a : Account => a.UserID = userID) (fun a => a)]
  simp

/-- A stored account is what the repository finds under its id. -/
theorem GetAccountByID_repo_of_mem (r : Repository) (hwf : r.WF) (a : Account)
    (ha : a ∈ r.accounts) : r.GetAccountByID a.ID = .ok a := by
  unfold Repository.GetAccountByID
  rw [mapGet_of_mem hwf.2 ha]

/-- A stored user is what the repository finds under its id. -/
theorem GetUserByID_of_mem (r : Repository) (hwf : r.WF) (u : User) (hu : u ∈ r.users) :
    r.GetUserByID u.ID = .ok u := by
  unfold Repository.GetUserByID
  rw [mapGet_of_mem hwf.1 hu]

theorem GetUserByID_of_not_mem (r : Repository) (userID : String)
    (hu : ∀ u ∈ r.users, u.ID ≠ userID) : r.GetUserByID userID = .error "user not found" := by
  unfold Repository.GetUserByID
  rw [mapGet_none.2 hu]

/-- C6: for an account stored in the repository and a caller who is not its
owner, `AccountService.GetAccountByID` fails with the error `unauthorized`,
which is neither the not-found error nor an account response; the handler
answers it with status 403 (the handler is reached with a non-empty id). -/
theorem GetAccountByID_forbidden (r : Repository) (flags : Flags) (hwf : r.WF) (a : Account)
    (userID : String) (ha : a ∈ r.accounts) (hown : a.UserID ≠ userID) :
    GetAccountByID r flags a.ID userID = .error "unauthorized" ∧
      GetAccountByID r flags a.ID userID ≠ .error "account not found" ∧
      (∀ resp, GetAccountByID r flags a.ID userID ≠ .ok resp) ∧
      (a.ID ≠ "" → handlerGetAccountByIDStatus r flags userID a.ID = 403) := by
  have h : GetAccountByID r flags a.ID userID = .error "unauthorized" := by
    unfold GetAccountByID
    rw [GetAccountByID_repo_of_mem r hwf a ha]
    simp [hown]
  refine ⟨h, ?_, ?_, ?_⟩
  · rw [h]; simp
  · intro resp; rw [h]; exact fun hc => Except.noConfusion hc
  · intro hid
    unfold handlerGetAccountByIDStatus
    rw [h]
    simp [hid]

/-- A repository built by `NewRepository` has unique keys in both maps. -/
theorem NewRepository_accounts_WF (users : List User) (accounts : List Account) :
    (NewRepository users accounts).WF :=
  ⟨foldl_mapSet_nodup (fun u : User => u.ID) users [] List.nodup_nil,
    foldl_mapSet_nodup (fun a : Account => a.ID) accounts [] List.nodup_nil⟩

theorem demoRepo_WF : demoRepo.WF := NewRepository_accounts_WF _ _

/-- C6 at the integration test: user-001 asks for acc-004 of user-002. -/
theorem GetAccountByID_forbidden_witness :
    demoRepo.WF ∧ sampleAccount "acc-004" "user-002" 25000 none ∈ demoRepo.accounts ∧
    (sampleAccount "acc-004" "user-002" 25000 none).UserID ≠ "user-001" ∧
    GetAccountByID demoRepo demoFlags "acc-004" "user-001" = .error "unauthorized" ∧
    handlerGetAccountByIDStatus demoRepo demoFlags "user-001" "acc-004" = 403 :=
  have hmem : sampleAccount "acc-004" "user-002" 25000 none ∈ demoRepo.accounts := by
    decide
  have hne : (sampleAccount "acc-004" "user-002" 25000 none).UserID ≠ "user-001" := by
    decide
  have h := GetAccountByID_forbidden demoRepo demoFlags demoRepo_WF
    (sampleAccount "acc-004" "user-002" 25000 none) "user-001" hmem hne
  ⟨demoRepo_WF, hmem, hne, h.1, h.2.2.2 (by decide)⟩

/-- C7 as amended: when the caller is a stored user, `GetAccountsByUserID`
returns without error the responses of exactly the stored accounts whose
`UserID` is the caller, one each, shaped by `ToResponse` with the mask flag
and the currency of the caller's country (the empty list when the caller
owns no account); when no user with the caller's id is stored, it fails with
the error `user not found`. -/
theorem GetAccountsByUserID_of_stored_user (r : Repository) (flags : Flags) (hwf : r.WF)
    (userID : String) :
    (∀ user ∈ r.users, user.ID = userID →
      GetAccountsByUserID r flags userID =
        .ok ((r.accounts.filter (fun a => decide (a.UserID = userID))).map
          (fun a => a.ToResponse flags.ShouldMaskAmounts
            (flags.GetCurrencyForUser user.Country)))) ∧
    ((∀ user ∈ r.users, user.ID ≠ userID) →
      GetAccountsByUserID r flags userID = .error "user not found") := by
  constructor
  · intro user hu hid
    unfold GetAccountsByUserID
    rw [GetAccountsByUserID_repo_eq, ← hid, GetUserByID_of_mem r hwf user hu]
  · intro hu
    unfold GetAccountsByUserID
    rw [GetAccountsByUserID_repo_eq, GetUserByID_of_not_mem r userID hu]

/-- C7 as amended, at the stored user-002 and at the unknown user-003. -/
theorem GetAccountsByUserID_of_stored_user_witness :
    demoRepo.WF ∧
    GetAccountsByUserID demoRepo demoFlags "user-002" =
      .ok [(sampleAccount "acc-004" "user-002" 25000 none).ToResponse true "GBP"] ∧
    GetAccountsByUserID demoRepo demoFlags "user-003" = .error "user not found" :=
  have h := GetAccountsByUserID_of_stored_user demoRepo demoFlags demoRepo_WF
  ⟨demoRepo_WF, (h "user-002").1 (sampleUser "user-002" "UK") (by decide) rfl,
    (h "user-003").2 (by decide)⟩

/-- C7 as stated fails: on a snapshot that stores an account of user-001 and
no user of that id, listing the accounts of user-001 ends in the error
`user not found`. -/
theorem GetAccountsByUserID_fails_without_user :
    orphanRepo.WF ∧
    sampleAccount "acc-001" "user-001" 1500 none ∈ orphanRepo.accounts ∧
    GetAccountsByUserID orphanRepo demoFlags "user-001" = .error "user not found" :=
  ⟨⟨by decide, by decide⟩, by decide, rfl⟩

/-- C8: with masking on, the response has the placeholder `***.**` as balance
and, when the account has a credit limit, as credit limit, which is absent
otherwise; with masking off it has the numeric balance and the numeric credit
limit when there is one, absent otherwise. -/
theorem ToResponse_amounts (a : Account) (currency : String) :
    (a.ToResponse true currency).Balance = AnyAmount.text "***.**" ∧
    (a.ToResponse true currency).CreditLimit
      = (match a.CreditLimit with
        | some _ => AnyAmount.text "***.**"
        | none => AnyAmount.null) ∧
    (a.ToResponse false currency).Balance = AnyAmount.number a.Balance ∧
    (a.ToResponse false currency).CreditLimit
      = (match a.CreditLimit with
        | some limit => AnyAmount.number limit
        | none => AnyAmount.null) := by
  unfold Account.ToResponse
  cases a.CreditLimit <;> simp

/-- C9: the currency of the response is the currency passed in, whatever the
stored one, and the fields ID, UserID, AccountNumber, AccountType,
AccountName, Status, OpenedDate and LastActivity are those of the account. -/
theorem ToResponse_frame (a : Account) (maskAmounts : Bool) (currency : String) :
    (a.ToResponse maskAmounts currency).Currency = currency ∧
    (a.ToResponse maskAmounts currency).ID = a.ID ∧
    (a.ToResponse maskAmounts currency).UserID = a.UserID ∧
    (a.ToResponse maskAmounts currency).AccountNumber = a.AccountNumber ∧
    (a.ToResponse maskAmounts currency).AccountType = a.AccountType ∧
    (a.ToResponse maskAmounts currency).AccountName = a.AccountName ∧
    (a.ToResponse maskAmounts currency).Status = a.Status ∧
    (a.ToResponse maskAmounts currency).OpenedDate = a.OpenedDate ∧
    (a.ToResponse maskAmounts currency).LastActivity = a.LastActivity := by
  unfold Account.ToResponse
  cases maskAmounts <;> cases a.CreditLimit <;> simp

/-- C10 (masking is idempotent).  `ToResponse` is its composite literal
followed by the statements of one of its two branches, and the masking branch
does mask.  Running the masking statements on the masked response of an
account gives that response again, running them twice on any response is
running them once, and running them on the unmasked response of the account
gives its masked response. -/
theorem ToResponse_masking_idempotent (a : Account) (currency : String)
    (resp : AccountResponse) :
    (a.ToResponse true currency = a.maskBranch (a.newResponse currency) ∧
      a.ToResponse false currency = a.plainBranch (a.newResponse currency) ∧
      (a.maskBranch resp).Balance = AnyAmount.text "***.**" ∧
      (a.CreditLimit.isSome = true →
        (a.maskBranch resp).CreditLimit = AnyAmount.text "***.**")) ∧
    a.maskBranch (a.ToResponse true currency) = a.ToResponse true currency ∧
    a.maskBranch (a.maskBranch resp) = a.maskBranch resp ∧
    a.maskBranch (a.ToResponse false currency) = a.ToResponse true currency := by
  unfold Account.ToResponse Account.maskBranch Account.plainBranch Account.newResponse
  cases a.CreditLimit <;> simp

/-- C10 at an account with a credit limit: its masked response, with the
placeholder in both amounts, is what the masking statements make of the
masked and of the unmasked response. -/
theorem ToResponse_masking_idempotent_witness :
    (sampleAccount "acc-001" "user-001" 1500 (some (Float64.finite 5000))).maskBranch
        ((sampleAccount "acc-001" "user-001" 1500 (some (Float64.finite 5000))).ToResponse
          true "USD")
      = (sampleAccount "acc-001" "user-001" 1500 (some (Float64.finite 5000))).ToResponse
          true "USD" ∧
    (sampleAccount "acc-001" "user-001" 1500 (some (Float64.finite 5000))).maskBranch
        ((sampleAccount "acc-001" "user-001" 1500 (some (Float64.finite 5000))).ToResponse
          false "USD")
      = (sampleAccount "acc-001" "user-001" 1500 (some (Float64.finite 5000))).ToResponse
          true "USD" ∧
    ((sampleAccount "acc-001" "user-001" 1500 (some (Float64.finite 5000))).ToResponse
        true "USD").Balance = AnyAmount.text "***.**" ∧
    ((sampleAccount "acc-001" "user-001" 1500 (some (Float64.finite 5000))).ToResponse
        true "USD").CreditLimit = AnyAmount.text "***.**" ∧
    ((sampleAccount "acc-001" "user-001" 1500 (some (Float64.finite 5000))).ToResponse
        false "USD").Balance = AnyAmount.number (Float64.finite 1500) :=
  have h := ToResponse_masking_idempotent
    (sampleAccount "acc-001" "user-001" 1500 (some (Float64.finite 5000))) "USD"
    ((sampleAccount "acc-001" "user-001" 1500 (some (Float64.finite 5000))).ToResponse
      false "USD")
  ⟨h.2.1, h.2.2.2, rfl, rfl, rfl⟩

theorem demoRepo_users :
    demoRepo.users = [sampleUser "user-001" "US", sampleUser "user-002" "UK"] := by
  decide

/-- C26 as amended: `GetUserID` returns the user id of the request context
when there is one, and the fixed identity user-001 when there is none; so the
handler `GetAccounts` answers a request without identity exactly as it answers
a request authenticated as user-001, on every repository and for every state
of the flags.  Where user-001 is a stored user, that answer is the status 200
with the responses of all accounts of user-001. -/
theorem GetUserID_falls_back_to_user_001 (r : Repository) (flags : Flags) :
    GetUserID none = "user-001" ∧
    (∀ userID, GetUserID (some userID) = userID) ∧
    handlerGetAccounts r flags none = handlerGetAccounts r flags (some "user-001") ∧
    (r.WF → ∀ user ∈ r.users, user.ID = "user-001" →
      handlerGetAccounts r flags none
        = (200, some ((r.accounts.filter (fun a => decide (a.UserID = "user-001"))).map
            (fun a => a.ToResponse flags.ShouldMaskAmounts
              (flags.GetCurrencyForUser user.Country))))) := by
  refine ⟨rfl, fun _ => rfl, rfl, fun hwf user hu hid => ?_⟩
  have hsvc : GetAccountsByUserID r flags "user-001"
      = .ok ((r.accounts.filter (fun a => decide (a.UserID = "user-001"))).map
          (fun a => a.ToResponse flags.ShouldMaskAmounts
            (flags.GetCurrencyForUser user.Country))) := by
    unfold GetAccountsByUserID
    rw [GetAccountsByUserID_repo_eq, ← hid, GetUserByID_of_mem r hwf user hu]
  unfold handlerGetAccounts
  show (match GetAccountsByUserID r flags "user-001" with
    | .error _ => (500, none)
    | .ok accounts => (200, some accounts)) = _
  rw [hsvc]

/-- C26 as stated fails: for a request whose context carries no user id,
`GetUserID` yields user-001, the id of a stored user of the snapshot
`demoRepo`, and the handler `GetAccounts` answers 200 with the account acc-001
of that user. -/
theorem GetUserID_yields_a_user_without_identity :
    (∃ u ∈ demoRepo.users, GetUserID none = u.ID) ∧
    handlerGetAccounts demoRepo demoFlags none
      = (200, some [(sampleAccount "acc-001" "user-001" 1500
          (some (Float64.finite 5000))).ToResponse true "USD"]) :=
  ⟨⟨sampleUser "user-001" "US", by simp [demoRepo_users], rfl⟩, rfl⟩

/-- C28: a masked response does not depend on the hidden amounts.  Two
accounts that agree on every field except the balance and the value of the
credit limit (both without a limit or both with one) have the same response
under `ToResponse(true, c)`, for every currency `c`.  The stored currency of
the account is not read either, the response carrying `c`. -/
theorem ToResponse_masked_hides_amounts (a b : Account) (currency : String)
    (hID : a.ID = b.ID) (hUserID : a.UserID = b.UserID)
    (hAccountNumber : a.AccountNumber = b.AccountNumber)
    (hAccountType : a.AccountType = b.AccountType)
    (hAccountName : a.AccountName = b.AccountName)
    (hStatus : a.Status = b.Status)
    (hOpenedDate : a.OpenedDate = b.OpenedDate)
    (hLastActivity : a.LastActivity = b.LastActivity)
    (hLimit : a.CreditLimit.isSome = b.CreditLimit.isSome) :
    a.ToResponse true currency = b.ToResponse true currency := by
  unfold Account.ToResponse
  rw [hID, hUserID, hAccountNumber, hAccountType, hAccountName, hStatus, hOpenedDate,
    hLastActivity]
  cases ha : a.CreditLimit <;> cases hb : b.CreditLimit <;> simp_all

/-- C28 at two accounts with the balances 1500 and 99 and the credit limits
5000 and 1. -/
theorem ToResponse_masked_hides_amounts_witness :
    (sampleAccount "acc-001" "user-001" 1500 (some (Float64.finite 5000))).CreditLimit.isSome
      = (sampleAccount "acc-001" "user-001" 99 (some (Float64.finite 1))).CreditLimit.isSome ∧
    (sampleAccount "acc-001" "user-001" 1500 (some (Float64.finite 5000))).ToResponse true "USD"
      = (sampleAccount "acc-001" "user-001" 99 (some (Float64.finite 1))).ToResponse true "USD" :=
  ⟨rfl,
    ToResponse_masked_hides_amounts
      (sampleAccount "acc-001" "user-001" 1500 (some (Float64.finite 5000)))
      (sampleAccount "acc-001" "user-001" 99 (some (Float64.finite 1))) "USD"
      rfl rfl rfl rfl rfl rfl rfl rfl rfl⟩

end ApiAccounts

/-! ## api-insights: shaping, derived alerts and access control -/

namespace ApiInsights

theorem GetInsightsByUserID_repo_eq (r : Repository) (userID : String) :
    r.GetInsightsByUserID userID
      = .ok (r.insights.filter (fun i => decide (i.UserID = userID))) := by
  unfold Repository.GetInsightsByUserID
  rw [foldl_append_if_map (fun i : Insight => i.UserID = userID) (fun i => i)]
  simp

theorem GetAlertsByUserID_repo_eq (r : Repository) (userID : String) :
    r.GetAlertsByUserID userID
      = .ok (r.alerts.filter (fun a => decide (a.UserID = userID))) := by
  unfold Repository.GetAlertsByUserID
  rw [foldl_append_if_map (fun a : Alert => a.UserID = userID) (fun a => a)]
  simp

theorem applyV2Algorithm_eq_map (insights : List Insight) :
    applyV2Algorithm insights = insights.map applyV2ToSingleInsight := rfl

/-- C11: with the insights-V2 flag on, `GetInsightsByUserID` returns a list of
the length and in the order of the repository's insights of the user, each
element being the stored insight with the suffix ` (V2)` on its title and
nothing else changed; with the flag off (or a nil flag store) it returns the
stored insights as they are. -/
theorem GetInsightsByUserID_shapes_titles (r : Repository) (flags : Option Flags)
    (userID : String) :
    ∃ stored, r.GetInsightsByUserID userID = .ok stored ∧
      stored = r.insights.filter (fun i => decide (i.UserID = userID)) ∧
      (Flags.IsInsightsV2Enabled flags = true →
        ∃ out, GetInsightsByUserID r flags userID = .ok out ∧
          out.length = stored.length ∧
          ∀ (k : Nat) (h1 : k < out.length) (h2 : k < stored.length),
            out.get ⟨k, h1⟩ =
              { stored.get ⟨k, h2⟩ with Title := (stored.get ⟨k, h2⟩).Title ++ " (V2)" }) ∧
      (Flags.IsInsightsV2Enabled flags = false →
        GetInsightsByUserID r flags userID = .ok stored) := by
  refine ⟨_, GetInsightsByUserID_repo_eq r userID, rfl, fun hon => ?_, fun hoff => ?_⟩
  · refine ⟨applyV2Algorithm (r.insights.filter (fun i => decide (i.UserID = userID))),
      ?_, ?_, ?_⟩
    · unfold GetInsightsByUserID
      rw [GetInsightsByUserID_repo_eq, hon]
      rfl
    · simp [applyV2Algorithm]
    · intro k h1 h2
      simp [applyV2Algorithm]
  · unfold GetInsightsByUserID
    rw [GetInsightsByUserID_repo_eq, hoff]
    rfl

theorem append_suffix_ne (s : String) : s ++ " (V2)" ≠ s := by
  intro h
  have hl := congrArg String.length h
  rw [String.length_append] at hl
  have h5 : " (V2)".length = 5 := by decide
  omega

/-- C13 as amended: the V2 shaping is not idempotent under composition.
Applied to its own output `applyV2ToSingleInsight` appends the suffix once
more, so the result differs from one application for every insight, and
`applyV2Algorithm` applied to its own output equals one application only on
the empty list.  What does hold is that each application shapes every element
by the same function of its input. -/
theorem applyV2_appends_again (x : Insight) (l : List Insight) :
    (applyV2ToSingleInsight (applyV2ToSingleInsight x)).Title
        = x.Title ++ " (V2)" ++ " (V2)" ∧
    applyV2ToSingleInsight (applyV2ToSingleInsight x) ≠ applyV2ToSingleInsight x ∧
    applyV2Algorithm l = l.map applyV2ToSingleInsight ∧
    (applyV2Algorithm (applyV2Algorithm l) = applyV2Algorithm l ↔ l = []) := by
  have hne : ∀ y : Insight, applyV2ToSingleInsight y ≠ y := by
    intro y h
    have ht := congrArg Insight.Title h
    exact append_suffix_ne y.Title ht
  refine ⟨rfl, hne _, rfl, ?_⟩
  constructor
  · intro h
    cases l with
    | nil => rfl
    | cons y ys =>
      simp only [applyV2Algorithm_eq_map, List.map_cons, List.cons.injEq] at h
      exact absurd h.1 (hne _)
  · rintro rfl
    rfl

/-- C13 as stated fails: applying `applyV2ToSingleInsight` to its own output
on the insight titled `High Spending Alert` gives the title
`High Spending Alert (V2) (V2)`, not the title of one application, and
`applyV2Algorithm` applied twice to the one-element list differs from one
application as well. -/
theorem applyV2_not_idempotent :
    (applyV2ToSingleInsight (applyV2ToSingleInsight
        (sampleInsight "ins-001" "user-001" "high" true "High Spending Alert"))).Title
      = "High Spending Alert (V2) (V2)" ∧
    applyV2ToSingleInsight (applyV2ToSingleInsight
        (sampleInsight "ins-001" "user-001" "high" true "High Spending Alert"))
      ≠ applyV2ToSingleInsight
        (sampleInsight "ins-001" "user-001" "high" true "High Spending Alert") ∧
    applyV2Algorithm (applyV2Algorithm
        [sampleInsight "ins-001" "user-001" "high" true "High Spending Alert"])
      ≠ applyV2Algorithm
        [sampleInsight "ins-001" "user-001" "high" true "High Spending Alert"] := by
  refine ⟨by decide, by decide, by decide⟩

/-- C15: `mapSeverityToPriority` is the fixed table: `critical` for `high`,
`high` for `medium`, and `medium` for every other string. -/
theorem mapSeverityToPriority_table :
    mapSeverityToPriority "high" = "critical" ∧
    mapSeverityToPriority "medium" = "high" ∧
    ∀ severity : String, severity ≠ "high" → severity ≠ "medium" →
      mapSeverityToPriority severity = "medium" := by
  refine ⟨by decide, by decide, fun severity h1 h2 => ?_⟩
  simp [mapSeverityToPriority, h1, h2]

/-- C18: with the alerts flag off, `GetAlertsByUserID` fails with the
feature-disabled error for every user and every repository, so the outcome
does not depend on what the repository holds, and the handler answers 503;
with the flag on (or a nil flag store) it returns exactly the stored alerts
whose `UserID` is the user. -/
theorem GetAlertsByUserID_gate (r : Repository) (flags : Option Flags) (userID : String) :
    (Flags.IsAlertsEnabled flags = false →
      GetAlertsByUserID r flags userID = .error "alerts feature is currently disabled" ∧
      (∀ r2 : Repository, GetAlertsByUserID r2 flags userID = GetAlertsByUserID r flags userID) ∧
      handlerGetAlerts r flags userID = (503, none)) ∧
    (Flags.IsAlertsEnabled flags = true →
      GetAlertsByUserID r flags userID
        = .ok (r.alerts.filter (fun a => decide (a.UserID = userID))) ∧
      (∀ a, a ∈ r.alerts.filter (fun a => decide (a.UserID = userID)) ↔
        a ∈ r.alerts ∧ a.UserID = userID) ∧
      handlerGetAlerts r flags userID
        = (200, some (r.alerts.filter (fun a => decide (a.UserID = userID))))) := by
  constructor
  · intro hoff
    have h : ∀ r2 : Repository,
        GetAlertsByUserID r2 flags userID = .error "alerts feature is currently disabled" := by
      intro r2
      simp [GetAlertsByUserID, hoff]
    refine ⟨h r, fun r2 => (h r2).trans (h r).symm, ?_⟩
    simp [handlerGetAlerts, hoff]
  · intro hon
    have h : GetAlertsByUserID r flags userID
        = .ok (r.alerts.filter (fun a => decide (a.UserID = userID))) := by
      simp [GetAlertsByUserID, hon, GetAlertsByUserID_repo_eq]
    refine ⟨h, fun a => by simp [List.mem_filter], ?_⟩
    simp [handlerGetAlerts, hon, h]

theorem digitChar_value : ∀ d : Nat, d < 10 → (Nat.digitChar d).toNat - 48 = d := by
  decide

theorem decimalValue_toDigitsCore (fuel : Nat) :
    ∀ (n : Nat) (ds : List Char), n < fuel →
      (Nat.toDigitsCore 10 fuel n ds).foldl (fun acc c => acc * 10 + (c.toNat - 48)) 0
        = ds.foldl (fun acc c => acc * 10 + (c.toNat - 48)) n := by
  induction fuel with
  | zero => intro n ds h; omega
  | succ fuel ih =>
    intro n ds h
    unfold Nat.toDigitsCore
    have hd := digitChar_value (n % 10) (Nat.mod_lt n (by decide))
    by_cases h0 : n / 10 = 0
    · simp only [h0, if_true, List.foldl_cons, hd]
      have : n % 10 = n := by omega
      rw [Nat.zero_mul, Nat.zero_add, this]
    · simp only [h0, if_false]
      rw [ih (n / 10) _ (by omega), List.foldl_cons, hd]
      have : n / 10 * 10 + n % 10 = n := by omega
      rw [this]

/-- The digits that `Nat.toDigits` prints denote the number printed. -/
theorem decimalValue_toDigits (n : Nat) : decimalValue (Nat.toDigits 10 n) = n := by
  unfold decimalValue Nat.toDigits
  rw [decimalValue_toDigitsCore (n + 1) n [] (Nat.lt_succ_self n)]
  rfl

theorem decimalValue_zeros (k : Nat) (ds : List Char) :
    decimalValue (List.replicate k '0' ++ ds) = decimalValue ds := by
  unfold decimalValue
  induction k with
  | zero => rfl
  | succ k ih =>
    rw [List.replicate_succ, List.cons_append, List.foldl_cons]
    exact ih

theorem decimalValue_sprintf03d (n : Nat) : decimalValue (sprintf03d n).data = n := by
  unfold sprintf03d
  simp only []
  rw [decimalValue_zeros, decimalValue_toDigits]

/-- Distinct counters are printed as distinct alert ids. -/
theorem alertID_injective (a b : Nat) (h : alertID a = alertID b) : a = b := by
  unfold alertID at h
  have hd := congrArg String.data h
  rw [String.data_append, String.data_append] at hd
  have hs := List.append_cancel_left hd
  rw [← decimalValue_sprintf03d a, ← decimalValue_sprintf03d b, hs]

theorem deriveAlerts_length (k : Nat) (qs : List Insight) :
    (deriveAlerts k qs).length = qs.length := by
  induction qs generalizing k with
  | nil => rfl
  | cons q qs ih => simp [deriveAlerts, ih]

theorem deriveAlerts_get (k : Nat) (qs : List Insight) (n : Nat)
    (h1 : n < (deriveAlerts k qs).length) (h2 : n < qs.length) :
    (deriveAlerts k qs).get ⟨n, h1⟩ = newAlert (k + n) (qs.get ⟨n, h2⟩) := by
  induction qs generalizing k n with
  | nil => cases h2
  | cons q qs ih =>
    cases n with
    | zero => rfl
    | succ n =>
      simp only [deriveAlerts, List.get_cons_succ]
      rw [ih (k + 1) n _ (Nat.lt_of_succ_lt_succ h2)]
      congr 1
      omega

theorem mem_deriveAlerts (k : Nat) (qs : List Insight) (a : Alert)
    (h : a ∈ deriveAlerts k qs) : ∃ j q, k ≤ j ∧ q ∈ qs ∧ a = newAlert j q := by
  induction qs generalizing k with
  | nil => cases h
  | cons q qs ih =>
    rcases List.mem_cons.1 h with rfl | h
    · exact ⟨k, q, Nat.le_refl k, List.mem_cons_self _ _, rfl⟩
    · obtain ⟨j, q2, hj, hq, ha⟩ := ih (k + 1) h
      exact ⟨j, q2, by omega, List.mem_cons_of_mem _ hq, ha⟩

/-- The loop of `generateAlerts` over qualifying insights, started on a map
whose back part was derived with the same counters: the entries derived
before are replaced one by one, the others are added. -/
theorem generateAlerts_loop (qs : List Insight) :
    ∀ (k : Nat) (front : List Alert) (old : List Insight),
      (∀ a ∈ front, ∀ j, k ≤ j → a.ID ≠ alertID j) →
      qs.foldl
          (fun (st : List Alert × Nat) insight =>
            (mapSet (fun a => a.ID) st.1 (newAlert st.2 insight), st.2 + 1))
          (front ++ deriveAlerts k old, k)
        = (front ++ deriveAlerts k qs ++ (deriveAlerts k old).drop qs.length,
            k + qs.length) := by
  induction qs with
  | nil => intro k front old _; simp [deriveAlerts]
  | cons q qs ih =>
    intro k front old hfront
    have hnot : (newAlert k q).ID ∉ front.map (fun a => a.ID) := by
      intro hmem
      obtain ⟨a, ha, hid⟩ := List.mem_map.1 hmem
      exact hfront a ha k (Nat.le_refl k) hid
    have hfront2 : ∀ a ∈ front ++ [newAlert k q], ∀ j, k + 1 ≤ j → a.ID ≠ alertID j := by
      intro a ha j hj
      rcases List.mem_append.1 ha with ha | ha
      · exact hfront a ha j (by omega)
      · rw [List.mem_singleton] at ha
        subst ha
        intro hid
        have := alertID_injective k j hid
        omega
    rw [List.foldl_cons]
    simp only []
    rw [mapSet_append_of_not_mem _ _ _ _ hnot]
    cases old with
    | nil =>
      have hstep : front ++ mapSet (fun a => a.ID) (deriveAlerts k []) (newAlert k q)
          = (front ++ [newAlert k q]) ++ deriveAlerts (k + 1) [] := by
        simp [deriveAlerts, mapSet]
      rw [hstep, ih (k + 1) _ [] hfront2]
      simp [deriveAlerts, Nat.add_assoc, Nat.add_comm 1]
    | cons o old =>
      have hstep : front ++ mapSet (fun a => a.ID) (deriveAlerts k (o :: old)) (newAlert k q)
          = (front ++ [newAlert k q]) ++ deriveAlerts (k + 1) old := by
        rw [deriveAlerts, mapSet_cons_of_eq (fun a : Alert => a.ID) (newAlert k o) (newAlert k q) _ rfl]
        simp
      rw [hstep, ih (k + 1) _ old hfront2]
      simp [deriveAlerts, Nat.add_assoc, Nat.add_comm 1]

/-- The alerts map after `generateAlerts`, for a repository whose alerts map
holds what an earlier run derived from the insights `old` (nothing, for a
repository that was just loaded): the alerts derived from the qualifying
insights in the order of the loop, then what is left of the earlier ones. -/
theorem generateAlerts_alerts (insights old : List Insight) :
    (Repository.generateAlerts ⟨insights, deriveAlerts 1 old⟩).alerts
      = deriveAlerts 1 (insights.filter qualifies)
          ++ (deriveAlerts 1 old).drop (insights.filter qualifies).length := by
  unfold Repository.generateAlerts
  simp only []
  have hfold := foldl_if_eq_foldl_filter qualifies
    (fun (st : List Alert × Nat) insight =>
      (mapSet (fun a => a.ID) st.1 (newAlert st.2 insight), st.2 + 1))
    insights (deriveAlerts 1 old, 1)
  have hloop := generateAlerts_loop (insights.filter qualifies) 1 [] old
    (fun a ha => by cases ha)
  simp only [List.nil_append] at hloop
  have hcond : (fun (st : List Alert × Nat) (insight : Insight) =>
      if (insight.Actionable && (insight.Severity == "medium" || insight.Severity == "high"))
          = true then
        (mapSet (fun a => a.ID) st.1 (newAlert st.2 insight), st.2 + 1)
      else st)
      = (fun st insight => if qualifies insight = true then
        (mapSet (fun a => a.ID) st.1 (newAlert st.2 insight), st.2 + 1) else st) := rfl
  rw [hcond, hfold, hloop]

/-- The alerts map of a repository that had none, after `generateAlerts`. -/
theorem generateAlerts_fresh (r : Repository) (h : r.alerts = []) :
    r.generateAlerts.alerts = deriveAlerts 1 (r.insights.filter qualifies) ∧
    r.generateAlerts.insights = r.insights := by
  obtain ⟨insights, alerts⟩ := r
  simp only at h
  subst h
  have := generateAlerts_alerts insights []
  simp only [deriveAlerts, List.drop_nil, List.append_nil] at this
  exact ⟨this, rfl⟩

theorem mem_filter_qualifies (insights : List Insight) (i : Insight) :
    i ∈ insights.filter qualifies ↔
      i ∈ insights ∧ i.Actionable = true ∧ (i.Severity = "medium" ∨ i.Severity = "high") := by
  simp [List.mem_filter, qualifies]

/-- C14: on a repository whose alerts map is empty, as `NewRepository` calls
it, `generateAlerts` derives one alert for each insight that is actionable
and of severity medium or high and none for any other insight.  The alerts,
in the order they were derived, stand against the qualifying insights in the
order of the loop; the alert has the `UserID`, `Type`, `Title` and
`CreatedAt` of its insight, the `Description` as `Message`, the priority
`mapSeverityToPriority(Severity)` and `Read = false`. -/
theorem generateAlerts_one_per_qualifying_insight (r : Repository) (h : r.alerts = []) :
    r.generateAlerts.alerts.length = (r.insights.filter qualifies).length ∧
    (∀ (k : Nat) (h1 : k < r.generateAlerts.alerts.length)
        (h2 : k < (r.insights.filter qualifies).length),
      (r.generateAlerts.alerts.get ⟨k, h1⟩).UserID
          = ((r.insights.filter qualifies).get ⟨k, h2⟩).UserID ∧
      (r.generateAlerts.alerts.get ⟨k, h1⟩).Type_
          = ((r.insights.filter qualifies).get ⟨k, h2⟩).Type_ ∧
      (r.generateAlerts.alerts.get ⟨k, h1⟩).Title
          = ((r.insights.filter qualifies).get ⟨k, h2⟩).Title ∧
      (r.generateAlerts.alerts.get ⟨k, h1⟩).CreatedAt
          = ((r.insights.filter qualifies).get ⟨k, h2⟩).CreatedAt ∧
      (r.generateAlerts.alerts.get ⟨k, h1⟩).Message
          = ((r.insights.filter qualifies).get ⟨k, h2⟩).Description ∧
      (r.generateAlerts.alerts.get ⟨k, h1⟩).Priority
          = mapSeverityToPriority ((r.insights.filter qualifies).get ⟨k, h2⟩).Severity ∧
      (r.generateAlerts.alerts.get ⟨k, h1⟩).Read = false) ∧
    (∀ i, i ∈ r.insights.filter qualifies ↔
      i ∈ r.insights ∧ i.Actionable = true ∧ (i.Severity = "medium" ∨ i.Severity = "high")) ∧
    ((∀ i ∈ r.insights, i.Actionable = false ∨ (i.Severity ≠ "medium" ∧ i.Severity ≠ "high")) →
      r.generateAlerts.alerts = []) := by
  have halerts := (generateAlerts_fresh r h).1
  refine ⟨by rw [halerts, deriveAlerts_length], ?_, mem_filter_qualifies r.insights, ?_⟩
  · intro k h1 h2
    have hget : r.generateAlerts.alerts.get ⟨k, h1⟩
        = newAlert (1 + k) ((r.insights.filter qualifies).get ⟨k, h2⟩) := by
      have h1' : k < (deriveAlerts 1 (r.insights.filter qualifies)).length := by
        rw [deriveAlerts_length]; exact h2
      rw [← deriveAlerts_get 1 _ k h1' h2]
      exact get_congr_list halerts k h1 h1'
    rw [hget]
    exact ⟨rfl, rfl, rfl, rfl, rfl, rfl, rfl⟩
  · intro hnone
    have hfil : r.insights.filter qualifies = [] := by
      rw [List.filter_eq_nil_iff]
      intro i hi hq
      have := (mem_filter_qualifies r.insights i).1 (List.mem_filter.2 ⟨hi, hq⟩)
      rcases hnone i hi with hna | ⟨hm, hh⟩
      · rw [this.2.1] at hna; cases hna
      · rcases this.2.2 with h3 | h3
        · exact hm h3
        · exact hh h3
    rw [halerts, hfil]
    rfl

/-- C14 at the repository loaded from `demoInsights`: the high insight of
user-001 and the medium insight of user-002 give the alerts alert-001 of
priority critical and alert-002 of priority high; the low insight and the
insight that is not actionable give none. -/
theorem generateAlerts_one_per_qualifying_insight_witness :
    (Repository.loadInsights ⟨[], []⟩ demoInsights).alerts = [] ∧
    demoRepo.alerts.length = (demoRepo.insights.filter qualifies).length ∧
    demoRepo.alerts =
      [newAlert 1 (sampleInsight "ins-001" "user-001" "high" true "High Spending Alert"),
       newAlert 2 (sampleInsight "ins-003" "user-002" "medium" true "Budget Warning")] ∧
    demoRepo.alerts.map (fun a => (a.ID, a.Priority))
      = [("alert-001", "critical"), ("alert-002", "high")] :=
  ⟨rfl,
    (generateAlerts_one_per_qualifying_insight
      (Repository.loadInsights ⟨[], []⟩ demoInsights) rfl).1,
    by decide, by decide⟩

/-- C16: on a repository whose alerts map is empty, the alert derived from the
k-th qualifying insight in the order of the loop (k counted from 1) has the
id `alert-` followed by k in decimal, zero-padded to at least three digits:
alert-001, alert-002, and so on, alert-1000 past 999.  Distinct counters
give distinct ids, so alerts at different places have different ids. -/
theorem generateAlerts_sequential_ids (r : Repository) (h : r.alerts = []) :
    r.generateAlerts.alerts.length = (r.insights.filter qualifies).length ∧
    (∀ (k : Nat) (h1 : k < r.generateAlerts.alerts.length)
        (h2 : k < (r.insights.filter qualifies).length),
      r.generateAlerts.alerts.get ⟨k, h1⟩
          = newAlert (k + 1) ((r.insights.filter qualifies).get ⟨k, h2⟩) ∧
      (r.generateAlerts.alerts.get ⟨k, h1⟩).ID = alertID (k + 1)) ∧
    (∀ n : Nat, alertID n = "alert-" ++
      String.mk (List.replicate (3 - (Nat.toDigits 10 n).length) '0' ++ Nat.toDigits 10 n)) ∧
    (alertID 1 = "alert-001" ∧ alertID 2 = "alert-002" ∧ alertID 12 = "alert-012" ∧
      alertID 999 = "alert-999" ∧ alertID 1000 = "alert-1000") ∧
    (∀ a b : Nat, alertID a = alertID b → a = b) ∧
    (∀ (j k : Nat) (hj : j < r.generateAlerts.alerts.length)
        (hk : k < r.generateAlerts.alerts.length),
      (r.generateAlerts.alerts.get ⟨j, hj⟩).ID = (r.generateAlerts.alerts.get ⟨k, hk⟩).ID →
        j = k) := by
  have halerts := (generateAlerts_fresh r h).1
  have hlen : r.generateAlerts.alerts.length = (r.insights.filter qualifies).length := by
    rw [halerts, deriveAlerts_length]
  have hget : ∀ (k : Nat) (h1 : k < r.generateAlerts.alerts.length)
      (h2 : k < (r.insights.filter qualifies).length),
      r.generateAlerts.alerts.get ⟨k, h1⟩
        = newAlert (k + 1) ((r.insights.filter qualifies).get ⟨k, h2⟩) := by
    intro k h1 h2
    have h1' : k < (deriveAlerts 1 (r.insights.filter qualifies)).length := by
      rw [← halerts]; exact h1
    rw [get_congr_list halerts k h1 h1', deriveAlerts_get 1 _ k h1' h2, Nat.add_comm]
  have hid : ∀ (k : Nat) (h1 : k < r.generateAlerts.alerts.length),
      (r.generateAlerts.alerts.get ⟨k, h1⟩).ID = alertID (k + 1) := by
    intro k h1
    rw [hget k h1 (hlen ▸ h1)]
    rfl
  refine ⟨hlen, fun k h1 h2 => ⟨hget k h1 h2, hid k h1⟩, fun n => rfl,
    ⟨by decide, by decide, by decide, by decide, by decide⟩,
    alertID_injective, fun j k hj hk hjk => ?_⟩
  rw [hid j hj, hid k hk] at hjk
  have := alertID_injective _ _ hjk
  omega

/-- C16 at the repository loaded from `demoInsights`. -/
theorem generateAlerts_sequential_ids_witness :
    (Repository.loadInsights ⟨[], []⟩ demoInsights).alerts = [] ∧
    demoRepo.alerts.map (fun a => a.ID) = ["alert-001", "alert-002"] ∧
    demoRepo.alerts.length = (demoRepo.insights.filter qualifies).length :=
  ⟨rfl, by decide,
    (generateAlerts_sequential_ids (Repository.loadInsights ⟨[], []⟩ demoInsights) rfl).1⟩

theorem PriorityMapped_deriveAlerts (insights : List Insight) :
    PriorityMapped insights (deriveAlerts 1 (insights.filter qualifies)) := by
  refine ⟨deriveAlerts_length 1 _, fun k h1 h2 => ?_⟩
  rw [deriveAlerts_get 1 _ k h1 h2]
  constructor
  · intro hs
    show mapSeverityToPriority ((insights.filter qualifies).get ⟨k, h2⟩).Severity = "critical"
    rw [hs]
    decide
  · intro hs
    show mapSeverityToPriority ((insights.filter qualifies).get ⟨k, h2⟩).Severity = "high"
    rw [hs]
    decide

/-- C17: for a fixed set of insights, whatever the order in which the loop
visits them, a run of `generateAlerts` on the loaded repository and a second
run on the repository that already holds the derived alerts leave the same
number of alerts, the number of qualifying insights; the second run leaves
what a run from the empty map gives.  In each run the alert at the place of
a high insight has priority critical and the one at the place of a medium
insight priority high. -/
theorem generateAlerts_deterministic (l1 l2 : List Insight) (hperm : l1.Perm l2) :
    (Repository.generateAlerts ⟨l1, []⟩).alerts.length
      = (Repository.generateAlerts ⟨l2, []⟩).alerts.length ∧
    (Repository.generateAlerts ⟨l2, (Repository.generateAlerts ⟨l1, []⟩).alerts⟩).alerts.length
      = (Repository.generateAlerts ⟨l1, []⟩).alerts.length ∧
    (Repository.generateAlerts ⟨l2, (Repository.generateAlerts ⟨l1, []⟩).alerts⟩).alerts
      = (Repository.generateAlerts ⟨l2, []⟩).alerts ∧
    PriorityMapped l1 (Repository.generateAlerts ⟨l1, []⟩).alerts ∧
    PriorityMapped l2 (Repository.generateAlerts ⟨l2, []⟩).alerts ∧
    PriorityMapped l2
      (Repository.generateAlerts ⟨l2, (Repository.generateAlerts ⟨l1, []⟩).alerts⟩).alerts := by
  have h1 : (Repository.generateAlerts ⟨l1, []⟩).alerts
      = deriveAlerts 1 (l1.filter qualifies) := (generateAlerts_fresh ⟨l1, []⟩ rfl).1
  have h2 : (Repository.generateAlerts ⟨l2, []⟩).alerts
      = deriveAlerts 1 (l2.filter qualifies) := (generateAlerts_fresh ⟨l2, []⟩ rfl).1
  have hlen : (l1.filter qualifies).length = (l2.filter qualifies).length :=
    (hperm.filter qualifies).length_eq
  have h3 : (Repository.generateAlerts
      ⟨l2, (Repository.generateAlerts ⟨l1, []⟩).alerts⟩).alerts
      = deriveAlerts 1 (l2.filter qualifies) := by
    rw [h1, generateAlerts_alerts l2 (l1.filter qualifies)]
    have hdrop : List.drop (l2.filter qualifies).length
        (deriveAlerts 1 (l1.filter qualifies)) = [] := by
      apply List.drop_eq_nil_of_le
      rw [deriveAlerts_length, hlen]
    rw [hdrop, List.append_nil]
  refine ⟨?_, ?_, ?_, ?_, ?_, ?_⟩
  · rw [h1, h2, deriveAlerts_length, deriveAlerts_length, hlen]
  · rw [h3, h1, deriveAlerts_length, deriveAlerts_length, hlen]
  · rw [h3, h2]
  · rw [h1]; exact PriorityMapped_deriveAlerts l1
  · rw [h2]; exact PriorityMapped_deriveAlerts l2
  · rw [h3]; exact PriorityMapped_deriveAlerts l2

/-- C17 at `demoInsights`, the second loop visiting them in the opposite
order. -/
theorem generateAlerts_deterministic_witness :
    demoInsights.Perm demoInsights.reverse ∧
    (Repository.generateAlerts ⟨demoInsights, []⟩).alerts.length = 2 ∧
    (Repository.generateAlerts
      ⟨demoInsights.reverse, (Repository.generateAlerts ⟨demoInsights, []⟩).alerts⟩).alerts.length
      = (Repository.generateAlerts ⟨demoInsights, []⟩).alerts.length ∧
    (Repository.generateAlerts
      ⟨demoInsights.reverse, (Repository.generateAlerts ⟨demoInsights, []⟩).alerts⟩).alerts.map
        (fun a => (a.ID, a.Title, a.Priority))
      = [("alert-001", "Budget Warning", "high"),
         ("alert-002", "High Spending Alert", "critical")] :=
  ⟨(List.reverse_perm demoInsights).symm, by decide,
    (generateAlerts_deterministic demoInsights demoInsights.reverse
      (List.reverse_perm demoInsights).symm).2.1,
    by decide⟩

/-- A stored insight is what the repository finds under its id. -/
theorem GetInsightByID_repo_of_mem (r : Repository) (hwf : r.WF) (i : Insight)
    (hi : i ∈ r.insights) : r.GetInsightByID i.ID = .ok i := by
  unfold Repository.GetInsightByID
  rw [mapGet_of_mem hwf.1 hi]

theorem GetInsightByID_repo_of_not_mem (r : Repository) (insightID : String)
    (h : ∀ i ∈ r.insights, i.ID ≠ insightID) :
    r.GetInsightByID insightID = .error "insight not found" := by
  unfold Repository.GetInsightByID
  rw [mapGet_none.2 h]

/-- A repository built by `NewRepository` has unique keys in both maps. -/
theorem NewRepository_insights_WF (insights : List Insight) : (NewRepository insights).WF := by
  have hfresh := generateAlerts_fresh (Repository.loadInsights ⟨[], []⟩ insights) rfl
  refine ⟨foldl_mapSet_nodup (fun i : Insight => i.ID) insights [] List.nodup_nil, ?_⟩
  have hal : (NewRepository insights).alerts
      = deriveAlerts 1 ((Repository.loadInsights ⟨[], []⟩ insights).insights.filter qualifies) :=
    hfresh.1
  rw [hal]
  generalize (Repository.loadInsights ⟨[], []⟩ insights).insights.filter qualifies = qs
  have hgen : ∀ (k : Nat) (qs : List Insight),
      ((deriveAlerts k qs).map (fun a => a.ID)).Nodup := by
    intro k qs
    induction qs generalizing k with
    | nil => exact List.nodup_nil
    | cons q qs ih =>
      rw [deriveAlerts, List.map_cons, List.nodup_cons]
      refine ⟨?_, ih (k + 1)⟩
      intro hmem
      obtain ⟨a, ha, hid⟩ := List.mem_map.1 hmem
      obtain ⟨j, q2, hj, -, rfl⟩ := mem_deriveAlerts (k + 1) qs a ha
      have := alertID_injective j k hid
      omega
  exact hgen 1 qs

/-- C19: fetching an insight by id has three outcomes.  The handler answers
404 when no insight with the id is stored, 403 when the stored insight has
another owner than the caller, and otherwise 200 with the insight, its title
carrying the suffix ` (V2)` exactly when the insights-V2 flag is on.  Whether
the answer is 403 does not depend on the flags. -/
theorem handlerGetInsightByID_outcomes (r : Repository) (hwf : r.WF) (flags : Option Flags)
    (userID insightID : String) :
    ((∀ i ∈ r.insights, i.ID ≠ insightID) →
      handlerGetInsightByID r flags userID insightID = (404, none)) ∧
    (∀ i ∈ r.insights, i.ID = insightID →
      (i.UserID ≠ userID → handlerGetInsightByID r flags userID insightID = (403, none)) ∧
      (i.UserID = userID → Flags.IsInsightsV2Enabled flags = true →
        handlerGetInsightByID r flags userID insightID
          = (200, some { i with Title := i.Title ++ " (V2)" })) ∧
      (i.UserID = userID → Flags.IsInsightsV2Enabled flags = false →
        handlerGetInsightByID r flags userID insightID = (200, some i))) ∧
    ((handlerGetInsightByID r flags userID insightID).1 = 404 ∨
      (handlerGetInsightByID r flags userID insightID).1 = 403 ∨
      (handlerGetInsightByID r flags userID insightID).1 = 200) ∧
    (∀ flags2 : Option Flags,
      (handlerGetInsightByID r flags userID insightID).1 = 403 ↔
        (handlerGetInsightByID r flags2 userID insightID).1 = 403) := by
  have hnone : ∀ fl : Option Flags, (∀ i ∈ r.insights, i.ID ≠ insightID) →
      handlerGetInsightByID r fl userID insightID = (404, none) := by
    intro fl h
    simp [handlerGetInsightByID, GetInsightByID, GetInsightByID_repo_of_not_mem r insightID h]
  have hsome : ∀ (fl : Option Flags) (i : Insight), i ∈ r.insights → i.ID = insightID →
      handlerGetInsightByID r fl userID insightID
        = if i.UserID ≠ userID then (403, none)
          else if Flags.IsInsightsV2Enabled fl then
            (200, some { i with Title := i.Title ++ " (V2)" })
          else (200, some i) := by
    intro fl i hi hid
    subst hid
    unfold handlerGetInsightByID GetInsightByID
    rw [GetInsightByID_repo_of_mem r hwf i hi]
    cases Flags.IsInsightsV2Enabled fl <;> by_cases hu : i.UserID = userID <;>
      simp [hu, applyV2ToSingleInsight]
  have hcases : (∀ i ∈ r.insights, i.ID ≠ insightID) ∨ ∃ i ∈ r.insights, i.ID = insightID := by
    by_cases h : ∃ i ∈ r.insights, i.ID = insightID
    · exact Or.inr h
    · refine Or.inl (fun i hi hid => h ⟨i, hi, hid⟩)
  refine ⟨hnone flags, fun i hi hid => ?_, ?_, fun flags2 => ?_⟩
  · rw [hsome flags i hi hid]
    refine ⟨fun hu => by simp [hu], fun hu hon => by simp [hu, hon],
      fun hu hoff => by simp [hu, hoff]⟩
  · rcases hcases with h | ⟨i, hi, hid⟩
    · rw [hnone flags h]; exact Or.inl rfl
    · rw [hsome flags i hi hid]
      by_cases hu : i.UserID = userID
      · cases Flags.IsInsightsV2Enabled flags <;> simp [hu]
      · simp [hu]
  · rcases hcases with h | ⟨i, hi, hid⟩
    · rw [hnone flags h, hnone flags2 h]
    · rw [hsome flags i hi hid, hsome flags2 i hi hid]
      by_cases hu : i.UserID = userID
      · cases Flags.IsInsightsV2Enabled flags <;> cases Flags.IsInsightsV2Enabled flags2 <;>
          simp [hu]
      · simp [hu]

/-- C19 at the repository loaded from `demoInsights`: user-001 asks for an
unknown id, for the insight of user-002 and, with the V2 flag on, for an
insight of its own. -/
theorem handlerGetInsightByID_outcomes_witness :
    demoRepo.WF ∧
    handlerGetInsightByID demoRepo (some ⟨true, true⟩) "user-001" "ins-999" = (404, none) ∧
    handlerGetInsightByID demoRepo (some ⟨true, true⟩) "user-001" "ins-003" = (403, none) ∧
    (handlerGetInsightByID demoRepo (some ⟨true, true⟩) "user-001" "ins-001").1 = 200 ∧
    ((handlerGetInsightByID demoRepo (some ⟨true, true⟩) "user-001" "ins-001").2.map
      (fun i => i.Title)) = some "High Spending Alert (V2)" :=
  have h := handlerGetInsightByID_outcomes demoRepo (NewRepository_insights_WF demoInsights)
    (some ⟨true, true⟩) "user-001"
  ⟨NewRepository_insights_WF demoInsights, (h "ins-999").1 (by decide),
    ((h "ins-003").2.1 (sampleInsight "ins-003" "user-002" "medium" true "Budget Warning")
      (by decide) rfl).1 (by decide),
    by decide, by decide⟩

theorem set_length_append (l : List Insight) (v w : Insight) :
    (l ++ [v]).set l.length w = l ++ [w] := by
  induction l with
  | nil => rfl
  | cons x xs ih => simp [List.set, ih]

theorem heapRead_append (heap fresh : Heap) (p : Nat) (hp : p < heap.length) :
    (heap ++ fresh)[p]? = heap[p]? :=
  List.getElem?_append_left hp

theorem heapRead_of_lt (heap : Heap) (p : Nat) (hp : p < heap.length) :
    ∃ v, heap[p]? = some v :=
  ⟨heap[p], List.getElem?_eq_getElem hp⟩

/-- One shaping on pointers: the stored value is copied to a fresh cell that
gets the shaped title, and no other cell is written. -/
theorem ptrApplyV2ToSingleInsight_eq (heap : Heap) (insight : Nat) (v : Insight)
    (hv : heap[insight]? = some v) :
    ptrApplyV2ToSingleInsight heap insight
      = some (heap ++ [applyV2ToSingleInsight v], heap.length) := by
  have hlt : insight < heap.length := (List.getElem?_eq_some_iff.1 hv).1
  unfold ptrApplyV2ToSingleInsight
  simp only [hv, heapRead_append heap [v] insight hlt, set_length_append]
  rfl

/-- The loop of `applyV2Algorithm` on pointers: one fresh cell per pointer, in
order. -/
theorem ptrApplyV2Algorithm_eq (ptrs : List Nat) :
    ∀ (heap : Heap) (acc : List Nat), (∀ p ∈ ptrs, p < heap.length) →
      ptrApplyV2Algorithm heap ptrs acc
        = some (heap ++ (ptrs.filterMap (fun p => heap[p]?)).map applyV2ToSingleInsight,
            acc ++ List.range' heap.length ptrs.length) := by
  induction ptrs with
  | nil => intro heap acc _; simp [ptrApplyV2Algorithm]
  | cons p ps ih =>
    intro heap acc hvalid
    obtain ⟨v, hv⟩ := heapRead_of_lt heap p (hvalid p (List.mem_cons_self _ _))
    have hps : ∀ q ∈ ps, q < (heap ++ [applyV2ToSingleInsight v]).length := by
      intro q hq
      have := hvalid q (List.mem_cons_of_mem _ hq)
      simp only [List.length_append, List.length_singleton]
      omega
    have hsame : ps.filterMap (fun q => (heap ++ [applyV2ToSingleInsight v])[q]?)
        = ps.filterMap (fun q => heap[q]?) := by
      apply List.filterMap_congr
      intro q hq
      exact heapRead_append heap _ q (hvalid q (List.mem_cons_of_mem _ hq))
    unfold ptrApplyV2Algorithm
    rw [ptrApplyV2ToSingleInsight_eq heap p v hv]
    simp only []
    rw [ih _ _ hps, hsame]
    simp [List.filterMap_cons, hv, List.range'_succ, List.append_assoc]

/-- The loop of the repository on pointers collects the pointers of the
user's insights, in the order of the map. -/
theorem ptrGetInsightsByUserID_eq (heap : Heap) (userID : String) (m : InsightMap) :
    ∀ acc : List Nat, (∀ e ∈ m, e.2 < heap.length) →
      ptrGetInsightsByUserID heap userID m acc
        = some (acc ++ (m.filter (fun e =>
            match heap[e.2]? with
            | some v => decide (v.UserID = userID)
            | none => false)).map (fun e => e.2)) := by
  induction m with
  | nil => intro acc _; simp [ptrGetInsightsByUserID]
  | cons e rest ih =>
    intro acc hvalid
    obtain ⟨k, p⟩ := e
    obtain ⟨v, hv⟩ := heapRead_of_lt heap p (hvalid (k, p) (List.mem_cons_self _ _))
    unfold ptrGetInsightsByUserID
    simp only [hv]
    rw [ih _ (fun e he => hvalid e (List.mem_cons_of_mem _ he)), List.filter_cons]
    by_cases hu : v.UserID = userID
    · simp [hv, hu]
    · simp [hv, hu]

theorem ptrMapGet_mem (m : InsightMap) (insightID : String) (p : Nat)
    (h : ptrMapGet m insightID = some p) : (insightID, p) ∈ m := by
  unfold ptrMapGet at h
  cases hf : m.find? (fun e => decide (e.1 = insightID)) with
  | none => rw [hf] at h; cases h
  | some e =>
    rw [hf] at h
    have hp : e.2 = p := by simpa using h
    have hk : e.1 = insightID := by simpa using List.find?_some hf
    have hmem := List.mem_of_find?_eq_some hf
    obtain ⟨k, q⟩ := e
    simp only at hp hk
    subst hp hk
    exact hmem

/-- The list read on pointers: with the flag off the stored pointers of the
user and the heap as it was, with the flag on one fresh cell per insight of
the user and pointers to the fresh cells. -/
theorem ptrServiceGetInsightsByUserID_eq (m : InsightMap) (heap : Heap)
    (hvalid : ∀ e ∈ m, e.2 < heap.length) (flags : Option Flags) (userID : String) :
    ptrServiceGetInsightsByUserID m heap flags userID
      = if Flags.IsInsightsV2Enabled flags then
          some (heap ++ (((m.filter (fun e =>
              match heap[e.2]? with
              | some v => decide (v.UserID = userID)
              | none => false)).map (fun e => e.2)).filterMap
                (fun p => heap[p]?)).map applyV2ToSingleInsight,
            List.range' heap.length ((m.filter (fun e =>
              match heap[e.2]? with
              | some v => decide (v.UserID = userID)
              | none => false)).map (fun e => e.2)).length)
        else
          some (heap, (m.filter (fun e =>
              match heap[e.2]? with
              | some v => decide (v.UserID = userID)
              | none => false)).map (fun e => e.2)) := by
  have hp : ∀ p ∈ (m.filter (fun e =>
      match heap[e.2]? with
      | some v => decide (v.UserID = userID)
      | none => false)).map (fun e => e.2), p < heap.length := by
    intro p hp
    obtain ⟨e, he, rfl⟩ := List.mem_map.1 hp
    exact hvalid e (List.mem_filter.1 he).1
  have h1 := ptrGetInsightsByUserID_eq heap userID m [] hvalid
  have h2 := ptrApplyV2Algorithm_eq _ heap [] hp
  rw [List.nil_append] at h1 h2
  unfold ptrServiceGetInsightsByUserID
  rw [h1]
  simp only []
  rw [h2]

/-- The read by id on pointers: the not-found error or a stored pointer with
the heap as it was, or, with the flag on, a pointer to a fresh cell that holds
the shaped copy. -/
theorem ptrServiceGetInsightByID_eq (m : InsightMap) (heap : Heap)
    (hvalid : ∀ e ∈ m, e.2 < heap.length) (flags : Option Flags) (insightID : String) :
    (ptrMapGet m insightID = none →
      ptrServiceGetInsightByID m heap flags insightID
        = some (heap, .error "insight not found")) ∧
    (∀ p, ptrMapGet m insightID = some p →
      ∃ v, heap[p]? = some v ∧
        ptrServiceGetInsightByID m heap flags insightID
          = if Flags.IsInsightsV2Enabled flags then
              some (heap ++ [applyV2ToSingleInsight v], .ok heap.length)
            else some (heap, .ok p)) := by
  constructor
  · intro hget
    unfold ptrServiceGetInsightByID
    rw [hget]
  · intro p hget
    have hlt := hvalid _ (ptrMapGet_mem m insightID p hget)
    obtain ⟨v, hv⟩ := heapRead_of_lt heap p hlt
    refine ⟨v, hv, ?_⟩
    unfold ptrServiceGetInsightByID
    rw [hget]
    simp only []
    rw [ptrApplyV2ToSingleInsight_eq heap p v hv]

/-- One read only adds cells to the heap. -/
theorem runCall_extends (m : InsightMap) (heap : Heap) (hvalid : ∀ e ∈ m, e.2 < heap.length)
    (call : Call) : ∃ fresh, runCall m heap call = some (heap ++ fresh) := by
  cases call with
  | getInsightsByUserID flags userID =>
    show ∃ fresh, (ptrServiceGetInsightsByUserID m heap flags userID).map (fun res => res.1)
      = some (heap ++ fresh)
    rw [ptrServiceGetInsightsByUserID_eq m heap hvalid flags userID]
    cases Flags.IsInsightsV2Enabled flags with
    | false => exact ⟨[], by simp⟩
    | true => exact ⟨_, rfl⟩
  | getInsightByID flags insightID =>
    show ∃ fresh, (ptrServiceGetInsightByID m heap flags insightID).map (fun res => res.1)
      = some (heap ++ fresh)
    have h := ptrServiceGetInsightByID_eq m heap hvalid flags insightID
    cases hget : ptrMapGet m insightID with
    | none =>
      rw [h.1 hget]
      exact ⟨[], by simp⟩
    | some p =>
      obtain ⟨v, -, hres⟩ := h.2 p hget
      rw [hres]
      cases Flags.IsInsightsV2Enabled flags with
      | false => exact ⟨[], by simp⟩
      | true => exact ⟨_, rfl⟩

/-- A sequence of reads only adds cells to the heap. -/
theorem runCalls_extends (m : InsightMap) (calls : List Call) :
    ∀ heap : Heap, (∀ e ∈ m, e.2 < heap.length) →
      ∃ fresh, runCalls m heap calls = some (heap ++ fresh) := by
  induction calls with
  | nil => intro heap _; exact ⟨[], by simp [runCalls]⟩
  | cons call rest ih =>
    intro heap hvalid
    obtain ⟨fresh1, h1⟩ := runCall_extends m heap hvalid call
    have hvalid1 : ∀ e ∈ m, e.2 < (heap ++ fresh1).length := by
      intro e he
      have := hvalid e he
      simp only [List.length_append]
      omega
    obtain ⟨fresh2, h2⟩ := ih (heap ++ fresh1) hvalid1
    refine ⟨fresh1 ++ fresh2, ?_⟩
    unfold runCalls
    rw [h1]
    simp only []
    rw [h2, List.append_assoc]

/-- C12 (copy-on-shape): for every map of stored pointers into the heap, every
finite sequence of `GetInsightsByUserID` and `GetInsightByID` calls, each
under any flag store, runs without a nil dereference and leaves every stored
insight as it was: the stored insights, their titles in particular, and every
cell that was allocated before the calls are the same after the calls, so a
later read sees the repository the first read saw.  The calls write only to
cells they allocate. -/
theorem shaped_reads_leave_store (m : InsightMap) (heap : Heap)
    (hvalid : ∀ e ∈ m, e.2 < heap.length) (calls : List Call) :
    ∃ heap2, runCalls m heap calls = some heap2 ∧
      storedInsights m heap2 = storedInsights m heap ∧
      viewInsights m heap2 = viewInsights m heap ∧
      (∀ e ∈ m, (heap2[e.2]?).map (fun i => i.Title) = (heap[e.2]?).map (fun i => i.Title)) ∧
      (∀ p, p < heap.length → heap2[p]? = heap[p]?) := by
  obtain ⟨fresh, hrun⟩ := runCalls_extends m calls heap hvalid
  refine ⟨heap ++ fresh, hrun, ?_, ?_, ?_, fun p hp => heapRead_append heap fresh p hp⟩
  · unfold storedInsights
    apply List.map_congr_left
    intro e he
    rw [heapRead_append heap fresh e.2 (hvalid e he)]
  · unfold viewInsights
    apply List.filterMap_congr
    intro e he
    exact heapRead_append heap fresh e.2 (hvalid e he)
  · intro e he
    rw [heapRead_append heap fresh e.2 (hvalid e he)]

/-- C12 on the repository loaded from `demoInsights`: after three reads, two of
them shaping, the heap holds the four stored insights as before, followed by
the four shaped copies. -/
theorem shaped_reads_leave_store_witness :
    (∀ e ∈ demoMap, e.2 < demoInsights.length) ∧
    viewInsights demoMap demoInsights = demoRepo.insights ∧
    runCalls demoMap demoInsights demoCalls
      = some (demoInsights ++
          [applyV2ToSingleInsight
            (sampleInsight "ins-001" "user-001" "high" true "High Spending Alert"),
           applyV2ToSingleInsight
            (sampleInsight "ins-002" "user-001" "low" true "Savings Tip"),
           applyV2ToSingleInsight
            (sampleInsight "ins-004" "user-001" "high" false "Market Update"),
           applyV2ToSingleInsight
            (sampleInsight "ins-001" "user-001" "high" true "High Spending Alert")]) ∧
    ∃ heap2, runCalls demoMap demoInsights demoCalls = some heap2 ∧
      storedInsights demoMap heap2 = storedInsights demoMap demoInsights ∧
      viewInsights demoMap heap2 = viewInsights demoMap demoInsights ∧
      (∀ e ∈ demoMap,
        (heap2[e.2]?).map (fun i => i.Title) = (demoInsights[e.2]?).map (fun i => i.Title)) ∧
      (∀ p, p < demoInsights.length → heap2[p]? = demoInsights[p]?) :=
  ⟨by decide, by decide, by decide,
    shaped_reads_leave_store demoMap demoInsights (by decide) demoCalls⟩

theorem viewInsights_filter (heap : Heap) (userID : String) (m : InsightMap)
    (hvalid : ∀ e ∈ m, e.2 < heap.length) :
    ((m.filter (fun e =>
        match heap[e.2]? with
        | some v => decide (v.UserID = userID)
        | none => false)).map (fun e => e.2)).filterMap (fun p => heap[p]?)
      = (viewInsights m heap).filter (fun i => decide (i.UserID = userID)) := by
  induction m with
  | nil => rfl
  | cons e rest ih =>
    obtain ⟨v, hv⟩ := heapRead_of_lt heap e.2 (hvalid e (List.mem_cons_self _ _))
    have ih2 := ih (fun e he => hvalid e (List.mem_cons_of_mem _ he))
    unfold viewInsights at ih2 ⊢
    rw [List.filter_cons, List.filterMap_cons]
    simp only [hv]
    by_cases hu : v.UserID = userID
    · simp only [hu, decide_True, if_true, List.map_cons, List.filterMap_cons, hv,
        List.filter_cons]
      rw [ih2]
    · simp only [hu, decide_False, List.filter_cons]
      simpa using ih2

theorem filterMap_fresh_cells (fresh : List Insight) :
    ∀ heap : Heap, (List.range' heap.length fresh.length).filterMap
      (fun p => (heap ++ fresh)[p]?) = fresh := by
  induction fresh with
  | nil => intro heap; rfl
  | cons x xs ih =>
    intro heap
    have h := ih (heap ++ [x])
    rw [List.length_append, List.length_singleton, List.append_assoc,
      List.singleton_append] at h
    rw [List.length_cons, List.range'_succ, List.filterMap_cons]
    have hx : (heap ++ x :: xs)[heap.length]? = some x := by
      rw [List.getElem?_append_right (Nat.le_refl _)]
      simp
    simp only [hx]
    rw [h]

/-- The list read on pointers returns pointers to what the list read on values
returns. -/
theorem ptrServiceGetInsightsByUserID_refines (m : InsightMap) (heap : Heap)
    (hvalid : ∀ e ∈ m, e.2 < heap.length) (alerts : List Alert) (flags : Option Flags)
    (userID : String) :
    ∃ heap2 ptrs, ptrServiceGetInsightsByUserID m heap flags userID = some (heap2, ptrs) ∧
      GetInsightsByUserID ⟨viewInsights m heap, alerts⟩ flags userID
        = .ok (ptrs.filterMap (fun p => heap2[p]?)) := by
  rw [ptrServiceGetInsightsByUserID_eq m heap hvalid flags userID]
  have hview := viewInsights_filter heap userID m hvalid
  have hvalue : ∀ fl : Option Flags,
      GetInsightsByUserID ⟨viewInsights m heap, alerts⟩ fl userID
        = if Flags.IsInsightsV2Enabled fl then
            .ok (((viewInsights m heap).filter
              (fun i => decide (i.UserID = userID))).map applyV2ToSingleInsight)
          else .ok ((viewInsights m heap).filter (fun i => decide (i.UserID = userID))) := by
    intro fl
    unfold GetInsightsByUserID
    rw [GetInsightsByUserID_repo_eq]
    rfl
  rw [hvalue flags]
  cases Flags.IsInsightsV2Enabled flags with
  | false =>
    refine ⟨_, _, rfl, ?_⟩
    rw [hview]
    rfl
  | true =>
    refine ⟨_, _, rfl, ?_⟩
    simp only [if_true]
    rw [hview]
    have hlen : ((m.filter (fun e =>
        match heap[e.2]? with
        | some v => decide (v.UserID = userID)
        | none => false)).map (fun e => e.2)).length
        = (((viewInsights m heap).filter
            (fun i => decide (i.UserID = userID))).map applyV2ToSingleInsight).length := by
      have hall : ∀ (ps : List Nat), (∀ p ∈ ps, p < heap.length) →
          (ps.filterMap (fun p => heap[p]?)).length = ps.length := by
        intro ps hps
        induction ps with
        | nil => rfl
        | cons p ps ihp =>
          obtain ⟨v, hv⟩ := heapRead_of_lt heap p (hps p (List.mem_cons_self _ _))
          rw [List.filterMap_cons]
          simp only [hv, List.length_cons]
          rw [ihp (fun q hq => hps q (List.mem_cons_of_mem _ hq))]
      have hA := hall ((m.filter (fun e =>
          match heap[e.2]? with
          | some v => decide (v.UserID = userID)
          | none => false)).map (fun e => e.2)) (by
        intro p hp
        obtain ⟨e, he, rfl⟩ := List.mem_map.1 hp
        exact hvalid e (List.mem_filter.1 he).1)
      rw [← hA, hview]
      exact (List.length_map _ _).symm
    rw [hlen, filterMap_fresh_cells]

theorem mapGet_viewInsights (m : InsightMap) (heap : Heap) (hkeys : KeysMatch m heap)
    (insightID : String) :
    mapGet (fun i : Insight => i.ID) (viewInsights m heap) insightID
      = (ptrMapGet m insightID).bind (fun p => heap[p]?) := by
  induction m with
  | nil => rfl
  | cons e rest ih =>
    obtain ⟨v, hv, hid⟩ := hkeys e (List.mem_cons_self _ _)
    have ih2 := ih (fun e he => hkeys e (List.mem_cons_of_mem _ he))
    unfold mapGet viewInsights ptrMapGet at ih2 ⊢
    rw [List.filterMap_cons]
    simp only [hv, List.find?_cons]
    by_cases hk : e.1 = insightID
    · have hv2 : v.ID = insightID := hid.trans hk
      simp [hk, hv2, hv]
    · have hv2 : ¬ v.ID = insightID := fun h => hk (hid.symm.trans h)
      simp only [hk, hv2, decide_False]
      exact ih2

/-- The read by id on pointers returns the error, or a pointer to the insight,
that the read by id on values returns. -/
theorem ptrServiceGetInsightByID_refines (m : InsightMap) (heap : Heap)
    (hvalid : ∀ e ∈ m, e.2 < heap.length) (hkeys : KeysMatch m heap) (alerts : List Alert)
    (flags : Option Flags) (insightID : String) :
    (∃ heap2, ptrServiceGetInsightByID m heap flags insightID
        = some (heap2, .error "insight not found") ∧
      GetInsightByID ⟨viewInsights m heap, alerts⟩ flags insightID
        = .error "insight not found") ∨
    (∃ heap2 p v, ptrServiceGetInsightByID m heap flags insightID = some (heap2, .ok p) ∧
      heap2[p]? = some v ∧
      GetInsightByID ⟨viewInsights m heap, alerts⟩ flags insightID = .ok v) := by
  have h := ptrServiceGetInsightByID_eq m heap hvalid flags insightID
  have hget := mapGet_viewInsights m heap hkeys insightID
  cases hp : ptrMapGet m insightID with
  | none =>
    left
    refine ⟨heap, h.1 hp, ?_⟩
    rw [hp] at hget
    unfold GetInsightByID Repository.GetInsightByID
    simp only []
    rw [hget]
    rfl
  | some p =>
    right
    obtain ⟨v, hv, hres⟩ := h.2 p hp
    rw [hp] at hget
    have hget2 : mapGet (fun i : Insight => i.ID) (viewInsights m heap) insightID = some v := by
      rw [hget]; exact hv
    have hvalue : GetInsightByID ⟨viewInsights m heap, alerts⟩ flags insightID
        = if Flags.IsInsightsV2Enabled flags then .ok (applyV2ToSingleInsight v)
          else .ok v := by
      unfold GetInsightByID Repository.GetInsightByID
      simp only []
      rw [hget2]
    rw [hres, hvalue]
    cases Flags.IsInsightsV2Enabled flags with
    | false => exact ⟨heap, p, v, rfl, hv, rfl⟩
    | true =>
      refine ⟨_, _, applyV2ToSingleInsight v, rfl, ?_, rfl⟩
      rw [List.getElem?_append_right (Nat.le_refl _)]
      simp

/-- The priority of the alert of a qualifying insight is critical or high. -/
theorem newAlert_priority (k : Nat) (insight : Insight) (hq : qualifies insight = true) :
    (newAlert k insight).Priority = "critical" ∨ (newAlert k insight).Priority = "high" := by
  have hsev : insight.Severity = "medium" ∨ insight.Severity = "high" := by
    simp only [qualifies, Bool.and_eq_true, Bool.or_eq_true, beq_iff_eq] at hq
    exact hq.2
  show mapSeverityToPriority insight.Severity = "critical" ∨
    mapSeverityToPriority insight.Severity = "high"
  rcases hsev with h | h
  · right; rw [h]; decide
  · left; rw [h]; decide

/-- What the loop of `generateAlerts` keeps true of the alerts map: an entry
is one the map had before the loop or has priority critical or high. -/
theorem generateAlerts_loop_priority (old : List Alert) (insights : List Insight)
    (st : List Alert × Nat)
    (hst : ∀ a ∈ st.1, a ∈ old ∨ a.Priority = "critical" ∨ a.Priority = "high") :
    ∀ a ∈ (insights.foldl
        (fun (st : List Alert × Nat) insight =>
          if insight.Actionable && (insight.Severity == "medium" || insight.Severity == "high") then
            (mapSet (fun a => a.ID) st.1 (newAlert st.2 insight), st.2 + 1)
          else st) st).1,
      a ∈ old ∨ a.Priority = "critical" ∨ a.Priority = "high" := by
  induction insights generalizing st with
  | nil => exact hst
  | cons insight rest ih =>
    rw [List.foldl_cons]
    apply ih
    by_cases hq : qualifies insight = true
    · have hq2 : (insight.Actionable &&
          (insight.Severity == "medium" || insight.Severity == "high")) = true := hq
      rw [if_pos hq2]
      intro a ha
      rcases mem_mapSet (fun a : Alert => a.ID) st.1 (newAlert st.2 insight) a ha with h | h
      · exact hst a h
      · rw [h]
        exact Or.inr (newAlert_priority st.2 insight hq)
    · have hq2 : ¬ (insight.Actionable &&
          (insight.Severity == "medium" || insight.Severity == "high")) = true := hq
      rw [if_neg hq2]
      exact hst

/-- C29: every alert that `generateAlerts` produces (an alert of the map after
the call that the map did not hold before) has priority critical or high; the
priority medium of the default branch of `mapSeverityToPriority` is never
assigned to it.  An alert is derived only from an insight of severity medium
or high, which the mapping sends to high and critical. -/
theorem generateAlerts_priority_never_medium (r : Repository) (a : Alert)
    (ha : a ∈ r.generateAlerts.alerts) (hnew : a ∉ r.alerts) :
    (a.Priority = "critical" ∨ a.Priority = "high") ∧ a.Priority ≠ "medium" := by
  have h := generateAlerts_loop_priority r.alerts r.insights (r.alerts, 1)
    (fun a ha => Or.inl ha) a ha
  rcases h with h | h | h
  · exact absurd h hnew
  · exact ⟨Or.inl h, by rw [h]; decide⟩
  · exact ⟨Or.inr h, by rw [h]; decide⟩

/-- C29 at the first alert derived from `demoInsights`, whose priority is
critical. -/
theorem generateAlerts_priority_never_medium_witness :
    newAlert 1 (sampleInsight "ins-001" "user-001" "high" true "High Spending Alert")
      ∈ (Repository.loadInsights ⟨[], []⟩ demoInsights).generateAlerts.alerts ∧
    newAlert 1 (sampleInsight "ins-001" "user-001" "high" true "High Spending Alert")
      ∉ (Repository.loadInsights ⟨[], []⟩ demoInsights).alerts ∧
    (((newAlert 1 (sampleInsight "ins-001" "user-001" "high" true
          "High Spending Alert")).Priority = "critical" ∨
        (newAlert 1 (sampleInsight "ins-001" "user-001" "high" true
          "High Spending Alert")).Priority = "high") ∧
      (newAlert 1 (sampleInsight "ins-001" "user-001" "high" true
        "High Spending Alert")).Priority ≠ "medium") :=
  ⟨by decide, by simp [Repository.loadInsights],
    generateAlerts_priority_never_medium (Repository.loadInsights ⟨[], []⟩ demoInsights)
      (newAlert 1 (sampleInsight "ins-001" "user-001" "high" true "High Spending Alert"))
      (by decide) (by simp [Repository.loadInsights])⟩

end ApiInsights

/-! ## Lookup by primary key, across the three services -/

/-- C20: on a repository populated from a snapshot, each lookup by primary key
(`GetAccountByID`, `GetUserByID`, `GetTransactionByID`, `GetInsightByID`)
returns its not-found error if and only if no entity of the snapshot has the
id, and what it returns otherwise is an entity of the snapshot whose `ID` is
the id; it always returns one of the two. -/
theorem lookup_by_primary_key (users : List ApiAccounts.User)
    (accounts : List ApiAccounts.Account) (txAccounts : List ApiTransactions.Account)
    (transactions : List ApiTransactions.Transaction) (insights : List ApiInsights.Insight)
    (id : String) :
    (((ApiAccounts.NewRepository users accounts).GetAccountByID id
          = .error "account not found" ↔ ∀ a ∈ accounts, a.ID ≠ id) ∧
      (∀ a, (ApiAccounts.NewRepository users accounts).GetAccountByID id = .ok a →
        a ∈ accounts ∧ a.ID = id) ∧
      ((ApiAccounts.NewRepository users accounts).GetAccountByID id
          = .error "account not found" ∨
        ∃ a, (ApiAccounts.NewRepository users accounts).GetAccountByID id = .ok a)) ∧
    (((ApiAccounts.NewRepository users accounts).GetUserByID id
          = .error "user not found" ↔ ∀ u ∈ users, u.ID ≠ id) ∧
      (∀ u, (ApiAccounts.NewRepository users accounts).GetUserByID id = .ok u →
        u ∈ users ∧ u.ID = id) ∧
      ((ApiAccounts.NewRepository users accounts).GetUserByID id = .error "user not found" ∨
        ∃ u, (ApiAccounts.NewRepository users accounts).GetUserByID id = .ok u)) ∧
    (((ApiTransactions.NewRepository txAccounts transactions).GetTransactionByID id
          = .error "transaction not found" ↔ ∀ t ∈ transactions, t.ID ≠ id) ∧
      (∀ t, (ApiTransactions.NewRepository txAccounts transactions).GetTransactionByID id
          = .ok t → t ∈ transactions ∧ t.ID = id) ∧
      ((ApiTransactions.NewRepository txAccounts transactions).GetTransactionByID id
          = .error "transaction not found" ∨
        ∃ t, (ApiTransactions.NewRepository txAccounts transactions).GetTransactionByID id
          = .ok t)) ∧
    (((ApiInsights.NewRepository insights).GetInsightByID id
          = .error "insight not found" ↔ ∀ i ∈ insights, i.ID ≠ id) ∧
      (∀ i, (ApiInsights.NewRepository insights).GetInsightByID id = .ok i →
        i ∈ insights ∧ i.ID = id) ∧
      ((ApiInsights.NewRepository insights).GetInsightByID id = .error "insight not found" ∨
        ∃ i, (ApiInsights.NewRepository insights).GetInsightByID id = .ok i)) :=
  ⟨lookup_loaded (fun a : ApiAccounts.Account => a.ID) accounts id "account not found" _
      (fun h => by
        have h2 : mapGet (fun a : ApiAccounts.Account => a.ID)
            (ApiAccounts.NewRepository users accounts).accounts id = none := h
        unfold ApiAccounts.Repository.GetAccountByID
        rw [h2])
      (fun v h => by
        have h2 : mapGet (fun a : ApiAccounts.Account => a.ID)
            (ApiAccounts.NewRepository users accounts).accounts id = some v := h
        unfold ApiAccounts.Repository.GetAccountByID
        rw [h2]),
    lookup_loaded (fun u : ApiAccounts.User => u.ID) users id "user not found" _
      (fun h => by
        have h2 : mapGet (fun u : ApiAccounts.User => u.ID)
            (ApiAccounts.NewRepository users accounts).users id = none := h
        unfold ApiAccounts.Repository.GetUserByID
        rw [h2])
      (fun v h => by
        have h2 : mapGet (fun u : ApiAccounts.User => u.ID)
            (ApiAccounts.NewRepository users accounts).users id = some v := h
        unfold ApiAccounts.Repository.GetUserByID
        rw [h2]),
    lookup_loaded (fun t : ApiTransactions.Transaction => t.ID) transactions id
      "transaction not found" _
      (fun h => by
        have h2 : mapGet (fun t : ApiTransactions.Transaction => t.ID)
            (ApiTransactions.NewRepository txAccounts transactions).transactions id = none := h
        unfold ApiTransactions.Repository.GetTransactionByID
        rw [h2])
      (fun v h => by
        have h2 : mapGet (fun t : ApiTransactions.Transaction => t.ID)
            (ApiTransactions.NewRepository txAccounts transactions).transactions id
              = some v := h
        unfold ApiTransactions.Repository.GetTransactionByID
        rw [h2]),
    lookup_loaded (fun i : ApiInsights.Insight => i.ID) insights id "insight not found" _
      (fun h => by
        have h2 : mapGet (fun i : ApiInsights.Insight => i.ID)
            (ApiInsights.NewRepository insights).insights id = none := h
        unfold ApiInsights.Repository.GetInsightByID
        rw [h2])
      (fun v h => by
        have h2 : mapGet (fun i : ApiInsights.Insight => i.ID)
            (ApiInsights.NewRepository insights).insights id = some v := h
        unfold ApiInsights.Repository.GetInsightByID
        rw [h2])⟩

/-! ## Feature flags: defaults and writes -/

/-- The flag of a variable that is left at its default is not touched by the
override step of `Initialize`. -/
theorem noOverride_keeps {α : Type} (getenv : String → String) (name : String)
    (h : noOverride getenv name) (keep : α) (set : Bool → α) :
    (if getenv name ≠ "" then
      match ParseBool (getenv name) with
      | .ok b => set b
      | .error _ => keep
    else keep) = keep := by
  rcases h with h | h
  · simp [h]
  · split_ifs with h0
    · cases hp : ParseBool (getenv name) with
      | ok b => exact absurd hp (h b)
      | error e => rfl
    · rfl

/-- The flag of a variable that holds a boolean for `strconv.ParseBool` is
set to that boolean by the override step of `Initialize`. -/
theorem override_sets {α : Type} (getenv : String → String) (name : String) (b : Bool)
    (h : ParseBool (getenv name) = .ok b) (keep : α) (set : Bool → α) :
    (if getenv name ≠ "" then
      match ParseBool (getenv name) with
      | .ok b => set b
      | .error _ => keep
    else keep) = set b := by
  have hne : getenv name ≠ "" := by
    intro h0
    rw [h0] at h
    simp [ParseBool] at h
  rw [if_pos hne, h]

/-- C24: a flag that was never set reads as its documented default, flag by
flag.  On the store that `Initialize` returns, `IsInsightsV2Enabled` is false
when the environment gives no override for FEATURE_INSIGHTS_V2 (the variable
is not set or empty, or its value is no boolean for `strconv.ParseBool`),
`IsAlertsEnabled` is true when it gives none for FEATURE_ALERTS_ENABLED and
`IsAdvancedFiltersEnabled` is false when it gives none for
FEATURE_ADVANCED_FILTERS, whatever the other variables hold; a variable that
holds a boolean sets its own flag to it and no other.  On a nil store the
three readers return false, true and false. -/
theorem flags_read_documented_defaults (getenv : String → String) :
    ((noOverride getenv "FEATURE_INSIGHTS_V2" →
        ApiInsights.Flags.IsInsightsV2Enabled (some (ApiInsights.Initialize getenv)) = false) ∧
      (noOverride getenv "FEATURE_ALERTS_ENABLED" →
        ApiInsights.Flags.IsAlertsEnabled (some (ApiInsights.Initialize getenv)) = true) ∧
      (noOverride getenv "FEATURE_ADVANCED_FILTERS" →
        ApiTransactions.Flags.IsAdvancedFiltersEnabled
          (some (ApiTransactions.Initialize getenv)) = false)) ∧
    ((∀ b, ParseBool (getenv "FEATURE_INSIGHTS_V2") = .ok b →
        ApiInsights.Flags.IsInsightsV2Enabled (some (ApiInsights.Initialize getenv)) = b) ∧
      (∀ b, ParseBool (getenv "FEATURE_ALERTS_ENABLED") = .ok b →
        ApiInsights.Flags.IsAlertsEnabled (some (ApiInsights.Initialize getenv)) = b) ∧
      (∀ b, ParseBool (getenv "FEATURE_ADVANCED_FILTERS") = .ok b →
        ApiTransactions.Flags.IsAdvancedFiltersEnabled
          (some (ApiTransactions.Initialize getenv)) = b)) ∧
    (ApiInsights.Flags.IsInsightsV2Enabled none = false ∧
      ApiInsights.Flags.IsAlertsEnabled none = true ∧
      ApiTransactions.Flags.IsAdvancedFiltersEnabled none = false) := by
  have hV2 : ∀ fl : ApiInsights.Flags,
      ApiInsights.Flags.IsInsightsV2Enabled (some fl) = fl.insightsV2 := fun _ => rfl
  have hAl : ∀ fl : ApiInsights.Flags,
      ApiInsights.Flags.IsAlertsEnabled (some fl) = fl.alertsEnabled := fun _ => rfl
  have hAd : ∀ fl : ApiTransactions.Flags,
      ApiTransactions.Flags.IsAdvancedFiltersEnabled (some fl) = fl.advancedFilters :=
    fun _ => rfl
  refine ⟨⟨fun h => ?_, fun h => ?_, fun h => ?_⟩, ⟨fun b h => ?_, fun b h => ?_, fun b h => ?_⟩,
    rfl, rfl, rfl⟩
  · rw [hV2]
    unfold ApiInsights.Initialize
    simp only [noOverride_keeps getenv _ h]
    split
    · split <;> rfl
    · rfl
  · rw [hAl]
    unfold ApiInsights.Initialize
    simp only [noOverride_keeps getenv _ h]
  · rw [hAd]
    unfold ApiTransactions.Initialize
    simp only [noOverride_keeps getenv _ h]
  · rw [hV2]
    unfold ApiInsights.Initialize
    simp only [override_sets getenv _ b h]
    split
    · split <;> rfl
    · rfl
  · rw [hAl]
    unfold ApiInsights.Initialize
    simp only [override_sets getenv _ b h]
  · rw [hAd]
    unfold ApiTransactions.Initialize
    simp only [override_sets getenv _ b h]

/-- C24 at two environments.  In the first only FEATURE_ALERTS_ENABLED is
set, to a value that is no boolean: the three flags read their defaults.  In
the second only FEATURE_INSIGHTS_V2 is set, to true: the alerts flag, never
set, reads its default true beside a V2 flag that reads true. -/
theorem flags_read_documented_defaults_witness :
    (noOverride demoEnv "FEATURE_INSIGHTS_V2" ∧ noOverride demoEnv "FEATURE_ALERTS_ENABLED" ∧
      noOverride demoEnv "FEATURE_ADVANCED_FILTERS" ∧
      demoEnv "FEATURE_ALERTS_ENABLED" = "maybe" ∧
      ApiInsights.Flags.IsInsightsV2Enabled (some (ApiInsights.Initialize demoEnv)) = false ∧
      ApiInsights.Flags.IsAlertsEnabled (some (ApiInsights.Initialize demoEnv)) = true ∧
      ApiTransactions.Flags.IsAdvancedFiltersEnabled
        (some (ApiTransactions.Initialize demoEnv)) = false) ∧
    (noOverride v2Env "FEATURE_ALERTS_ENABLED" ∧
      v2Env "FEATURE_INSIGHTS_V2" = "true" ∧
      ApiInsights.Flags.IsAlertsEnabled (some (ApiInsights.Initialize v2Env)) = true ∧
      ApiInsights.Flags.IsInsightsV2Enabled (some (ApiInsights.Initialize v2Env)) = true) :=
  have hAlerts : noOverride demoEnv "FEATURE_ALERTS_ENABLED" :=
    Or.inr (fun b => by cases b <;> simp [demoEnv, ParseBool])
  ⟨⟨Or.inl rfl, hAlerts, Or.inl rfl, rfl,
      (flags_read_documented_defaults demoEnv).1.1 (Or.inl rfl),
      (flags_read_documented_defaults demoEnv).1.2.1 hAlerts,
      (flags_read_documented_defaults demoEnv).1.2.2 (Or.inl rfl)⟩,
    ⟨Or.inl rfl, rfl, (flags_read_documented_defaults v2Env).1.2.1 (Or.inl rfl),
      (flags_read_documented_defaults v2Env).2.1.1 true rfl⟩⟩

/-- C25: a read observes the latest write.  On a store that is not nil and for
every boolean `b`: after `SetInsightsV2(b)` the store is not nil,
`IsInsightsV2Enabled` returns `b` and `IsAlertsEnabled` what it returned
before; after `SetAlertsEnabled(b)` the store is not nil, `IsAlertsEnabled`
returns `b` and `IsInsightsV2Enabled` what it returned before; after
`SetAdvancedFilters(b)` the store is not nil and `IsAdvancedFiltersEnabled`
returns `b`.  A store is determined by what its readers return, each of which
is on or off. -/
theorem flag_read_observes_latest_write (fi : ApiInsights.Flags) (ft : ApiTransactions.Flags)
    (b : Bool) :
    ((∃ fi2, ApiInsights.Flags.SetInsightsV2 (some fi) b = some fi2) ∧
      ApiInsights.Flags.IsInsightsV2Enabled (ApiInsights.Flags.SetInsightsV2 (some fi) b) = b ∧
      ApiInsights.Flags.IsAlertsEnabled (ApiInsights.Flags.SetInsightsV2 (some fi) b)
        = ApiInsights.Flags.IsAlertsEnabled (some fi)) ∧
    ((∃ fi2, ApiInsights.Flags.SetAlertsEnabled (some fi) b = some fi2) ∧
      ApiInsights.Flags.IsAlertsEnabled (ApiInsights.Flags.SetAlertsEnabled (some fi) b) = b ∧
      ApiInsights.Flags.IsInsightsV2Enabled (ApiInsights.Flags.SetAlertsEnabled (some fi) b)
        = ApiInsights.Flags.IsInsightsV2Enabled (some fi)) ∧
    ((∃ ft2, ApiTransactions.Flags.SetAdvancedFilters (some ft) b = some ft2) ∧
      ApiTransactions.Flags.IsAdvancedFiltersEnabled
        (ApiTransactions.Flags.SetAdvancedFilters (some ft) b) = b) ∧
    (fi = ⟨ApiInsights.Flags.IsInsightsV2Enabled (some fi),
        ApiInsights.Flags.IsAlertsEnabled (some fi)⟩ ∧
      ft = ⟨ApiTransactions.Flags.IsAdvancedFiltersEnabled (some ft)⟩ ∧
      (ApiInsights.Flags.IsInsightsV2Enabled (some fi) = true ∨
        ApiInsights.Flags.IsInsightsV2Enabled (some fi) = false) ∧
      (ApiInsights.Flags.IsAlertsEnabled (some fi) = true ∨
        ApiInsights.Flags.IsAlertsEnabled (some fi) = false) ∧
      (ApiTransactions.Flags.IsAdvancedFiltersEnabled (some ft) = true ∨
        ApiTransactions.Flags.IsAdvancedFiltersEnabled (some ft) = false)) := by
  refine ⟨⟨⟨_, rfl⟩, rfl, rfl⟩, ⟨⟨_, rfl⟩, rfl, rfl⟩, ⟨⟨_, rfl⟩, rfl⟩, rfl, rfl, ?_, ?_, ?_⟩
  · cases fi.insightsV2 <;> simp [ApiInsights.Flags.IsInsightsV2Enabled]
  · cases fi.alertsEnabled <;> simp [ApiInsights.Flags.IsAlertsEnabled]
  · cases ft.advancedFilters <;> simp [ApiTransactions.Flags.IsAdvancedFiltersEnabled]

end AccountStack